import Mathlib

/-!
# libai5: the MES printers and the game catalogue

A shallow embedding of `src/mes/print.c` (with the declarations of
`include/ai5/mes.h`) and of `src/game.c`, and theorems about them.

Conventions of the embedding:

* the output port is append-only, so every printing function returns the text it
  writes; a call that reaches `ERROR(...)` (or dereferences a null pointer)
  returns `Except.error` instead;
* machine integers are natural numbers, reduced modulo `2^w` wherever the C code
  reads or computes a `w`-bit value;
* the anonymous union `arg8`/`arg16`/`arg32` of `struct mes_expression` is one
  number `arg`, of which `arg8` is the low byte and `arg16` the low 16 bits;
* the statement decoder `mes_parse_statements` is declared in `ai5/mes.h` but its
  source is not part of these files: its decoding loop, over an abstract reader of
  payloads, and its last pass `mark_jump_targets`, which marks the jump targets,
  are modelled from the specification.
-/

set_option autoImplicit false

namespace Ai5

/-! ## Data model (`include/ai5/mes.h`) -/

/-- The virtual expression opcodes, `enum mes_expression_op`. -/
inductive mes_expression_op where
  | MES_EXPR_IMM
  | MES_EXPR_VAR
  | MES_EXPR_ARRAY16_GET16
  | MES_EXPR_ARRAY16_GET8
  | MES_EXPR_PLUS
  | MES_EXPR_MINUS
  | MES_EXPR_MUL
  | MES_EXPR_DIV
  | MES_EXPR_MOD
  | MES_EXPR_RAND
  | MES_EXPR_AND
  | MES_EXPR_OR
  | MES_EXPR_BITAND
  | MES_EXPR_BITIOR
  | MES_EXPR_BITXOR
  | MES_EXPR_LT
  | MES_EXPR_GT
  | MES_EXPR_LTE
  | MES_EXPR_GTE
  | MES_EXPR_EQ
  | MES_EXPR_NEQ
  | MES_EXPR_IMM16
  | MES_EXPR_IMM32
  | MES_EXPR_REG16
  | MES_EXPR_REG8
  | MES_EXPR_ARRAY32_GET32
  | MES_EXPR_ARRAY32_GET16
  | MES_EXPR_ARRAY32_GET8
  | MES_EXPR_VAR32
  | MES_EXPR_END
  deriving DecidableEq, Repr

open mes_expression_op

/-- The expression node `struct mes_expression`: an opcode, the argument union,
and the two child pointers `sub_a` and `sub_b`; `NULL` is the null pointer. -/
inductive mes_expression where
  | NULL : mes_expression
  | node (op : mes_expression_op) (arg : Nat) (sub_a sub_b : mes_expression) : mes_expression
  deriving DecidableEq, Repr

/-- Number of slots of each system-variable name table, `MES_NR_SYSTEM_VARIABLES`. -/
def MES_NR_SYSTEM_VARIABLES : Nat := 26

/-- The two tables `mes_system_var16_names` and `mes_system_var32_names`. The header
declares them as arrays of `MES_NR_SYSTEM_VARIABLES` strings; their contents are
defined outside the printed sources, so they are a parameter of the printer. A slot
without a name is `none` (a null string pointer). -/
structure system_var_names where
  mes_system_var16_names : Fin MES_NR_SYSTEM_VARIABLES → Option String
  mes_system_var32_names : Fin MES_NR_SYSTEM_VARIABLES → Option String

/-- Ways in which printing stops without returning. -/
inductive fault where
  | invalid_binary_operator
  | end_expression
  | null_dereference
  deriving DecidableEq, Repr

/-! ## Formatting directives of `port_printf` -/

/-- Text of the directive `%u`: unsigned decimal, no padding. -/
def printf_u (n : Nat) : String := String.mk (Nat.toDigits 10 n)

/-- Text of the directive `%x`: lowercase hexadecimal, no prefix, no padding. -/
def printf_x (n : Nat) : String := String.mk (Nat.toDigits 16 n)

/-- Text of the directive `%d`: signed decimal. -/
def printf_d (i : Int) : String :=
  if i < 0 then "-" ++ printf_u i.natAbs else printf_u i.toNat

/-! ## Expressions (`src/mes/print.c`) -/

/-- Symbol of a binary operator, `binary_op_to_string`. -/
def binary_op_to_string : mes_expression_op → Except fault String
  | MES_EXPR_PLUS => .ok "+"
  | MES_EXPR_MINUS => .ok "-"
  | MES_EXPR_MUL => .ok "*"
  | MES_EXPR_DIV => .ok "/"
  | MES_EXPR_MOD => .ok "%"
  | MES_EXPR_AND => .ok "&&"
  | MES_EXPR_OR => .ok "||"
  | MES_EXPR_BITAND => .ok "&"
  | MES_EXPR_BITIOR => .ok "|"
  | MES_EXPR_BITXOR => .ok "^"
  | MES_EXPR_LT => .ok "<"
  | MES_EXPR_GT => .ok ">"
  | MES_EXPR_LTE => .ok "<="
  | MES_EXPR_GTE => .ok ">="
  | MES_EXPR_EQ => .ok "=="
  | MES_EXPR_NEQ => .ok "!="
  | _ => .error .invalid_binary_operator

/-- The test `is_binary_op`. Its `switch` has no case for `MES_EXPR_MOD`. -/
def is_binary_op : mes_expression_op → Bool
  | MES_EXPR_PLUS
  | MES_EXPR_MINUS
  | MES_EXPR_MUL
  | MES_EXPR_DIV
  | MES_EXPR_AND
  | MES_EXPR_OR
  | MES_EXPR_BITAND
  | MES_EXPR_BITIOR
  | MES_EXPR_BITXOR
  | MES_EXPR_LT
  | MES_EXPR_GT
  | MES_EXPR_LTE
  | MES_EXPR_GTE
  | MES_EXPR_EQ
  | MES_EXPR_NEQ => true
  | _ => false

/-- The decision `binary_parens_required(op, sub)`: whether the child `sub` of a
node with operator `op` is printed between parentheses. -/
def binary_parens_required (op : mes_expression_op) : mes_expression → Except fault Bool
  | .NULL => .error .null_dereference
  | .node sub_op _ _ _ =>
    if !is_binary_op sub_op then .ok false
    else match op with
      | MES_EXPR_IMM
      | MES_EXPR_VAR
      | MES_EXPR_ARRAY16_GET16
      | MES_EXPR_ARRAY16_GET8
      | MES_EXPR_RAND
      | MES_EXPR_IMM16
      | MES_EXPR_IMM32
      | MES_EXPR_REG16
      | MES_EXPR_REG8
      | MES_EXPR_ARRAY32_GET32
      | MES_EXPR_ARRAY32_GET16
      | MES_EXPR_ARRAY32_GET8
      | MES_EXPR_VAR32
      | MES_EXPR_END => .error .invalid_binary_operator
      | MES_EXPR_MUL
      | MES_EXPR_DIV
      | MES_EXPR_MOD => .ok true
      | MES_EXPR_PLUS
      | MES_EXPR_MINUS =>
        match sub_op with
        | MES_EXPR_MUL
        | MES_EXPR_DIV
        | MES_EXPR_MOD => .ok false
        | _ => .ok true
      | MES_EXPR_LT
      | MES_EXPR_GT
      | MES_EXPR_GTE
      | MES_EXPR_LTE
      | MES_EXPR_EQ
      | MES_EXPR_NEQ =>
        match sub_op with
        | MES_EXPR_PLUS
        | MES_EXPR_MINUS
        | MES_EXPR_MUL
        | MES_EXPR_DIV
        | MES_EXPR_MOD => .ok false
        | _ => .ok true
      | MES_EXPR_BITAND
      | MES_EXPR_BITIOR
      | MES_EXPR_BITXOR => .ok true
      | MES_EXPR_AND
      | MES_EXPR_OR =>
        match sub_op with
        | MES_EXPR_AND
        | MES_EXPR_OR => .ok true
        | _ => .ok false

/-- The lookup `system_var16_name(no)`: the table is read only below
`MES_NR_SYSTEM_VARIABLES`. -/
def system_var16_name (T : system_var_names) (no : Nat) : Option String :=
  if h : no < MES_NR_SYSTEM_VARIABLES then T.mes_system_var16_names ⟨no, h⟩ else none

/-- The lookup `system_var32_name(no)`. -/
def system_var32_name (T : system_var_names) (no : Nat) : Option String :=
  if h : no < MES_NR_SYSTEM_VARIABLES then T.mes_system_var32_names ⟨no, h⟩ else none

/-- The formatter `print_number(n, out, hex)` on a `uint32_t` value `n`;
`n - 1` and `n + 1` wrap modulo `2^32`. -/
def print_number (n : Nat) (hex : Bool) : String :=
  let hex :=
    if n < 255 then hex
    else if n &&& 0xff = 0 then true
    else if n &&& ((n + 4294967295) % 4294967296) = 0 ∨ ((n + 1) % 4294967296) &&& n = 0 then true
    else hex
  if hex then "0x" ++ printf_x n else printf_u n

/-- Body of `mes_binary_expression_print(op, lhs, rhs, out, bitwise)`, the texts
`print_lhs` and `print_rhs` being what `_mes_expression_print` gives for `lhs` and
`rhs` under the flag `bitwise`. The right operand `rhs` is written first. -/
def binary_expression_text (op : mes_expression_op) (lhs rhs : mes_expression)
    (print_lhs print_rhs : Except fault String) : Except fault String := do
  let parens_rhs ← binary_parens_required op rhs
  let text_rhs ← print_rhs
  let first := if parens_rhs then "(" ++ text_rhs ++ ")" else text_rhs
  let symbol ← binary_op_to_string op
  let parens_lhs ← binary_parens_required op lhs
  let text_lhs ← print_lhs
  let second := if parens_lhs then "(" ++ text_lhs ++ ")" else text_lhs
  pure (first ++ (" " ++ symbol ++ " ") ++ second)

/-- Body of `op_array16_get16_print(expr, out)` on the fields `arg` and `sub_a` of
`expr`, the text `print_sub_a` being what `mes_expression_print` gives for `sub_a`. -/
def array16_get16_text (T : system_var_names) (arg : Nat) (sub_a : mes_expression)
    (print_sub_a : Except fault String) : Except fault String :=
  if arg % 256 = 0 then
    match sub_a with
    | .NULL => .error .null_dereference
    | .node sub_op sub_arg _ _ =>
      match (if sub_op = MES_EXPR_IMM then system_var16_name T (sub_arg % 256) else none) with
      | some name => .ok ("System." ++ name)
      | none => do
        let index ← print_sub_a
        pure ("System.var16[" ++ index ++ "]")
  else do
    let index ← print_sub_a
    pure ("var16[" ++ printf_d ((arg % 256 : Nat) - 1) ++ "]->word[" ++ index ++ "]")

/-- Body of `op_array32_get32_print(expr, out)`, as `array16_get16_text`. -/
def array32_get32_text (T : system_var_names) (arg : Nat) (sub_a : mes_expression)
    (print_sub_a : Except fault String) : Except fault String :=
  if arg % 256 = 0 then
    match sub_a with
    | .NULL => .error .null_dereference
    | .node sub_op sub_arg _ _ =>
      match (if sub_op = MES_EXPR_IMM then system_var32_name T (sub_arg % 256) else none) with
      | some name => .ok ("System." ++ name)
      | none => do
        let index ← print_sub_a
        pure ("System.var32[" ++ index ++ "]")
  else do
    let index ← print_sub_a
    pure ("var32[" ++ printf_d ((arg % 256 : Nat) - 1) ++ "]->dword[" ++ index ++ "]")

/-- The recursive printer `_mes_expression_print(expr, out, bitwise)`. The calls
`mes_expression_print(expr->sub_a, out)` of the source are the recursive calls with
the flag `false`. -/
def _mes_expression_print (T : system_var_names) : mes_expression → Bool → Except fault String
  | .NULL, _ => .error .null_dereference
  | .node op arg sub_a sub_b, bitwise =>
    match op with
    | MES_EXPR_IMM => .ok (print_number (arg % 256) bitwise)
    | MES_EXPR_VAR => .ok ("var16[" ++ printf_u (arg % 256) ++ "]")
    | MES_EXPR_ARRAY16_GET16 =>
      array16_get16_text T arg sub_a (_mes_expression_print T sub_a false)
    | MES_EXPR_ARRAY16_GET8 => do
      let index ← _mes_expression_print T sub_a false
      pure ("var16[" ++ printf_d ((arg % 256 : Nat) : Int) ++ "]->byte[" ++ index ++ "]")
    | MES_EXPR_PLUS
    | MES_EXPR_MINUS
    | MES_EXPR_MUL
    | MES_EXPR_DIV
    | MES_EXPR_MOD =>
      binary_expression_text op sub_a sub_b
        (_mes_expression_print T sub_a bitwise) (_mes_expression_print T sub_b bitwise)
    | MES_EXPR_AND
    | MES_EXPR_OR
    | MES_EXPR_LT
    | MES_EXPR_GT
    | MES_EXPR_LTE
    | MES_EXPR_GTE
    | MES_EXPR_EQ
    | MES_EXPR_NEQ =>
      binary_expression_text op sub_a sub_b
        (_mes_expression_print T sub_a false) (_mes_expression_print T sub_b false)
    | MES_EXPR_BITAND
    | MES_EXPR_BITIOR
    | MES_EXPR_BITXOR =>
      binary_expression_text op sub_a sub_b
        (_mes_expression_print T sub_a true) (_mes_expression_print T sub_b true)
    | MES_EXPR_RAND => do
      let operand ← _mes_expression_print T sub_a false
      pure ("rand(" ++ operand ++ ")")
    | MES_EXPR_IMM16 => .ok (print_number (arg % 65536) bitwise)
    | MES_EXPR_IMM32 => .ok (print_number (arg % 4294967296) bitwise)
    | MES_EXPR_REG16 => .ok ("var4[" ++ printf_u (arg % 65536) ++ "]")
    | MES_EXPR_REG8 => do
      let index ← _mes_expression_print T sub_a false
      pure ("var4[" ++ index ++ "]")
    | MES_EXPR_ARRAY32_GET32 =>
      array32_get32_text T arg sub_a (_mes_expression_print T sub_a false)
    | MES_EXPR_ARRAY32_GET16 => do
      let index ← _mes_expression_print T sub_a false
      pure ("var32[" ++ printf_d ((arg % 256 : Nat) - 1) ++ "]->word[" ++ index ++ "]")
    | MES_EXPR_ARRAY32_GET8 => do
      let index ← _mes_expression_print T sub_a false
      pure ("var32[" ++ printf_d ((arg % 256 : Nat) - 1) ++ "]->byte[" ++ index ++ "]")
    | MES_EXPR_VAR32 => .ok ("var32[" ++ printf_d ((arg % 256 : Nat) : Int) ++ "]")
    | MES_EXPR_END => .error .end_expression

/-- The entry point `mes_expression_print(expr, out)`. -/
def mes_expression_print (T : system_var_names) (expr : mes_expression) : Except fault String :=
  _mes_expression_print T expr false

/-- The function `mes_binary_expression_print(op, lhs, rhs, out, bitwise)`. -/
def mes_binary_expression_print (T : system_var_names) (op : mes_expression_op)
    (lhs rhs : mes_expression) (bitwise : Bool) : Except fault String :=
  binary_expression_text op lhs rhs
    (_mes_expression_print T lhs bitwise) (_mes_expression_print T rhs bitwise)

/-- The function `op_array16_get16_print(expr, out)`. -/
def op_array16_get16_print (T : system_var_names) : mes_expression → Except fault String
  | .NULL => .error .null_dereference
  | .node _ arg sub_a _ => array16_get16_text T arg sub_a (mes_expression_print T sub_a)

/-- The function `op_array32_get32_print(expr, out)`. -/
def op_array32_get32_print (T : system_var_names) : mes_expression → Except fault String
  | .NULL => .error .null_dereference
  | .node _ arg sub_a _ => array32_get32_text T arg sub_a (mes_expression_print T sub_a)


/-! ## Parameters and statements (`include/ai5/mes.h`) -/

/-- The parameter `struct mes_parameter`: a string or an expression, by its `type`. -/
inductive mes_parameter where
  | MES_PARAM_STRING (str : String)
  | MES_PARAM_EXPRESSION (expr : mes_expression)
  deriving DecidableEq, Repr

/-- The virtual statement opcodes, `enum mes_statement_op`. -/
inductive mes_statement_op where
  | MES_STMT_END
  | MES_STMT_TXT
  | MES_STMT_STR
  | MES_STMT_SETRBC
  | MES_STMT_SETV
  | MES_STMT_SETRBE
  | MES_STMT_SETAC
  | MES_STMT_SETA_AT
  | MES_STMT_SETAD
  | MES_STMT_SETAW
  | MES_STMT_SETAB
  | MES_STMT_JZ
  | MES_STMT_JMP
  | MES_STMT_SYS
  | MES_STMT_GOTO
  | MES_STMT_CALL
  | MES_STMT_MENUI
  | MES_STMT_PROC
  | MES_STMT_UTIL
  | MES_STMT_LINE
  | MES_STMT_PROCD
  | MES_STMT_MENUS
  | MES_STMT_SETRD
  deriving DecidableEq, Repr

open mes_statement_op

/-- The tagged union of `struct mes_statement`: for each opcode, the member of the
union that the printers read for it. `TXT` and `STR` both use the member `TXT`. -/
inductive mes_statement_payload where
  | END
  | TXT (text : String) (terminated unprefixed : Bool)
  | STR (text : String) (terminated unprefixed : Bool)
  | SETRBC (reg_no : Nat) (exprs : List mes_expression)
  | SETV (var_no : Nat) (exprs : List mes_expression)
  | SETRBE (reg_expr : mes_expression) (val_exprs : List mes_expression)
  | SETAC (var_no : Nat) (off_expr : mes_expression) (val_exprs : List mes_expression)
  | SETA_AT (var_no : Nat) (off_expr : mes_expression) (val_exprs : List mes_expression)
  | SETAD (var_no : Nat) (off_expr : mes_expression) (val_exprs : List mes_expression)
  | SETAW (var_no : Nat) (off_expr : mes_expression) (val_exprs : List mes_expression)
  | SETAB (var_no : Nat) (off_expr : mes_expression) (val_exprs : List mes_expression)
  | JZ (addr : Nat) (expr : mes_expression)
  | JMP (addr : Nat)
  | SYS (expr : mes_expression) (params : List mes_parameter)
  | GOTO (params : List mes_parameter)
  | CALL (params : List mes_parameter)
  | MENUI (addr : Nat) (params : List mes_parameter)
  | PROC (params : List mes_parameter)
  | UTIL (params : List mes_parameter)
  | LINE (arg : Nat)
  | PROCD (skip_addr : Nat) (no_expr : mes_expression)
  | MENUS
  | SETRD (var_no : Nat) (val_exprs : List mes_expression)
  deriving DecidableEq, Repr

/-- The statement `struct mes_statement`; the field `op` is the tag of the payload. -/
structure mes_statement where
  address : Nat
  next_address : Nat
  is_jump_target : Bool
  payload : mes_statement_payload
  deriving DecidableEq, Repr

/-- The field `op` of a statement. -/
def mes_statement.op (stmt : mes_statement) : mes_statement_op :=
  match stmt.payload with
  | .END => MES_STMT_END
  | .TXT _ _ _ => MES_STMT_TXT
  | .STR _ _ _ => MES_STMT_STR
  | .SETRBC _ _ => MES_STMT_SETRBC
  | .SETV _ _ => MES_STMT_SETV
  | .SETRBE _ _ => MES_STMT_SETRBE
  | .SETAC _ _ _ => MES_STMT_SETAC
  | .SETA_AT _ _ _ => MES_STMT_SETA_AT
  | .SETAD _ _ _ => MES_STMT_SETAD
  | .SETAW _ _ _ => MES_STMT_SETAW
  | .SETAB _ _ _ => MES_STMT_SETAB
  | .JZ _ _ => MES_STMT_JZ
  | .JMP _ => MES_STMT_JMP
  | .SYS _ _ => MES_STMT_SYS
  | .GOTO _ => MES_STMT_GOTO
  | .CALL _ => MES_STMT_CALL
  | .MENUI _ _ => MES_STMT_MENUI
  | .PROC _ => MES_STMT_PROC
  | .UTIL _ => MES_STMT_UTIL
  | .LINE _ => MES_STMT_LINE
  | .PROCD _ _ => MES_STMT_PROCD
  | .MENUS => MES_STMT_MENUS
  | .SETRD _ _ => MES_STMT_SETRD

/-- Text of the directive `%08x`: lowercase hexadecimal, padded on the left with zeros
to eight characters. -/
def printf_08x (n : Nat) : String :=
  String.mk (List.replicate (8 - (Nat.toDigits 16 n).length) '0' ++ Nat.toDigits 16 n)

/-! ## Expression lists and parameters (`src/mes/print.c`) -/

/-- The loop of `mes_expression_list_print` from index `i` on. -/
def expression_list_loop (T : system_var_names) : List mes_expression → Nat → Except fault String
  | [], _ => .ok ""
  | e :: rest, i => do
    let text ← mes_expression_print T e
    let tail ← expression_list_loop T rest (i + 1)
    pure ((if i > 0 then "," else "") ++ text ++ tail)

/-- The function `mes_expression_list_print(list, out)`. -/
def mes_expression_list_print (T : system_var_names) (list : List mes_expression) :
    Except fault String :=
  expression_list_loop T list 0

/-- The function `mes_parameter_print(param, out)`. -/
def mes_parameter_print (T : system_var_names) : mes_parameter → Except fault String
  | .MES_PARAM_STRING str => .ok ("\"" ++ str ++ "\"")
  | .MES_PARAM_EXPRESSION expr => mes_expression_print T expr

/-- The loop of `mes_parameter_list_print_from` over the parameters from index `i` on. -/
def parameter_list_loop (T : system_var_names) (start : Nat) :
    List mes_parameter → Nat → Except fault String
  | [], _ => .ok ""
  | p :: rest, i => do
    let text ← mes_parameter_print T p
    let tail ← parameter_list_loop T start rest (i + 1)
    pure ((if i > start then "," else "") ++ text ++ tail)

/-- The function `mes_parameter_list_print_from(list, start, out)`. -/
def mes_parameter_list_print_from (T : system_var_names) (list : List mes_parameter)
    (start : Nat) : Except fault String := do
  let items ← parameter_list_loop T start (list.drop start) start
  pure ("(" ++ items ++ ")")

/-- The function `mes_parameter_list_print(list, out)`. -/
def mes_parameter_list_print (T : system_var_names) (list : List mes_parameter) :
    Except fault String :=
  mes_parameter_list_print_from T list 0

/-- The function `indent_print(out, indent)`: one tab for each `i` with
`0 <= i < indent`. -/
def indent_print (indent : Int) : String :=
  String.join (List.replicate indent.toNat "\t")

/-- Text of a label, `L_%08x` on a `uint32_t` address. -/
def label_text (addr : Nat) : String := "L_" ++ printf_08x (addr % 4294967296)

/-! ## Assembly statements (`src/mes/print.c`) -/

/-- The text that `mes_asm_statement_print` writes after the label and the
indentation: the `switch` on `stmt->op`. -/
def asm_statement_text (T : system_var_names) : mes_statement_payload → Except fault String
  | .END => .ok "END;\n"
  | .TXT text _ _ => .ok ("TXT \"" ++ text ++ "\";\n")
  | .STR text _ _ => .ok ("STR \"" ++ text ++ "\";\n")
  | .SETRBC reg_no exprs => do
    let values ← mes_expression_list_print T exprs
    pure ("SETRBC[" ++ printf_u (reg_no % 65536) ++ "] = " ++ values ++ ";\n")
  | .SETV var_no exprs => do
    let values ← mes_expression_list_print T exprs
    pure ("SETV[" ++ printf_u (var_no % 256) ++ "] = " ++ values ++ ";\n")
  | .SETRBE reg_expr val_exprs => do
    let index ← mes_expression_print T reg_expr
    let values ← mes_expression_list_print T val_exprs
    pure ("SETRBE[" ++ index ++ "] = " ++ values ++ ";\n")
  | .SETAC var_no off_expr val_exprs => do
    let offset ← mes_expression_print T off_expr
    let values ← mes_expression_list_print T val_exprs
    pure ("SETAC[" ++ printf_u (var_no % 256) ++ "][" ++ offset ++ "] = " ++ values ++ ";\n")
  | .SETA_AT var_no off_expr val_exprs => do
    let offset ← mes_expression_print T off_expr
    let values ← mes_expression_list_print T val_exprs
    pure ("SETA@[" ++ printf_u (var_no % 256) ++ "][" ++ offset ++ "] = " ++ values ++ ";\n")
  | .SETAD var_no off_expr val_exprs => do
    let offset ← mes_expression_print T off_expr
    let values ← mes_expression_list_print T val_exprs
    pure ("SETAD[" ++ printf_u (var_no % 256) ++ "][" ++ offset ++ "] = " ++ values ++ ";\n")
  | .SETAW var_no off_expr val_exprs => do
    let offset ← mes_expression_print T off_expr
    let values ← mes_expression_list_print T val_exprs
    pure ("SETAW[" ++ printf_u (var_no % 256) ++ "][" ++ offset ++ "] = " ++ values ++ ";\n")
  | .SETAB var_no off_expr val_exprs => do
    let offset ← mes_expression_print T off_expr
    let values ← mes_expression_list_print T val_exprs
    pure ("SETAB[" ++ printf_u (var_no % 256) ++ "][" ++ offset ++ "] = " ++ values ++ ";\n")
  | .JZ addr expr => do
    let condition ← mes_expression_print T expr
    pure ("JZ " ++ condition ++ " " ++ label_text addr ++ ";\n")
  | .JMP addr => .ok ("JMP " ++ label_text addr ++ ";\n")
  | .SYS expr params => do
    let selector ← mes_expression_print T expr
    let arguments ← mes_parameter_list_print T params
    pure ("SYS[" ++ selector ++ "]" ++ arguments ++ ";\n")
  | .GOTO params => do
    let arguments ← mes_parameter_list_print T params
    pure ("GOTO" ++ arguments ++ ";\n")
  | .CALL params => do
    let arguments ← mes_parameter_list_print T params
    pure ("CALL" ++ arguments ++ ";\n")
  | .MENUI addr params => do
    let arguments ← mes_parameter_list_print T params
    pure ("MENUI" ++ arguments ++ " " ++ label_text addr ++ ";\n")
  | .PROC params => do
    let arguments ← mes_parameter_list_print T params
    pure ("PROC" ++ arguments ++ ";\n")
  | .UTIL params => do
    let arguments ← mes_parameter_list_print T params
    pure ("UTIL" ++ arguments ++ ";\n")
  | .LINE arg => .ok ("LINE " ++ printf_u (arg % 256) ++ ";\n")
  | .PROCD skip_addr no_expr => do
    let number ← mes_expression_print T no_expr
    pure ("PROCD " ++ number ++ " " ++ label_text skip_addr ++ ";\n")
  | .MENUS => .ok "MENUS;\n"
  | .SETRD var_no val_exprs => do
    let values ← mes_expression_list_print T val_exprs
    pure ("SETRD[" ++ printf_u (var_no % 256) ++ "] = " ++ values ++ ";\n")

/-- The function `mes_asm_statement_print(stmt, out, indent)`: the label line of a jump
target, indented one level less, then the indentation and the statement. -/
def mes_asm_statement_print (T : system_var_names) (stmt : mes_statement) (indent : Int) :
    Except fault String := do
  let label :=
    if stmt.is_jump_target then indent_print (indent - 1) ++ label_text stmt.address ++ ":\n"
    else ""
  let text ← asm_statement_text T stmt.payload
  pure (label ++ indent_print indent ++ text)

/-- The function `mes_asm_statement_list_print(statements, out)`. -/
def mes_asm_statement_list_print (T : system_var_names) :
    List mes_statement → Except fault String
  | [] => .ok ""
  | stmt :: rest => do
    let first ← mes_asm_statement_print T stmt 1
    let others ← mes_asm_statement_list_print T rest
    pure (first ++ others)

/-! ## Pseudocode statements (`src/mes/print.c`) -/

/-- The function `stmt_seta_at_print(stmt, out)` on the fields of `stmt->SETA_AT`. -/
def stmt_seta_at_print (T : system_var_names) (var_no : Nat) (off_expr : mes_expression)
    (val_exprs : List mes_expression) : Except fault String := do
  let target ←
    if var_no % 256 = 0 then
      match off_expr with
      | .NULL => .error .null_dereference
      | .node off_op off_arg _ _ =>
        match (if off_op = MES_EXPR_IMM then system_var16_name T (off_arg % 256) else none) with
        | some name => .ok ("System." ++ name)
        | none => do
          let offset ← mes_expression_print T off_expr
          pure ("System.var16[" ++ offset ++ "]")
    else do
      let offset ← mes_expression_print T off_expr
      pure ("var16[" ++ printf_d ((var_no % 256 : Nat) - 1) ++ "]->word[" ++ offset ++ "]")
  let values ← mes_expression_list_print T val_exprs
  pure (target ++ " = " ++ values ++ ";\n")

/-- The function `stmt_setad_print(stmt, out)` on the fields of `stmt->SETAD`. -/
def stmt_setad_print (T : system_var_names) (var_no : Nat) (off_expr : mes_expression)
    (val_exprs : List mes_expression) : Except fault String := do
  let target ←
    if var_no % 256 = 0 then
      match off_expr with
      | .NULL => .error .null_dereference
      | .node off_op off_arg _ _ =>
        match (if off_op = MES_EXPR_IMM then system_var32_name T (off_arg % 256) else none) with
        | some name => .ok ("System." ++ name)
        | none => do
          let offset ← mes_expression_print T off_expr
          pure ("System.var32[" ++ offset ++ "]")
    else do
      let offset ← mes_expression_print T off_expr
      pure ("var32[" ++ printf_d ((var_no % 256 : Nat) - 1) ++ "]->dword[" ++ offset ++ "]")
  let values ← mes_expression_list_print T val_exprs
  pure (target ++ " = " ++ values ++ ";\n")

/-- The function `get_int_parameter(params, i)`: the value of parameter `i` when it is
an 8-bit immediate expression, and `-1` otherwise. -/
def get_int_parameter (params : List mes_parameter) (i : Nat) : Except fault Int :=
  match params.get? i with
  | none => .ok (-1)
  | some (.MES_PARAM_STRING _) => .ok (-1)
  | some (.MES_PARAM_EXPRESSION .NULL) => .error .null_dereference
  | some (.MES_PARAM_EXPRESSION (.node op arg _ _)) =>
    if op ≠ MES_EXPR_IMM then .ok (-1) else .ok ((arg % 256 : Nat) : Int)

/-- The label `fallback` of `stmt_sys_print`. -/
def sys_fallback (T : system_var_names) (expr : mes_expression) (params : List mes_parameter) :
    Except fault String := do
  let selector ← mes_expression_print T expr
  let arguments ← mes_parameter_list_print T params
  pure ("System.function[" ++ selector ++ "]" ++ arguments ++ ";\n")

/-- A case of `stmt_sys_print` that writes a fixed name and every parameter. -/
def sys_plain (T : system_var_names) (name : String) (params : List mes_parameter) :
    Except fault String := do
  let arguments ← mes_parameter_list_print T params
  pure (name ++ arguments ++ ";\n")

/-- A case of `stmt_sys_print` that reads the command number `cmd` from parameter 0,
goes to `fallback` when that is negative, and otherwise writes the name of the command
and the parameters from index 1 on. -/
def sys_command (T : system_var_names) (expr : mes_expression) (params : List mes_parameter)
    (name : Int → String) : Except fault String := do
  let cmd ← get_int_parameter params 0
  if cmd < 0 then sys_fallback T expr params
  else do
    let arguments ← mes_parameter_list_print_from T params 1
    pure (name cmd ++ arguments ++ ";\n")

/-- Names of `case 2` of `stmt_sys_print`. -/
def sys_cursor_name (cmd : Int) : String :=
  if cmd = 0 then "System.Cursor.reload"
  else if cmd = 1 then "System.Cursor.unload"
  else if cmd = 2 then "System.Cursor.save_pos"
  else if cmd = 3 then "System.Cursor.set_pos"
  else if cmd = 4 then "System.Cursor.load"
  else if cmd = 5 then "System.Cursor.show"
  else if cmd = 6 then "System.Cursor.hide"
  else "System.Cursor.function[" ++ printf_d cmd ++ "]"

/-- Names of `case 4` of `stmt_sys_print`. -/
def sys_savedata_name (cmd : Int) : String :=
  if cmd = 0 then "System.SaveData.resume_load"
  else if cmd = 1 then "System.SaveData.resume_save"
  else if cmd = 2 then "System.SaveData.load"
  else if cmd = 3 then "System.SaveData.save"
  else if cmd = 4 then "System.SaveData.load_var4"
  else if cmd = 5 then "System.SaveData.save_var4"
  else if cmd = 6 then "System.SaveData.save_union_var4"
  else if cmd = 7 then "System.SaveData.load_var4_slice"
  else if cmd = 8 then "System.SaveData.save_var4_slice"
  else if cmd = 9 then "System.SaveData.copy"
  else if cmd = 11 then "System.SaveData.function[11]"
  else if cmd = 12 then "System.SaveData.function[12]"
  else if cmd = 13 then "System.SaveData.set_mes_name"
  else "System.SaveData.function[" ++ printf_d cmd ++ "]"

/-- Names of `case 5` of `stmt_sys_print`. -/
def sys_audio_name (cmd : Int) : String :=
  if cmd = 0 then "System.Audio.bgm_play"
  else if cmd = 2 then "System.Audio.bgm_stop"
  else if cmd = 3 then "System.Audio.se_play"
  else if cmd = 4 then "System.Audio.bgm_fade_sync"
  else if cmd = 5 then "System.Audio.bgm_set_volume"
  else if cmd = 7 then "System.Audio.bgm_fade"
  else if cmd = 9 then "System.Audio.bgm_fade_out_sync"
  else if cmd = 10 then "System.Audio.bgm_fade_out"
  else if cmd = 12 then "System.Audio.se_stop"
  else if cmd = 18 then "System.Audio.bgm_stop2"
  else "System.Audio.function[" ++ printf_d cmd ++ "]"

/-- Names of `case 7` of `stmt_sys_print`. -/
def sys_file_name (cmd : Int) : String :=
  if cmd = 0 then "System.File.read"
  else if cmd = 1 then "System.File.write"
  else "System.File.function[" ++ printf_d cmd ++ "]"

/-- Names of `case 9` of `stmt_sys_print`. -/
def sys_palette_name (cmd : Int) : String :=
  if cmd = 0 then "System.Palette.set"
  else "System.Palette.function[" ++ printf_d cmd ++ "]"

/-- Names of `case 10` of `stmt_sys_print`. -/
def sys_image_name (cmd : Int) : String :=
  if cmd = 2 then "System.Image.fill_bg"
  else if cmd = 4 then "System.Image.swap_bg_fg"
  else "System.Image.function[" ++ printf_d cmd ++ "]"

/-- The function `stmt_sys_print(stmt, out)` on the fields of `stmt->SYS`; the `switch`
on `stmt->SYS.expr->arg8` is the chain of tests on `selector`. -/
def stmt_sys_print (T : system_var_names) (expr : mes_expression) (params : List mes_parameter) :
    Except fault String :=
  match expr with
  | .NULL => .error .null_dereference
  | .node op arg _ _ =>
    if op ≠ MES_EXPR_IMM then sys_fallback T expr params
    else
      let selector := arg % 256
      if selector = 0 then sys_plain T "System.set_font_size" params
      else if selector = 2 then sys_command T expr params sys_cursor_name
      else if selector = 3 then
        sys_command T expr params fun cmd => "System.function[3].function[" ++ printf_d cmd ++ "]"
      else if selector = 4 then sys_command T expr params sys_savedata_name
      else if selector = 5 then sys_command T expr params sys_audio_name
      else if selector = 7 then sys_command T expr params sys_file_name
      else if selector = 8 then sys_plain T "System.load_image" params
      else if selector = 9 then sys_command T expr params sys_palette_name
      else if selector = 11 then sys_plain T "System.wait" params
      else if selector = 10 then sys_command T expr params sys_image_name
      else if selector = 12 then sys_plain T "System.set_text_colors" params
      else if selector = 13 then sys_plain T "System.farcall" params
      else if selector = 16 then sys_plain T "System.get_time" params
      else if selector = 17 then sys_plain T "System.noop" params
      else if selector = 19 then
        sys_command T expr params fun cmd => "System.function[19].function[" ++ printf_d cmd ++ "]"
      else if selector = 20 then sys_plain T "System.noop2" params
      else if selector = 21 then sys_plain T "System.strlen" params
      else if selector = 22 then
        sys_command T expr params fun cmd => "System.function[22].function[" ++ printf_d cmd ++ "]"
      else if selector = 23 then sys_plain T "System.set_screen_surface" params
      else sys_fallback T expr params

/-- The text that `_mes_statement_print` writes after the indentation: the `switch` on
`stmt->op`. -/
def statement_text (T : system_var_names) : mes_statement_payload → Except fault String
  | .END => .ok "return;\n"
  | .TXT text terminated unprefixed =>
    .ok ((if unprefixed then "unprefixed " else "") ++
      (if !terminated then "unterminated " else "") ++ "\"" ++ text ++ "\";\n")
  | .STR text terminated unprefixed =>
    .ok ((if unprefixed then "unprefixed " else "") ++
      (if !terminated then "unterminated " else "") ++ "\"" ++ text ++ "\";\n")
  | .SETRBC reg_no exprs => do
    let values ← mes_expression_list_print T exprs
    pure ("var4[" ++ printf_u (reg_no % 65536) ++ "] = " ++ values ++ ";\n")
  | .SETV var_no exprs => do
    let values ← mes_expression_list_print T exprs
    pure ("var16[" ++ printf_u (var_no % 256) ++ "] = " ++ values ++ ";\n")
  | .SETRBE reg_expr val_exprs => do
    let index ← mes_expression_print T reg_expr
    let values ← mes_expression_list_print T val_exprs
    pure ("var4[" ++ index ++ "] = " ++ values ++ ";\n")
  | .SETAC var_no off_expr val_exprs => do
    let offset ← mes_expression_print T off_expr
    let values ← mes_expression_list_print T val_exprs
    pure ("var16[" ++ printf_u (var_no % 256) ++ "]->byte[" ++ offset ++ "] = " ++ values ++
      ";\n")
  | .SETA_AT var_no off_expr val_exprs => stmt_seta_at_print T var_no off_expr val_exprs
  | .SETAD var_no off_expr val_exprs => stmt_setad_print T var_no off_expr val_exprs
  | .SETAW var_no off_expr val_exprs => do
    let offset ← mes_expression_print T off_expr
    let values ← mes_expression_list_print T val_exprs
    pure ("var32[" ++ printf_d ((var_no % 256 : Nat) - 1) ++ "]->word[" ++ offset ++ "] = " ++
      values ++ ";\n")
  | .SETAB var_no off_expr val_exprs => do
    let offset ← mes_expression_print T off_expr
    let values ← mes_expression_list_print T val_exprs
    pure ("var32[" ++ printf_d ((var_no % 256 : Nat) - 1) ++ "]->byte[" ++ offset ++ "] = " ++
      values ++ ";\n")
  | .JZ addr expr => do
    let condition ← mes_expression_print T expr
    pure ("jz " ++ condition ++ " " ++ label_text addr ++ ";\n")
  | .JMP addr => .ok ("goto " ++ label_text addr ++ ";\n")
  | .SYS expr params => stmt_sys_print T expr params
  | .GOTO params => do
    let arguments ← mes_parameter_list_print T params
    pure ("jump" ++ arguments ++ ";\n")
  | .CALL params => do
    let arguments ← mes_parameter_list_print T params
    pure ("call" ++ arguments ++ ";\n")
  | .MENUI addr params => do
    let arguments ← mes_parameter_list_print T params
    pure ("defmenu" ++ arguments ++ " " ++ label_text addr ++ ";\n")
  | .PROC params => do
    let arguments ← mes_parameter_list_print T params
    pure ("call" ++ arguments ++ ";\n")
  | .UTIL params => do
    let arguments ← mes_parameter_list_print T params
    pure ("util" ++ arguments ++ ";\n")
  | .LINE arg => .ok ("line " ++ printf_u (arg % 256) ++ ";\n")
  | .PROCD skip_addr no_expr => do
    let number ← mes_expression_print T no_expr
    pure ("defproc " ++ number ++ " " ++ label_text skip_addr ++ ";\n")
  | .MENUS => .ok "menuexec;\n"
  | .SETRD var_no val_exprs => do
    let values ← mes_expression_list_print T val_exprs
    pure ("var32[" ++ printf_d ((var_no % 256 : Nat) : Int) ++ "] = " ++ values ++ ";\n")

/-- The function `_mes_statement_print(stmt, out, indent)`. -/
def _mes_statement_print (T : system_var_names) (stmt : mes_statement) (indent : Int) :
    Except fault String := do
  let text ← statement_text T stmt.payload
  pure (indent_print indent ++ text)

/-- The function `mes_statement_print(stmt, out)`. -/
def mes_statement_print (T : system_var_names) (stmt : mes_statement) : Except fault String :=
  _mes_statement_print T stmt 1

/-- The function `_mes_statement_list_print(statements, out, indent)`. -/
def _mes_statement_list_print (T : system_var_names) :
    List mes_statement → Int → Except fault String
  | [], _ => .ok ""
  | stmt :: rest, indent => do
    let first ← _mes_statement_print T stmt indent
    let others ← _mes_statement_list_print T rest indent
    pure (first ++ others)

/-- The function `mes_statement_list_print(statements, out)`. -/
def mes_statement_list_print (T : system_var_names) (statements : List mes_statement) :
    Except fault String :=
  _mes_statement_list_print T statements 1

/-- The function `mes_flat_statement_list_print(statements, out)`. -/
def mes_flat_statement_list_print (T : system_var_names) :
    List mes_statement → Except fault String
  | [] => .ok ""
  | stmt :: rest => do
    let label := if stmt.is_jump_target then label_text stmt.address ++ ":\n" else ""
    let first ← _mes_statement_print T stmt 1
    let others ← mes_flat_statement_list_print T rest
    pure (label ++ first ++ others)

/-! ## The game catalogue (`src/game.c`) -/

/-- The identifiers `enum ai5_game_id` that `game.c` names; the enumeration is declared
in `ai5/game.h`. -/
inductive ai5_game_id where
  | GAME_AI_SHIMAI
  | GAME_BEYOND
  | GAME_DOUKYUUSEI
  | GAME_ISAKU
  | GAME_KOIHIME
  | GAME_YUKINOJOU
  | GAME_ELF_CLASSICS
  deriving DecidableEq, Repr

/-- An entry `struct ai5_game` of the catalogue. -/
structure ai5_game where
  name : String
  id : ai5_game_id
  description : String
  deriving DecidableEq, Repr

/-- The table `ai5_games`. -/
def ai5_games : List ai5_game :=
  [⟨"aishimai", .GAME_AI_SHIMAI, "愛姉妹 ～二人の果実～"⟩,
   ⟨"beyond", .GAME_BEYOND, "ビ・ ヨンド ～黒大将に見られてる～"⟩,
   ⟨"doukyuusei", .GAME_DOUKYUUSEI, "同級生 Windows版"⟩,
   ⟨"isaku", .GAME_ISAKU, "遺作 リニューアル"⟩,
   ⟨"koihime", .GAME_KOIHIME, "恋姫"⟩,
   ⟨"yukinojou", .GAME_YUKINOJOU, "あしたの雪之丞"⟩,
   ⟨"yuno", .GAME_ELF_CLASSICS, "この世の果てで恋を唄う少女YU-NO (エルフclassics)"⟩]

/-- The status `EXIT_FAILURE`. -/
def EXIT_FAILURE : Nat := 1

/-- The first loop of `ai5_parse_game_id` over the entries from some index on: the
identifier of the first entry whose name compares equal to `str`. -/
def parse_game_id_loop (str : String) : List ai5_game → Option ai5_game_id
  | [] => none
  | game :: rest => if str = game.name then some game.id else parse_game_id_loop str rest

/-- The function `ai5_parse_game_id(str)`: it returns the identifier found by the loop,
and otherwise, after the warnings, ends the process through `sys_exit(EXIT_FAILURE)`,
which is the result `Except.error EXIT_FAILURE`. -/
def ai5_parse_game_id (str : String) : Except Nat ai5_game_id :=
  match parse_game_id_loop str ai5_games with
  | some id => .ok id
  | none => .error EXIT_FAILURE

/-! ## Vocabulary of the specification -/

deriving instance DecidableEq for Except

/-- The additive family `+`, `-`. -/
def additive_ops : List mes_expression_op := [MES_EXPR_PLUS, MES_EXPR_MINUS]

/-- The multiplicative family `*`, `/`, `%`. -/
def multiplicative_ops : List mes_expression_op := [MES_EXPR_MUL, MES_EXPR_DIV, MES_EXPR_MOD]

/-- The relational and equality family `<`, `>`, `<=`, `>=`, `==`, `!=`. -/
def relational_ops : List mes_expression_op :=
  [MES_EXPR_LT, MES_EXPR_GT, MES_EXPR_LTE, MES_EXPR_GTE, MES_EXPR_EQ, MES_EXPR_NEQ]

/-- The bitwise family `&`, `|`, `^`. -/
def bitwise_ops : List mes_expression_op := [MES_EXPR_BITAND, MES_EXPR_BITIOR, MES_EXPR_BITXOR]

/-- The logical family `&&`, `||`. -/
def logical_ops : List mes_expression_op := [MES_EXPR_AND, MES_EXPR_OR]

/-- The sixteen binary operators `+ - * / % && || & | ^ < > <= >= == !=`. -/
def binary_operators : List mes_expression_op :=
  additive_ops ++ multiplicative_ops ++ logical_ops ++ bitwise_ops ++ relational_ops

/-- The flag handed to the children of a binary operator, in the words of the
specification (4.4): a bitwise operator sets it, a comparison or logical operator
clears it, an arithmetic operator passes on the flag it received. -/
def spec_child_flag (op : mes_expression_op) (bitwise : Bool) : Bool :=
  if op ∈ bitwise_ops then true
  else if op ∈ relational_ops ++ logical_ops then false
  else bitwise

/-- An 8-bit immediate node. -/
def imm8 (n : Nat) : mes_expression := .node MES_EXPR_IMM n .NULL .NULL

/-- A 16-bit immediate node. -/
def imm16 (n : Nat) : mes_expression := .node MES_EXPR_IMM16 n .NULL .NULL

/-- A 32-bit immediate node. -/
def imm32 (n : Nat) : mes_expression := .node MES_EXPR_IMM32 n .NULL .NULL

/-- A name table without any name. -/
def no_names : system_var_names := ⟨fun _ => none, fun _ => none⟩

/-- A 32-bit value is mask-shaped, in the words of the specification (4.4a), when its
low byte is zero, or it is a power of two, or it is one less than a power of two, the
successor being taken modulo `2^32`. -/
def mask_shaped (n : Nat) : Prop :=
  n % 256 = 0 ∨ (∃ k, n = 2 ^ k) ∨ (n + 1) % 2 ^ 32 = 0 ∨ ∃ k, (n + 1) % 2 ^ 32 = 2 ^ k

/-- The value that `_mes_expression_print` hands to `print_number` for an immediate
node: `arg8`, `arg16` or `arg32` according to the node's width. -/
def immediate_value : mes_expression → Option Nat
  | .node MES_EXPR_IMM arg _ _ => some (arg % 256)
  | .node MES_EXPR_IMM16 arg _ _ => some (arg % 65536)
  | .node MES_EXPR_IMM32 arg _ _ => some (arg % 4294967296)
  | _ => none

/-- The operator of a node, if the pointer is not null. -/
def root_op : mes_expression → Option mes_expression_op
  | .NULL => none
  | .node op _ _ _ => some op

/-- One step from a binary operator node down into one of its two children: the
operator and argument of the node, the side entered, and the other child. -/
structure descent where
  op : mes_expression_op
  arg : Nat
  into_sub_b : Bool
  sibling : mes_expression

/-- The node of a descent, with `e` as the child that the descent enters. -/
def descent.node (d : descent) (e : mes_expression) : mes_expression :=
  if d.into_sub_b then .node d.op d.arg d.sibling e else .node d.op d.arg e d.sibling

/-- The tree that has `e` at the end of the path `ds`, outermost step first. -/
def plug : List descent → mes_expression → mes_expression
  | [], e => e
  | d :: ds, e => d.node (plug ds e)

/-- The flag that reaches the end of a path under the threading rule of the
specification, from the flag `bitwise` received at the top. -/
def flag_at : List descent → Bool → Bool
  | [], bitwise => bitwise
  | d :: ds, bitwise => flag_at ds (spec_child_flag d.op bitwise)

/-- Sample step: into `sub_b` of a `&` node whose other child is the immediate 1. -/
def sample_and_step : descent := ⟨MES_EXPR_BITAND, 0, true, imm8 1⟩

/-- Sample step: into `sub_a` of a `+` node whose other child is `var16[2]`. -/
def sample_plus_step : descent := ⟨MES_EXPR_PLUS, 0, false, .node MES_EXPR_VAR 2 .NULL .NULL⟩

/-- Sample step: into `sub_a` of a `<` node whose other child is `var16[2]`. -/
def sample_lt_step : descent := ⟨MES_EXPR_LT, 0, false, .node MES_EXPR_VAR 2 .NULL .NULL⟩

/-! ## Re-parsing the printed text by the precedence table -/

/-- The lexical items of a printed binary expression: the two parentheses, a binary
operator (written between two spaces), and an operand that is not itself a binary
operator node, given by its text. -/
inductive token where
  | lparen
  | rparen
  | operator (op : mes_expression_op)
  | atom (text : String)
  deriving DecidableEq, Repr

/-- The grouping of a binary expression: operands at the leaves, and at each operator
the operand written first and the operand written second. -/
inductive grouping where
  | leaf (text : String)
  | binary (op : mes_expression_op) (first second : grouping)
  deriving DecidableEq, Repr

/-- Text of a lexical item. -/
def token_text : token → String
  | .lparen => "("
  | .rparen => ")"
  | .operator op =>
    match binary_op_to_string op with
    | .ok symbol => " " ++ symbol ++ " "
    | .error _ => ""
  | .atom text => text

/-- Text of a sequence of lexical items. -/
def tokens_text : List token → String
  | [] => ""
  | t :: ts => token_text t ++ tokens_text ts

/-- Whether `op` is one of the sixteen binary operators. -/
def is_binary_operator (op : mes_expression_op) : Bool := decide (op ∈ binary_operators)

/-- The lexical items that `_mes_expression_print` writes for `expr` under the flag
`bitwise`: a binary operator node gives the items of `sub_b`, the operator and the items
of `sub_a`, either side between parentheses when `binary_parens_required` says so; any
other node is one operand, with the text the printer writes for it. -/
def expression_tokens (T : system_var_names) : mes_expression → Bool → Except fault (List token)
  | .NULL, _ => .error .null_dereference
  | .node op arg sub_a sub_b, bitwise =>
    if is_binary_operator op then do
      let parens_b ← binary_parens_required op sub_b
      let items_b ← expression_tokens T sub_b (spec_child_flag op bitwise)
      let _ ← binary_op_to_string op
      let parens_a ← binary_parens_required op sub_a
      let items_a ← expression_tokens T sub_a (spec_child_flag op bitwise)
      pure ((if parens_b then [.lparen] ++ items_b ++ [.rparen] else items_b) ++
        [.operator op] ++
        (if parens_a then [.lparen] ++ items_a ++ [.rparen] else items_a))
    else do
      let text ← _mes_expression_print T (.node op arg sub_a sub_b) bitwise
      pure [.atom text]

/-- The grouping of the tree `expr`: the binary operator nodes with, at the leaves, the
text of the operands that are not binary operator nodes. -/
def expression_grouping (T : system_var_names) : mes_expression → Bool → Except fault grouping
  | .NULL, _ => .error .null_dereference
  | .node op arg sub_a sub_b, bitwise =>
    if is_binary_operator op then do
      let first ← expression_grouping T sub_b (spec_child_flag op bitwise)
      let second ← expression_grouping T sub_a (spec_child_flag op bitwise)
      pure (.binary op first second)
    else do
      let text ← _mes_expression_print T (.node op arg sub_a sub_b) bitwise
      pure (.leaf text)

/-- The precedence table of the specification (4.4): the multiplicative family binds
tighter than the additive family, which binds tighter than the relational and equality
family, which binds tighter than the bitwise family; the logical operators, which only
parenthesise logical children, bind loosest. -/
def precedence : mes_expression_op → Nat
  | MES_EXPR_MUL | MES_EXPR_DIV | MES_EXPR_MOD => 5
  | MES_EXPR_PLUS | MES_EXPR_MINUS => 4
  | MES_EXPR_LT | MES_EXPR_GT | MES_EXPR_LTE | MES_EXPR_GTE | MES_EXPR_EQ | MES_EXPR_NEQ => 3
  | MES_EXPR_BITAND | MES_EXPR_BITIOR | MES_EXPR_BITXOR => 2
  | MES_EXPR_AND | MES_EXPR_OR => 1
  | _ => 0

mutual

/-- Parser of the precedence table, by precedence climbing: `parse_expr fuel min ts`
reads from `ts` an operand (an atom or a parenthesised expression) and then, with
`parse_loop`, every following operator of precedence at least `min` together with its
right operand. An operator takes as right operand what binds strictly tighter than
itself, so that operators of one family group to the left. The result is the grouping
read and the items left over; `fuel` bounds the depth of the recursion. -/
def parse_expr : Nat → Nat → List token → Option (grouping × List token)
  | 0, _, _ => none
  | fuel + 1, min, .atom text :: rest => parse_loop fuel min (.leaf text) rest
  | fuel + 1, min, .lparen :: rest =>
    match parse_expr fuel 0 rest with
    | some (g, .rparen :: rest') => parse_loop fuel min g rest'
    | _ => none
  | _ + 1, _, _ => none

/-- The loop of `parse_expr`, with the grouping `lhs` read so far. -/
def parse_loop : Nat → Nat → grouping → List token → Option (grouping × List token)
  | 0, _, _, _ => none
  | fuel + 1, min, lhs, .operator op :: rest =>
    if min ≤ precedence op then
      match parse_expr fuel (precedence op + 1) rest with
      | some (rhs, rest') => parse_loop fuel min (.binary op lhs rhs) rest'
      | none => none
    else some (lhs, .operator op :: rest)
  | _ + 1, _, lhs, rest => some (lhs, rest)

end

/-- The grouping that the precedence table gives to a whole sequence of items. -/
def parse (ts : List token) : Option grouping :=
  match parse_expr (ts.length + 1) 0 ts with
  | some (g, []) => some g
  | _ => none

/-- No multiplicative operator node of the binary skeleton of the tree has a `%` node
as its second-written operand `sub_a`. -/
def no_mod_second_operand : mes_expression → Bool
  | .NULL => true
  | .node op _ sub_a sub_b =>
    if is_binary_operator op then
      !(decide (op ∈ multiplicative_ops) && decide (root_op sub_a = some MES_EXPR_MOD)) &&
        no_mod_second_operand sub_a && no_mod_second_operand sub_b
    else true

/-- The items `ts`, between parentheses when `parens` holds. -/
def wrap_tokens (parens : Bool) (ts : List token) : List token :=
  if parens then [.lparen] ++ ts ++ [.rparen] else ts

/-- The decision of `binary_parens_required` for a child given by its grouping: a leaf
is an operand that is not a binary operator node. -/
def child_parens (op : mes_expression_op) : grouping → Bool
  | .leaf _ => false
  | .binary child_op _ _ =>
    match binary_parens_required op (.node child_op 0 .NULL .NULL) with
    | .ok parens => parens
    | .error _ => false

/-- The lexical items of a grouping under the parenthesisation of the printer. -/
def grouping_tokens : grouping → List token
  | .leaf text => [.atom text]
  | .binary op first second =>
    wrap_tokens (child_parens op first) (grouping_tokens first) ++ [.operator op] ++
      wrap_tokens (child_parens op second) (grouping_tokens second)

/-- Precedence of the operator at the top of a grouping; an operand binds tighter than
every operator. -/
def grouping_level : grouping → Nat
  | .leaf _ => 6
  | .binary op _ _ => precedence op

/-- The operator at the top of a grouping, if it is not an operand. -/
def grouping_root : grouping → Option mes_expression_op
  | .leaf _ => none
  | .binary op _ _ => some op

/-- The condition `no_mod_second_operand` on a grouping, every operator of which is one
of the sixteen binary operators. -/
def grouping_ok : grouping → Bool
  | .leaf _ => true
  | .binary op first second =>
    is_binary_operator op &&
      !(decide (op ∈ multiplicative_ops) && decide (grouping_root second = some MES_EXPR_MOD)) &&
      grouping_ok first && grouping_ok second

/-- The tree of the claim: `(1 + 2) + 3`, a `+` node whose first-written child `sub_b`
is the `+` node of 1 and 2 and whose other child is 3. -/
def sample_sum : mes_expression :=
  .node MES_EXPR_PLUS 0 (imm8 3) (.node MES_EXPR_PLUS 0 (imm8 2) (imm8 1))

/-- A tree over several families, written `var16[1] + 2 * 3 < 9 && 4 - (5 + 6)`. -/
def sample_comparison : mes_expression :=
  .node MES_EXPR_AND 0
    (.node MES_EXPR_MINUS 0 (.node MES_EXPR_PLUS 0 (imm8 6) (imm8 5)) (imm8 4))
    (.node MES_EXPR_LT 0 (imm8 9)
      (.node MES_EXPR_PLUS 0 (.node MES_EXPR_MUL 0 (imm8 3) (imm8 2))
        (.node MES_EXPR_VAR 1 .NULL .NULL)))

/-- The operators whose operand `sub_a` the printer renders: the array reads, `rand`
and the register read by expression. -/
def operand_ops : List mes_expression_op :=
  [MES_EXPR_ARRAY16_GET16, MES_EXPR_ARRAY16_GET8, MES_EXPR_RAND, MES_EXPR_REG8,
   MES_EXPR_ARRAY32_GET32, MES_EXPR_ARRAY32_GET16, MES_EXPR_ARRAY32_GET8]

/-- A tree in the sense of the data model: every child pointer that the printer follows
is a node, both children under a binary operator and `sub_a` under an operator with an
operand. -/
def well_formed : mes_expression → Bool
  | .NULL => false
  | .node op _ sub_a sub_b =>
    if op ∈ binary_operators then well_formed sub_a && well_formed sub_b
    else if op ∈ operand_ops then well_formed sub_a
    else true

/-- Whether a position that the printer renders holds the terminator `MES_EXPR_END`. -/
def has_rendered_end : mes_expression → Bool
  | .NULL => false
  | .node op _ sub_a sub_b =>
    if op = MES_EXPR_END then true
    else if op ∈ binary_operators then has_rendered_end sub_a || has_rendered_end sub_b
    else if op ∈ operand_ops then has_rendered_end sub_a
    else false

/-- A parameter that is a string, or an expression that is a tree without a rendered
terminator. -/
def parameter_end_free : mes_parameter → Bool
  | .MES_PARAM_STRING _ => true
  | .MES_PARAM_EXPRESSION expr => well_formed expr && !has_rendered_end expr

/-- The selectors that have a case in the `switch` of `stmt_sys_print`. -/
def sys_selectors : List Nat :=
  [0, 2, 3, 4, 5, 7, 8, 9, 10, 11, 12, 13, 16, 17, 19, 20, 21, 22, 23]

/-- The subsystems with a table of named commands: the selector, the name of the
subsystem, and the command numbers that have a name of their own. -/
def sys_subsystems : List (Nat × String × List Nat) :=
  [(2, "Cursor", [0, 1, 2, 3, 4, 5, 6]),
   (4, "SaveData", [0, 1, 2, 3, 4, 5, 6, 7, 8, 9, 13]),
   (5, "Audio", [0, 2, 3, 4, 5, 7, 9, 10, 12, 18]),
   (7, "File", [0, 1]),
   (9, "Palette", [0]),
   (10, "Image", [2, 4])]

/-- A `SYS` statement with the selector expression `expr`. -/
def sys_statement (address next_address : Nat) (is_jump_target : Bool) (expr : mes_expression)
    (params : List mes_parameter) : mes_statement :=
  ⟨address, next_address, is_jump_target, .SYS expr params⟩

/-- The result of an operator with an operand: a fault of the operand is the fault of
the node, and apart from that the node is written. -/
def operand_result (inner outer : Except fault String) : Prop :=
  match inner with
  | .error err => outer = .error err
  | .ok _ => ∃ s, outer = .ok s

/-- The sixteen characters `0`-`9`, `a`-`f` of a lowercase hexadecimal numeral. -/
def hex_alphabet : List Char := "0123456789abcdef".data

/-- The value of a lowercase hexadecimal digit, and 0 for any other character. -/
def hex_digit_value (c : Char) : Nat := hex_alphabet.indexOf c % 16

/-- The value of a hexadecimal numeral, most significant digit first. -/
def hex_value (cs : List Char) : Nat := cs.foldl (fun acc c => acc * 16 + hex_digit_value c) 0

/-- The synthetic address `MES_ADDRESS_SYNTHETIC`. -/
def MES_ADDRESS_SYNTHETIC : Nat := 0xFFFFFFFF

/-- The statement with its `is_jump_target` flag cleared. -/
def unflagged (stmt : mes_statement) : mes_statement :=
  ⟨stmt.address, stmt.next_address, false, stmt.payload⟩

/-- The label line of a statement: `L_<8-hex address>:` and a newline when the statement
is a jump target, and nothing otherwise. -/
def label_line (stmt : mes_statement) : String :=
  if stmt.is_jump_target then label_text stmt.address ++ ":\n" else ""

/-- The concatenation, in list order, of one block for each statement: its label line
and the given text. -/
def labelled_blocks (l : List mes_statement) (texts : List String) : String :=
  (List.zipWith (fun stmt text => label_line stmt ++ text) l texts).foldr (· ++ ·) ""

/-- The mnemonic of each statement kind in assembly mode. -/
def asm_mnemonic : mes_statement_op → String
  | MES_STMT_END => "END"
  | MES_STMT_TXT => "TXT"
  | MES_STMT_STR => "STR"
  | MES_STMT_SETRBC => "SETRBC"
  | MES_STMT_SETV => "SETV"
  | MES_STMT_SETRBE => "SETRBE"
  | MES_STMT_SETAC => "SETAC"
  | MES_STMT_SETA_AT => "SETA@"
  | MES_STMT_SETAD => "SETAD"
  | MES_STMT_SETAW => "SETAW"
  | MES_STMT_SETAB => "SETAB"
  | MES_STMT_JZ => "JZ"
  | MES_STMT_JMP => "JMP"
  | MES_STMT_SYS => "SYS"
  | MES_STMT_GOTO => "GOTO"
  | MES_STMT_CALL => "CALL"
  | MES_STMT_MENUI => "MENUI"
  | MES_STMT_PROC => "PROC"
  | MES_STMT_UTIL => "UTIL"
  | MES_STMT_LINE => "LINE"
  | MES_STMT_PROCD => "PROCD"
  | MES_STMT_MENUS => "MENUS"
  | MES_STMT_SETRD => "SETRD"

/-- The character that follows the mnemonic of each statement kind. -/
def asm_delimiter : mes_statement_op → String
  | MES_STMT_END | MES_STMT_MENUS => ";"
  | MES_STMT_TXT | MES_STMT_STR | MES_STMT_JZ | MES_STMT_JMP | MES_STMT_LINE
  | MES_STMT_PROCD => " "
  | MES_STMT_GOTO | MES_STMT_CALL | MES_STMT_MENUI | MES_STMT_PROC | MES_STMT_UTIL => "("
  | _ => "["

/-- The mnemonic of a statement kind together with the character that follows it. -/
def asm_key (op : mes_statement_op) : String := asm_mnemonic op ++ asm_delimiter op

/-- The names of the catalogue, in the order of the table. -/
def game_names : List String :=
  ["aishimai", "beyond", "doukyuusei", "isaku", "koihime", "yukinojou", "yuno"]

/-- A sample name table: slot 2 of the 16-bit table is called `flags`, slot 5 of the
32-bit table `palette`, and no other slot has a name. -/
def sample_names : system_var_names :=
  ⟨fun i => if i.val = 2 then some "flags" else none,
   fun i => if i.val = 5 then some "palette" else none⟩

/-- The selectors of `stmt_sys_print` whose case reads a command number from
parameter 0. -/
def sys_families : List Nat := [2, 3, 4, 5, 7, 9, 10, 19, 22]

/-- A parameter list without a command number: the first parameter is absent, is a
string, or is an expression node other than an 8-bit immediate. -/
def no_command_parameter : List mes_parameter → Bool
  | [] => true
  | .MES_PARAM_STRING _ :: _ => true
  | .MES_PARAM_EXPRESSION .NULL :: _ => false
  | .MES_PARAM_EXPRESSION (.node op _ _ _) :: _ => decide (op ≠ MES_EXPR_IMM)

/-- The `SYS` statements of the generic rendering: the selector is a node other than an
8-bit immediate, or it is the 8-bit immediate of a family with command numbers and the
parameter list has no command number. -/
def generic_sys (expr : mes_expression) (params : List mes_parameter) : Bool :=
  match expr with
  | .NULL => false
  | .node op arg _ _ =>
    decide (op ≠ MES_EXPR_IMM) || (decide (arg % 256 ∈ sys_families) && no_command_parameter params)

/-- Whether the tree holds, at any position, an immediate node (`IMM`, `IMM16`,
`IMM32`) or the terminator `END`. -/
def has_immediate_or_end : mes_expression → Bool
  | .NULL => false
  | .node op _ sub_a sub_b =>
    decide (op = MES_EXPR_IMM) || decide (op = MES_EXPR_IMM16) || decide (op = MES_EXPR_IMM32) ||
      decide (op = MES_EXPR_END) || has_immediate_or_end sub_a || has_immediate_or_end sub_b

/-- A tree without immediates: `(var16[1] + rand(var4[2])) & var32[3]->byte[var4[var16[0]]]`. -/
def sample_without_immediates : mes_expression :=
  .node MES_EXPR_BITAND 0
    (.node MES_EXPR_ARRAY32_GET8 4
      (.node MES_EXPR_REG8 0 (.node MES_EXPR_VAR 0 .NULL .NULL) .NULL) .NULL)
    (.node MES_EXPR_PLUS 0
      (.node MES_EXPR_RAND 0 (.node MES_EXPR_REG16 2 .NULL .NULL) .NULL)
      (.node MES_EXPR_VAR 1 .NULL .NULL))

/-- A text-literal statement: the kind `STR` when `ascii` is set and `TXT` otherwise,
with the text and the two flags of the member `TXT`. -/
def text_statement (address next_address : Nat) (is_jump_target ascii : Bool) (text : String)
    (terminated unprefixed : Bool) : mes_statement :=
  ⟨address, next_address, is_jump_target,
    if ascii then .STR text terminated unprefixed else .TXT text terminated unprefixed⟩

/-- The tree `1000 & var16[1]->byte[1000]`: the 16-bit immediate 1000 as an operand of
`&` and as the index of an array read under `&`. -/
def sample_index_under_and : mes_expression :=
  .node MES_EXPR_BITAND 0 (.node MES_EXPR_ARRAY16_GET8 1 (imm16 1000) .NULL) (imm16 1000)

/-- The read expression that matches the target of an assignment statement, with the
list of the values assigned: `VAR n` for `SETV n`, `REG16 n` for `SETRBC n`, `REG8 e` for
`SETRBE e`, and the array read of the same variable and offset for `SETAC`, `SETA_AT`,
`SETAD`, `SETAW`, `SETAB`, and `VAR32 n` for `SETRD n`. -/
def assignment_target : mes_statement_payload → Option (mes_expression × List mes_expression)
  | .SETV var_no exprs => some (.node MES_EXPR_VAR var_no .NULL .NULL, exprs)
  | .SETRBC reg_no exprs => some (.node MES_EXPR_REG16 reg_no .NULL .NULL, exprs)
  | .SETRBE reg_expr val_exprs => some (.node MES_EXPR_REG8 0 reg_expr .NULL, val_exprs)
  | .SETAC var_no off_expr val_exprs =>
    some (.node MES_EXPR_ARRAY16_GET8 var_no off_expr .NULL, val_exprs)
  | .SETA_AT var_no off_expr val_exprs =>
    some (.node MES_EXPR_ARRAY16_GET16 var_no off_expr .NULL, val_exprs)
  | .SETAD var_no off_expr val_exprs =>
    some (.node MES_EXPR_ARRAY32_GET32 var_no off_expr .NULL, val_exprs)
  | .SETAW var_no off_expr val_exprs =>
    some (.node MES_EXPR_ARRAY32_GET16 var_no off_expr .NULL, val_exprs)
  | .SETAB var_no off_expr val_exprs =>
    some (.node MES_EXPR_ARRAY32_GET8 var_no off_expr .NULL, val_exprs)
  | .SETRD var_no val_exprs => some (.node MES_EXPR_VAR32 var_no .NULL .NULL, val_exprs)
  | _ => none

/-! ## Numerals and C literals -/

/-- The value of a numeral in base `base`, most significant digit first. -/
def numeral_value (base : Nat) (cs : List Char) : Nat :=
  cs.foldl (fun acc c => acc * base + hex_digit_value c) 0

/-- The numeral of `n` in base `base`, at most 16: a non-empty list of the first `base`
characters of `0`-`9`, `a`-`f` whose value is `n` and that begins with `0` only when it
is the single digit `0`. -/
def numeral_of (base : Nat) (cs : List Char) (n : Nat) : Prop :=
  cs ≠ [] ∧ (∀ c ∈ cs, c ∈ hex_alphabet.take base) ∧ numeral_value base cs = n ∧
    (cs.head? = some '0' → cs = ['0'])

/-- The value of a C integer literal: hexadecimal after `0x`, octal after another leading
`0`, decimal otherwise. -/
def c_literal_value (cs : List Char) : Nat :=
  if cs.take 2 = ['0', 'x'] then numeral_value 16 (cs.drop 2)
  else if cs.head? = some '0' then numeral_value 8 cs.tail
  else numeral_value 10 cs

/-! ## The statement decoder -/

/-- The text that the generic rendering of `stmt_sys_print` writes before the argument
list for the 8-bit immediate selector `selector`. -/
def sys_fallback_name (selector : Nat) : String :=
  "System.function[" ++ print_number selector false ++ "]"

/-- The call name of a case of `stmt_sys_print` with command numbers, `cmd` being the
value of `get_int_parameter(params, 0)`: the generic name when `cmd` is negative. -/
def sys_command_name (selector : Nat) (cmd : Int) (name : Int → String) : String :=
  if cmd < 0 then sys_fallback_name selector else name cmd

/-- The call name that `stmt_sys_print` writes for the 8-bit immediate selector
`selector`, that is the text before the argument list, `cmd` being the value of
`get_int_parameter(params, 0)`. -/
def sys_call_name (selector : Nat) (cmd : Int) : String :=
  if selector = 0 then "System.set_font_size"
  else if selector = 2 then sys_command_name selector cmd sys_cursor_name
  else if selector = 3 then
    sys_command_name selector cmd fun cmd => "System.function[3].function[" ++ printf_d cmd ++ "]"
  else if selector = 4 then sys_command_name selector cmd sys_savedata_name
  else if selector = 5 then sys_command_name selector cmd sys_audio_name
  else if selector = 7 then sys_command_name selector cmd sys_file_name
  else if selector = 8 then "System.load_image"
  else if selector = 9 then sys_command_name selector cmd sys_palette_name
  else if selector = 11 then "System.wait"
  else if selector = 10 then sys_command_name selector cmd sys_image_name
  else if selector = 12 then "System.set_text_colors"
  else if selector = 13 then "System.farcall"
  else if selector = 16 then "System.get_time"
  else if selector = 17 then "System.noop"
  else if selector = 19 then
    sys_command_name selector cmd fun cmd => "System.function[19].function[" ++ printf_d cmd ++ "]"
  else if selector = 20 then "System.noop2"
  else if selector = 21 then "System.strlen"
  else if selector = 22 then
    sys_command_name selector cmd fun cmd => "System.function[22].function[" ++ printf_d cmd ++ "]"
  else if selector = 23 then "System.set_screen_surface"
  else sys_fallback_name selector

/-- The sub-selector that `stmt_sys_print` consumes for the 8-bit immediate selector
`selector`: the command number `cmd` when the selector is of a family with command
numbers and `cmd` is not negative, and none otherwise. -/
def sys_consumed (selector : Nat) (cmd : Int) : Option Int :=
  if selector ∈ sys_families ∧ 0 ≤ cmd then some cmd else none

/-- The index of the first parameter that `stmt_sys_print` writes in the argument list:
1 when a sub-selector is consumed, and 0 otherwise. -/
def sys_call_start (selector : Nat) (cmd : Int) : Nat :=
  if (sys_consumed selector cmd).isSome then 1 else 0

/-- The cases of `stmt_sys_print` that write a fixed name: the selector and the name. -/
def sys_plain_names : List (Nat × String) :=
  [(0, "System.set_font_size"), (8, "System.load_image"), (11, "System.wait"),
   (12, "System.set_text_colors"), (13, "System.farcall"), (16, "System.get_time"),
   (17, "System.noop"), (20, "System.noop2"), (21, "System.strlen"),
   (23, "System.set_screen_surface")]

/-- The cases of `stmt_sys_print` with command numbers: the selector, the beginning of
every name of the family, and the name of each command. -/
def sys_family_names : List (Nat × String × (Int → String)) :=
  [(2, "System.Cursor.", sys_cursor_name),
   (3, "System.function[3].", fun cmd => "System.function[3].function[" ++ printf_d cmd ++ "]"),
   (4, "System.SaveData.", sys_savedata_name),
   (5, "System.Audio.", sys_audio_name),
   (7, "System.File.", sys_file_name),
   (9, "System.Palette.", sys_palette_name),
   (10, "System.Image.", sys_image_name),
   (19, "System.function[19].",
     fun cmd => "System.function[19].function[" ++ printf_d cmd ++ "]"),
   (22, "System.function[22].",
     fun cmd => "System.function[22].function[" ++ printf_d cmd ++ "]")]

/-! ## Unfolding the printer -/

theorem print_null (T : system_var_names) (bitwise : Bool) :
    _mes_expression_print T .NULL bitwise = .error .null_dereference := rfl

theorem print_binary (T : system_var_names) (op : mes_expression_op) (arg : Nat)
    (sub_a sub_b : mes_expression) (bitwise : Bool) (hop : op ∈ binary_operators) :
    _mes_expression_print T (.node op arg sub_a sub_b) bitwise =
      mes_binary_expression_print T op sub_a sub_b (spec_child_flag op bitwise) := by
  simp only [binary_operators, additive_ops, multiplicative_ops, logical_ops, bitwise_ops,
    relational_ops, List.cons_append, List.nil_append, List.mem_cons, List.mem_singleton,
    List.mem_nil_iff, or_false] at hop
  rcases hop with h | h | h | h | h | h | h | h | h | h | h | h | h | h | h | h <;> subst h <;> rfl

theorem parens_required_node (op sub_op : mes_expression_op) (arg : Nat)
    (sub_a sub_b : mes_expression) (hop : op ∈ binary_operators) :
    ∃ p, binary_parens_required op (.node sub_op arg sub_a sub_b) = .ok p := by
  simp only [binary_operators, additive_ops, multiplicative_ops, logical_ops, bitwise_ops,
    relational_ops, List.cons_append, List.nil_append, List.mem_cons, List.mem_singleton,
    List.mem_nil_iff, or_false] at hop
  rcases hop with h | h | h | h | h | h | h | h | h | h | h | h | h | h | h | h <;> subst h <;>
    cases sub_op <;> exact ⟨_, rfl⟩

theorem op_to_string_binary (op : mes_expression_op) (hop : op ∈ binary_operators) :
    ∃ s, binary_op_to_string op = .ok s := by
  simp only [binary_operators, additive_ops, multiplicative_ops, logical_ops, bitwise_ops,
    relational_ops, List.cons_append, List.nil_append, List.mem_cons, List.mem_singleton,
    List.mem_nil_iff, or_false] at hop
  rcases hop with h | h | h | h | h | h | h | h | h | h | h | h | h | h | h | h <;> subst h <;>
    exact ⟨_, rfl⟩

theorem binary_text_ok (op : mes_expression_op) (lhs rhs : mes_expression)
    (pl pr : Bool) (sym tl tr : String)
    (hl : binary_parens_required op lhs = .ok pl) (hr : binary_parens_required op rhs = .ok pr)
    (hs : binary_op_to_string op = .ok sym) :
    binary_expression_text op lhs rhs (.ok tl) (.ok tr) =
      .ok ((if pr then "(" ++ tr ++ ")" else tr) ++ " " ++ sym ++ " " ++
        (if pl then "(" ++ tl ++ ")" else tl)) := by
  simp [binary_expression_text, hl, hr, hs, bind, Except.bind, pure, Except.pure,
    String.append_assoc]

/-! ## Rendering of binary operator nodes -/

/-- C2: a node whose operator is one of the sixteen binary operators, and whose
children `sub_b` and `sub_a` render to `text_b` and `text_a`, renders to `text_b`
(between parentheses iff `binary_parens_required op sub_b`), a space, the symbol that
`binary_op_to_string` gives for the operator, a space, and `text_a` (between
parentheses iff `binary_parens_required op sub_a`): `sub_b` comes first. -/
theorem binary_node_rendering (T : system_var_names) (op : mes_expression_op) (arg : Nat)
    (sub_a sub_b : mes_expression) (bitwise : Bool) (text_a text_b : String)
    (hop : op ∈ binary_operators)
    (hb : _mes_expression_print T sub_b (spec_child_flag op bitwise) = .ok text_b)
    (ha : _mes_expression_print T sub_a (spec_child_flag op bitwise) = .ok text_a) :
    ∃ (symbol : String) (parens_a parens_b : Bool),
      binary_op_to_string op = .ok symbol ∧
      binary_parens_required op sub_a = .ok parens_a ∧
      binary_parens_required op sub_b = .ok parens_b ∧
      _mes_expression_print T (.node op arg sub_a sub_b) bitwise =
        .ok ((if parens_b then "(" ++ text_b ++ ")" else text_b) ++ " " ++ symbol ++ " " ++
          (if parens_a then "(" ++ text_a ++ ")" else text_a)) := by
  obtain ⟨sym, hs⟩ := op_to_string_binary op hop
  cases sub_a with
  | NULL => rw [print_null] at ha; cases ha
  | node oa aa saa sab =>
    cases sub_b with
    | NULL => rw [print_null] at hb; cases hb
    | node ob ab sba sbb =>
      obtain ⟨pa, hpa⟩ := parens_required_node op oa aa saa sab hop
      obtain ⟨pb, hpb⟩ := parens_required_node op ob ab sba sbb hop
      refine ⟨sym, pa, pb, hs, hpa, hpb, ?_⟩
      rw [print_binary T op arg _ _ bitwise hop, mes_binary_expression_print, ha, hb]
      exact binary_text_ok op _ _ pa pb sym text_a text_b hpa hpb hs

theorem binary_node_rendering_witness :
    _mes_expression_print no_names
        (.node MES_EXPR_MINUS 0 (imm8 3) (.node MES_EXPR_PLUS 0 (imm8 2) (imm8 1))) false =
      .ok ("(" ++ "1 + 2" ++ ")" ++ " " ++ "-" ++ " " ++ "3") := by
  obtain ⟨symbol, parens_a, parens_b, hs, hpa, hpb, h⟩ :=
    binary_node_rendering no_names MES_EXPR_MINUS 0 (imm8 3)
      (.node MES_EXPR_PLUS 0 (imm8 2) (imm8 1)) false "3" "1 + 2" (by decide) (by decide)
      (by decide)
  cases hs; cases hpa; cases hpb
  exact h

/-! ## The parenthesisation decision -/

/-- C3 (evaluation of the code where it departs from the claim): under the bitwise
parent `&` a child whose operator is `%` gets no parentheses, because `is_binary_op`
answers `false` for `MES_EXPR_MOD`; the node `(7 % 3) & 1` is written
`0x7 % 0x3 & 0x1`.
Every other binary child of a bitwise parent is parenthesised. -/
theorem bitwise_parent_mod_child (T : system_var_names) :
    is_binary_op MES_EXPR_MOD = false ∧
    binary_parens_required MES_EXPR_BITAND (.node MES_EXPR_MOD 0 (imm8 3) (imm8 7)) = .ok false ∧
    mes_expression_print T
        (.node MES_EXPR_BITAND 0 (imm8 1) (.node MES_EXPR_MOD 0 (imm8 3) (imm8 7))) =
      .ok "0x7 % 0x3 & 0x1" ∧
    (∀ (op sub_op : mes_expression_op) (arg : Nat) (sub_a sub_b : mes_expression),
      op ∈ bitwise_ops → sub_op ∈ binary_operators → sub_op ≠ MES_EXPR_MOD →
      binary_parens_required op (.node sub_op arg sub_a sub_b) = .ok true) := by
  refine ⟨rfl, rfl, rfl, ?_⟩
  intro op sub_op arg sub_a sub_b hop hsub hne
  simp only [binary_operators, additive_ops, multiplicative_ops, logical_ops, bitwise_ops,
    relational_ops, List.cons_append, List.nil_append, List.mem_cons, List.mem_singleton,
    List.mem_nil_iff, or_false] at hop hsub
  rcases hop with h | h | h <;> subst h <;>
    rcases hsub with h | h | h | h | h | h | h | h | h | h | h | h | h | h | h | h <;>
    subst h <;> first | rfl | exact absurd rfl hne

/-- C4: the decision `binary_parens_required op c` for a non-bitwise parent `op` and a
child `c` with operator `sub_op`. (i) A multiplicative parent parenthesises an additive
child. (ii) An additive parent never parenthesises a multiplicative child and always
parenthesises an additive, relational, bitwise or logical child. (iii) A relational
parent never parenthesises an arithmetic child and always parenthesises a relational,
bitwise or logical child. (iv) A logical parent parenthesises a child iff the child is
`&&` or `||`. (v) Whatever the parent, a child that is not a binary operator is never
parenthesised. -/
theorem parens_follow_precedence_table (op sub_op : mes_expression_op) (arg : Nat)
    (sub_a sub_b : mes_expression) :
    (op ∈ multiplicative_ops → sub_op ∈ additive_ops →
      binary_parens_required op (.node sub_op arg sub_a sub_b) = .ok true) ∧
    (op ∈ additive_ops → sub_op ∈ multiplicative_ops →
      binary_parens_required op (.node sub_op arg sub_a sub_b) = .ok false) ∧
    (op ∈ additive_ops → sub_op ∈ additive_ops ++ relational_ops ++ bitwise_ops ++ logical_ops →
      binary_parens_required op (.node sub_op arg sub_a sub_b) = .ok true) ∧
    (op ∈ relational_ops → sub_op ∈ additive_ops ++ multiplicative_ops →
      binary_parens_required op (.node sub_op arg sub_a sub_b) = .ok false) ∧
    (op ∈ relational_ops → sub_op ∈ relational_ops ++ bitwise_ops ++ logical_ops →
      binary_parens_required op (.node sub_op arg sub_a sub_b) = .ok true) ∧
    (op ∈ logical_ops →
      binary_parens_required op (.node sub_op arg sub_a sub_b) =
        .ok (decide (sub_op ∈ logical_ops))) ∧
    (sub_op ∉ binary_operators →
      binary_parens_required op (.node sub_op arg sub_a sub_b) = .ok false) := by
  refine ⟨?_, ?_, ?_, ?_, ?_, ?_, ?_⟩
  · intro hop hsub
    simp only [multiplicative_ops, additive_ops, List.mem_cons, List.mem_singleton,
      List.mem_nil_iff, or_false] at hop hsub
    rcases hop with h | h | h <;> subst h <;> rcases hsub with h | h <;> subst h <;> rfl
  · intro hop hsub
    simp only [multiplicative_ops, additive_ops, List.mem_cons, List.mem_singleton,
      List.mem_nil_iff, or_false] at hop hsub
    rcases hop with h | h <;> subst h <;> rcases hsub with h | h | h <;> subst h <;> rfl
  · intro hop hsub
    simp only [additive_ops, relational_ops, bitwise_ops, logical_ops, List.cons_append,
      List.nil_append, List.mem_cons, List.mem_singleton, List.mem_nil_iff, or_false]
      at hop hsub
    rcases hop with h | h <;> subst h <;>
      rcases hsub with h | h | h | h | h | h | h | h | h | h | h | h | h <;> subst h <;> rfl
  · intro hop hsub
    simp only [additive_ops, multiplicative_ops, relational_ops, List.cons_append,
      List.nil_append, List.mem_cons, List.mem_singleton, List.mem_nil_iff, or_false]
      at hop hsub
    rcases hop with h | h | h | h | h | h <;> subst h <;>
      rcases hsub with h | h | h | h | h <;> subst h <;> rfl
  · intro hop hsub
    simp only [relational_ops, bitwise_ops, logical_ops, List.cons_append,
      List.nil_append, List.mem_cons, List.mem_singleton, List.mem_nil_iff, or_false]
      at hop hsub
    rcases hop with h | h | h | h | h | h <;> subst h <;>
      rcases hsub with h | h | h | h | h | h | h | h | h | h | h <;> subst h <;> rfl
  · intro hop
    simp only [logical_ops, List.mem_cons, List.mem_singleton, List.mem_nil_iff, or_false]
      at hop
    rcases hop with h | h <;> subst h <;> cases sub_op <;> rfl
  · intro hsub
    cases sub_op <;> first | rfl | exact absurd (by decide) hsub

theorem parens_follow_precedence_table_witness :
    binary_parens_required MES_EXPR_MUL (.node MES_EXPR_PLUS 0 (imm8 1) (imm8 2)) = .ok true ∧
    binary_parens_required MES_EXPR_PLUS (.node MES_EXPR_MOD 0 (imm8 1) (imm8 2)) = .ok false ∧
    binary_parens_required MES_EXPR_MINUS (.node MES_EXPR_MINUS 0 (imm8 1) (imm8 2)) = .ok true ∧
    binary_parens_required MES_EXPR_EQ (.node MES_EXPR_DIV 0 (imm8 1) (imm8 2)) = .ok false ∧
    binary_parens_required MES_EXPR_LT (.node MES_EXPR_BITAND 0 (imm8 1) (imm8 2)) = .ok true ∧
    binary_parens_required MES_EXPR_AND (.node MES_EXPR_OR 0 (imm8 1) (imm8 2)) =
      .ok (decide (MES_EXPR_OR ∈ logical_ops)) ∧
    binary_parens_required MES_EXPR_AND (.node MES_EXPR_RAND 0 (imm8 1) .NULL) = .ok false :=
  ⟨(parens_follow_precedence_table MES_EXPR_MUL MES_EXPR_PLUS 0 (imm8 1) (imm8 2)).1
      (by decide) (by decide),
   (parens_follow_precedence_table MES_EXPR_PLUS MES_EXPR_MOD 0 (imm8 1) (imm8 2)).2.1
      (by decide) (by decide),
   (parens_follow_precedence_table MES_EXPR_MINUS MES_EXPR_MINUS 0 (imm8 1) (imm8 2)).2.2.1
      (by decide) (by decide),
   (parens_follow_precedence_table MES_EXPR_EQ MES_EXPR_DIV 0 (imm8 1) (imm8 2)).2.2.2.1
      (by decide) (by decide),
   (parens_follow_precedence_table MES_EXPR_LT MES_EXPR_BITAND 0 (imm8 1) (imm8 2)).2.2.2.2.1
      (by decide) (by decide),
   (parens_follow_precedence_table MES_EXPR_AND MES_EXPR_OR 0 (imm8 1) (imm8 2)).2.2.2.2.2.1
      (by decide),
   (parens_follow_precedence_table MES_EXPR_AND MES_EXPR_RAND 0 (imm8 1) .NULL).2.2.2.2.2.2
      (by decide)⟩

/-! ## Immediate literals -/

/-- C6: at top level the immediate 254 renders as `254`, 256 as `0x100`, 255 as `0xff`
and 15 as `15`, whatever the width of the immediate node that can hold the value. -/
theorem immediate_examples (T : system_var_names) :
    mes_expression_print T (imm8 254) = .ok "254" ∧
    mes_expression_print T (imm16 254) = .ok "254" ∧
    mes_expression_print T (imm32 254) = .ok "254" ∧
    mes_expression_print T (imm16 256) = .ok "0x100" ∧
    mes_expression_print T (imm32 256) = .ok "0x100" ∧
    mes_expression_print T (imm8 255) = .ok "0xff" ∧
    mes_expression_print T (imm16 255) = .ok "0xff" ∧
    mes_expression_print T (imm32 255) = .ok "0xff" ∧
    mes_expression_print T (imm8 15) = .ok "15" ∧
    mes_expression_print T (imm16 15) = .ok "15" ∧
    mes_expression_print T (imm32 15) = .ok "15" :=
  ⟨rfl, rfl, rfl, rfl, rfl, rfl, rfl, rfl, rfl, rfl, rfl⟩

/-- C7 as stated fails: with the bitwise-context flag set, the immediate 15 is written
`0xf`, not `15`; so it is as the operand of `&` in `var16[1] & 0xf`. -/
theorem small_immediate_hex_when_flag_set :
    print_number 15 true = "0xf" ∧
    mes_expression_print no_names
        (.node MES_EXPR_BITAND 0 (imm8 15) (.node MES_EXPR_VAR 1 .NULL .NULL)) =
      .ok "var16[1] & 0xf" ∧
    ¬ (∀ (n : Nat) (hex : Bool), n < 255 → print_number n hex = printf_u n) :=
  ⟨by decide, by decide, fun h => absurd (h 15 true (by decide)) (by decide)⟩

/-- C7, amended: an immediate below 255 is written in unsigned decimal when the
bitwise-context flag is clear, and as `0x` followed by its lowercase hexadecimal digits
when the flag is set. -/
theorem small_immediate_follows_flag (n : Nat) (hex : Bool) (h : n < 255) :
    print_number n hex = if hex then "0x" ++ printf_x n else printf_u n := by
  simp [print_number, h]

theorem small_immediate_follows_flag_witness :
    print_number 15 false = (if false then "0x" ++ printf_x 15 else printf_u 15) ∧
    print_number 15 true = (if true then "0x" ++ printf_x 15 else printf_u 15) :=
  ⟨small_immediate_follows_flag 15 false (by decide),
   small_immediate_follows_flag 15 true (by decide)⟩

/-! ## Array reads -/

theorem system_var16_name_of_lt (T : system_var_names) (no : Nat)
    (h : no < MES_NR_SYSTEM_VARIABLES) :
    system_var16_name T no = T.mes_system_var16_names ⟨no, h⟩ := by
  simp [system_var16_name, h]

theorem system_var32_name_of_lt (T : system_var_names) (no : Nat)
    (h : no < MES_NR_SYSTEM_VARIABLES) :
    system_var32_name T no = T.mes_system_var32_names ⟨no, h⟩ := by
  simp [system_var32_name, h]

theorem except_map_eq (f : String → String) (r : Except fault String) :
    (do let t ← r; pure (f t)) = Except.map f r := by
  cases r <;> rfl

/-- C9: an `ARRAY16_GET16` read with base `b = arg8` and index expression `e` renders
as `System.<name>` when `b = 0` and `e` is an 8-bit immediate below 26 whose slot of the
16-bit name table holds `name`; as `System.var16[<e>]` when `b = 0` and `e` is not an
8-bit immediate naming such a slot; and as `var16[<b-1>]->word[<e>]` when `b` is not
zero. `ARRAY32_GET32` does the same with the 32-bit table, `System.var32[` and
`var32[<b-1>]->dword[`. At 26 and above the lookups answer without reading a table. -/
theorem system_array_read_rendering (T : system_var_names) (arg : Nat)
    (e sub_b : mes_expression) (bitwise : Bool) :
    (∀ (v : Nat) (x y : mes_expression) (hv : v % 256 < MES_NR_SYSTEM_VARIABLES)
        (name : String),
      arg % 256 = 0 → e = .node MES_EXPR_IMM v x y →
      T.mes_system_var16_names ⟨v % 256, hv⟩ = some name →
      _mes_expression_print T (.node MES_EXPR_ARRAY16_GET16 arg e sub_b) bitwise =
        .ok ("System." ++ name)) ∧
    (arg % 256 = 0 →
      (∀ (v : Nat) (x y : mes_expression) (hv : v % 256 < MES_NR_SYSTEM_VARIABLES),
        e = .node MES_EXPR_IMM v x y → T.mes_system_var16_names ⟨v % 256, hv⟩ = none) →
      _mes_expression_print T (.node MES_EXPR_ARRAY16_GET16 arg e sub_b) bitwise =
        (mes_expression_print T e).map fun t => "System.var16[" ++ t ++ "]") ∧
    (arg % 256 ≠ 0 →
      _mes_expression_print T (.node MES_EXPR_ARRAY16_GET16 arg e sub_b) bitwise =
        (mes_expression_print T e).map fun t =>
          "var16[" ++ printf_d ((arg % 256 : Nat) - 1) ++ "]->word[" ++ t ++ "]") ∧
    (∀ (v : Nat) (x y : mes_expression) (hv : v % 256 < MES_NR_SYSTEM_VARIABLES)
        (name : String),
      arg % 256 = 0 → e = .node MES_EXPR_IMM v x y →
      T.mes_system_var32_names ⟨v % 256, hv⟩ = some name →
      _mes_expression_print T (.node MES_EXPR_ARRAY32_GET32 arg e sub_b) bitwise =
        .ok ("System." ++ name)) ∧
    (arg % 256 = 0 →
      (∀ (v : Nat) (x y : mes_expression) (hv : v % 256 < MES_NR_SYSTEM_VARIABLES),
        e = .node MES_EXPR_IMM v x y → T.mes_system_var32_names ⟨v % 256, hv⟩ = none) →
      _mes_expression_print T (.node MES_EXPR_ARRAY32_GET32 arg e sub_b) bitwise =
        (mes_expression_print T e).map fun t => "System.var32[" ++ t ++ "]") ∧
    (arg % 256 ≠ 0 →
      _mes_expression_print T (.node MES_EXPR_ARRAY32_GET32 arg e sub_b) bitwise =
        (mes_expression_print T e).map fun t =>
          "var32[" ++ printf_d ((arg % 256 : Nat) - 1) ++ "]->dword[" ++ t ++ "]") ∧
    (∀ no : Nat, MES_NR_SYSTEM_VARIABLES ≤ no →
      system_var16_name T no = none ∧ system_var32_name T no = none) := by
  refine ⟨?_, ?_, ?_, ?_, ?_, ?_, ?_⟩
  · intro v x y hv name hb he hname
    subst he
    simp [_mes_expression_print, array16_get16_text, hb, system_var16_name_of_lt T _ hv, hname]
  · intro hb hnone
    cases e with
    | NULL => simp [_mes_expression_print, array16_get16_text, hb, mes_expression_print, Except.map]
    | node eop v x y =>
      have hlook : (if eop = MES_EXPR_IMM then system_var16_name T (v % 256) else none) = none := by
        by_cases hop : eop = MES_EXPR_IMM
        · subst hop
          by_cases hv : v % 256 < MES_NR_SYSTEM_VARIABLES
          · simp [system_var16_name_of_lt T _ hv, hnone v x y hv rfl]
          · simp [system_var16_name, hv]
        · simp [hop]
      rw [_mes_expression_print]
      unfold array16_get16_text
      rw [if_pos hb]
      simp only [hlook]
      exact except_map_eq _ _
  · intro hb
    rw [_mes_expression_print]
    unfold array16_get16_text
    rw [if_neg hb]
    exact except_map_eq _ _
  · intro v x y hv name hb he hname
    subst he
    simp [_mes_expression_print, array32_get32_text, hb, system_var32_name_of_lt T _ hv, hname]
  · intro hb hnone
    cases e with
    | NULL => simp [_mes_expression_print, array32_get32_text, hb, mes_expression_print, Except.map]
    | node eop v x y =>
      have hlook : (if eop = MES_EXPR_IMM then system_var32_name T (v % 256) else none) = none := by
        by_cases hop : eop = MES_EXPR_IMM
        · subst hop
          by_cases hv : v % 256 < MES_NR_SYSTEM_VARIABLES
          · simp [system_var32_name_of_lt T _ hv, hnone v x y hv rfl]
          · simp [system_var32_name, hv]
        · simp [hop]
      rw [_mes_expression_print]
      unfold array32_get32_text
      rw [if_pos hb]
      simp only [hlook]
      exact except_map_eq _ _
  · intro hb
    rw [_mes_expression_print]
    unfold array32_get32_text
    rw [if_neg hb]
    exact except_map_eq _ _
  · intro no hno
    have : ¬ no < MES_NR_SYSTEM_VARIABLES := by omega
    simp [system_var16_name, system_var32_name, this]

theorem system_array_read_rendering_witness :
    _mes_expression_print sample_names (.node MES_EXPR_ARRAY16_GET16 0 (imm8 2) .NULL) true =
      .ok ("System." ++ "flags") ∧
    _mes_expression_print sample_names (.node MES_EXPR_ARRAY16_GET16 0 (imm8 30) .NULL) true =
      ((mes_expression_print sample_names (imm8 30)).map fun t => "System.var16[" ++ t ++ "]") ∧
    _mes_expression_print sample_names (.node MES_EXPR_ARRAY16_GET16 4 (imm8 2) .NULL) true =
      ((mes_expression_print sample_names (imm8 2)).map fun t =>
        "var16[" ++ printf_d ((4 % 256 : Nat) - 1) ++ "]->word[" ++ t ++ "]") ∧
    _mes_expression_print sample_names (.node MES_EXPR_ARRAY32_GET32 0 (imm8 5) .NULL) true =
      .ok ("System." ++ "palette") ∧
    _mes_expression_print sample_names (.node MES_EXPR_ARRAY32_GET32 0 (imm16 5) .NULL) true =
      ((mes_expression_print sample_names (imm16 5)).map fun t => "System.var32[" ++ t ++ "]") ∧
    _mes_expression_print sample_names (.node MES_EXPR_ARRAY32_GET32 4 (imm8 5) .NULL) true =
      ((mes_expression_print sample_names (imm8 5)).map fun t =>
        "var32[" ++ printf_d ((4 % 256 : Nat) - 1) ++ "]->dword[" ++ t ++ "]") ∧
    system_var16_name sample_names 26 = none ∧ system_var32_name sample_names 26 = none :=
  ⟨(system_array_read_rendering sample_names 0 (imm8 2) .NULL true).1
      2 .NULL .NULL (by decide) "flags" (by decide) rfl (by decide),
   (system_array_read_rendering sample_names 0 (imm8 30) .NULL true).2.1 (by decide)
      (fun v x y hv he => by
        cases he
        exact absurd hv (by decide)),
   (system_array_read_rendering sample_names 4 (imm8 2) .NULL true).2.2.1 (by decide),
   (system_array_read_rendering sample_names 0 (imm8 5) .NULL true).2.2.2.1
      5 .NULL .NULL (by decide) "palette" (by decide) rfl (by decide),
   (system_array_read_rendering sample_names 0 (imm16 5) .NULL true).2.2.2.2.1 (by decide)
      (fun v x y hv he => by cases he),
   (system_array_read_rendering sample_names 4 (imm8 5) .NULL true).2.2.2.2.2.1 (by decide),
   (system_array_read_rendering sample_names 0 .NULL .NULL true).2.2.2.2.2.2 26 (by decide)⟩

theorem printf_d_pred (b : Nat) (hb : b ≠ 0) : printf_d ((b : Int) - 1) = printf_u (b - 1) := by
  have h1 : ¬ ((b : Int) - 1 < 0) := by omega
  have h2 : ((b : Int) - 1).toNat = b - 1 := by omega
  simp [printf_d, h1, h2]

/-- C10: an `ARRAY32_GET16` read with base `b = arg8` and index `e` renders as
`var32[<b-1>]->word[<e>]` and an `ARRAY32_GET8` read as `var32[<b-1>]->byte[<e>]`, for
every base; `b-1` is written as a signed decimal, which for a non-zero base is the
unsigned decimal of `b-1` and for base 0 is `-1`. -/
theorem array32_subtract_one (T : system_var_names) (arg : Nat) (e sub_b : mes_expression)
    (bitwise : Bool) :
    _mes_expression_print T (.node MES_EXPR_ARRAY32_GET16 arg e sub_b) bitwise =
      ((mes_expression_print T e).map fun t =>
        "var32[" ++ printf_d ((arg % 256 : Nat) - 1) ++ "]->word[" ++ t ++ "]") ∧
    _mes_expression_print T (.node MES_EXPR_ARRAY32_GET8 arg e sub_b) bitwise =
      ((mes_expression_print T e).map fun t =>
        "var32[" ++ printf_d ((arg % 256 : Nat) - 1) ++ "]->byte[" ++ t ++ "]") ∧
    (arg % 256 ≠ 0 → printf_d ((arg % 256 : Nat) - 1) = printf_u (arg % 256 - 1)) ∧
    (arg % 256 = 0 → printf_d ((arg % 256 : Nat) - 1) = "-1") := by
  refine ⟨?_, ?_, ?_, ?_⟩
  · rw [_mes_expression_print]
    exact except_map_eq _ _
  · rw [_mes_expression_print]
    exact except_map_eq _ _
  · intro h
    exact printf_d_pred _ h
  · intro h
    rw [h]
    decide

theorem array32_subtract_one_witness :
    printf_d ((7 % 256 : Nat) - 1) = printf_u (7 % 256 - 1) ∧
    printf_d ((0 % 256 : Nat) - 1) = "-1" ∧
    _mes_expression_print no_names (.node MES_EXPR_ARRAY32_GET16 0 (imm8 4) .NULL) false =
      .ok "var32[-1]->word[4]" ∧
    _mes_expression_print no_names (.node MES_EXPR_ARRAY32_GET8 7 (imm8 4) .NULL) false =
      .ok "var32[6]->byte[4]" :=
  ⟨(array32_subtract_one no_names 7 (imm8 4) .NULL false).2.2.1 (by decide),
   (array32_subtract_one no_names 0 (imm8 4) .NULL false).2.2.2 (by decide),
   (array32_subtract_one no_names 0 (imm8 4) .NULL false).1,
   (array32_subtract_one no_names 7 (imm8 4) .NULL false).2.1⟩


/-! ## Bit tests of `print_number` -/

theorem pow_two_of_and_pred (n : Nat) (hn : 0 < n) (h : n &&& (n - 1) = 0) :
    ∃ k, n = 2 ^ k := by
  induction n using Nat.strong_induction_on with
  | _ n ih =>
    have hdiv : n / 2 &&& (n - 1) / 2 = 0 := by rw [← Nat.and_div_two, h]
    rcases Nat.mod_two_eq_zero_or_one n with hpar | hpar
    · have h1 : (n - 1) / 2 = n / 2 - 1 := by omega
      rw [h1] at hdiv
      obtain ⟨k, hk⟩ := ih (n / 2) (by omega) (by omega) hdiv
      exact ⟨k + 1, by rw [pow_succ]; omega⟩
    · have h1 : (n - 1) / 2 = n / 2 := by omega
      rw [h1, Nat.and_self] at hdiv
      exact ⟨0, by omega⟩

theorem and_pred_eq_zero_iff (n : Nat) (hn : 0 < n) :
    n &&& (n - 1) = 0 ↔ ∃ k, n = 2 ^ k := by
  constructor
  · exact pow_two_of_and_pred n hn
  · rintro ⟨k, rfl⟩
    rw [Nat.and_pow_two_sub_one_eq_mod, Nat.mod_self]

theorem and_low_byte (n : Nat) : n &&& 0xff = n % 256 :=
  Nat.and_pow_two_sub_one_eq_mod n 8

/-- The three tests of `print_number` on a 32-bit value of at least 255, in terms of
the value. -/
theorem print_number_tests (n : Nat) (hlo : 255 ≤ n) (hhi : n < 2 ^ 32) :
    (n &&& 0xff = 0 ↔ n % 256 = 0) ∧
    (n &&& ((n + 4294967295) % 4294967296) = 0 ↔ ∃ k, n = 2 ^ k) ∧
    (((n + 1) % 4294967296) &&& n = 0 ↔
      ((n + 1) % 2 ^ 32 = 0 ∨ ∃ k, (n + 1) % 2 ^ 32 = 2 ^ k)) := by
  have hhi' : n < 4294967296 := by simpa using hhi
  refine ⟨by rw [and_low_byte], ?_, ?_⟩
  · have h1 : (n + 4294967295) % 4294967296 = n - 1 := by omega
    rw [h1]
    exact and_pred_eq_zero_iff n (by omega)
  · have h32 : (2 : Nat) ^ 32 = 4294967296 := by norm_num
    rw [h32]
    by_cases hmax : n = 4294967295
    · subst hmax
      simp
    · have h1 : (n + 1) % 4294967296 = n + 1 := by omega
      rw [h1]
      have h2 := and_pred_eq_zero_iff (n + 1) (by omega)
      rw [Nat.add_sub_cancel] at h2
      rw [h2]
      constructor
      · intro h; exact Or.inr h
      · rintro (h | h)
        · omega
        · exact h

/-- Format chosen by `print_number` for a 32-bit value of at least 255. -/
theorem print_number_large (n : Nat) (hex : Bool) (hlo : 255 ≤ n) (hhi : n < 2 ^ 32) :
    (mask_shaped n → print_number n hex = "0x" ++ printf_x n) ∧
    (¬ mask_shaped n →
      print_number n hex = if hex then "0x" ++ printf_x n else printf_u n) := by
  obtain ⟨t1, t2, t3⟩ := print_number_tests n hlo hhi
  have hnot : ¬ n < 255 := by omega
  unfold print_number mask_shaped
  simp only [if_neg hnot]
  constructor
  · rintro (h | h | h)
    · rw [if_pos (t1.mpr h)]; rfl
    · by_cases hb : n &&& 0xff = 0
      · rw [if_pos hb]; rfl
      · rw [if_neg hb, if_pos (Or.inl (t2.mpr h))]; rfl
    · by_cases hb : n &&& 0xff = 0
      · rw [if_pos hb]; rfl
      · rw [if_neg hb, if_pos (Or.inr (t3.mpr h))]; rfl
  · intro h
    have hb : ¬ n &&& 0xff = 0 := fun hb => h (Or.inl (t1.mp hb))
    have hc : ¬ (n &&& ((n + 4294967295) % 4294967296) = 0 ∨
        ((n + 1) % 4294967296) &&& n = 0) := by
      rintro (hc | hc)
      · exact h (Or.inr (Or.inl (t2.mp hc)))
      · exact h (Or.inr (Or.inr (t3.mp hc)))
    rw [if_neg hb, if_neg hc]

/-- C8: a 32-bit value `n` of at least 255 whose low byte is zero, or which is a power
of two, or for which `n + 1` modulo `2^32` is zero or a power of two, is written as `0x`
followed by its lowercase hexadecimal digits whatever the flag; any other such value is
written in hexadecimal when the flag is set and in unsigned decimal when it is clear. -/
theorem large_immediate_format (n : Nat) (hex : Bool) (hlo : 255 ≤ n) (hhi : n < 2 ^ 32) :
    ((n % 256 = 0 ∨ (∃ k, n = 2 ^ k) ∨ (n + 1) % 2 ^ 32 = 0 ∨ ∃ k, (n + 1) % 2 ^ 32 = 2 ^ k) →
      print_number n hex = "0x" ++ printf_x n) ∧
    (¬ (n % 256 = 0 ∨ (∃ k, n = 2 ^ k) ∨ (n + 1) % 2 ^ 32 = 0 ∨
        ∃ k, (n + 1) % 2 ^ 32 = 2 ^ k) →
      print_number n hex = if hex then "0x" ++ printf_x n else printf_u n) :=
  print_number_large n hex hlo hhi

theorem not_pow_two_between (n j : Nat) (hlo : 2 ^ j < n) (hhi : n < 2 ^ (j + 1)) :
    ¬ ∃ k, n = 2 ^ k := by
  rintro ⟨k, rfl⟩
  have h1 : j < k := (Nat.pow_lt_pow_iff_right (by norm_num)).mp hlo
  have h2 : k < j + 1 := (Nat.pow_lt_pow_iff_right (by norm_num)).mp hhi
  omega

theorem large_immediate_format_witness :
    print_number 65536 false = "0x" ++ printf_x 65536 ∧
    print_number 4294967295 false = "0x" ++ printf_x 4294967295 ∧
    print_number 1000 false = (if false then "0x" ++ printf_x 1000 else printf_u 1000) ∧
    print_number 1000 true = (if true then "0x" ++ printf_x 1000 else printf_u 1000) :=
  ⟨(large_immediate_format 65536 false (by decide) (by norm_num)).1
      (Or.inr (Or.inl ⟨16, by norm_num⟩)),
   (large_immediate_format 4294967295 false (by decide) (by norm_num)).1
      (Or.inr (Or.inr (Or.inl (by norm_num)))),
   (large_immediate_format 1000 false (by decide) (by norm_num)).2 (by
      rintro (h | h | h | h)
      · exact absurd h (by decide)
      · exact not_pow_two_between 1000 9 (by norm_num) (by norm_num) h
      · exact absurd h (by norm_num)
      · exact not_pow_two_between ((1000 + 1) % 2 ^ 32) 9 (by norm_num) (by norm_num) h),
   (large_immediate_format 1000 true (by decide) (by norm_num)).2 (by
      rintro (h | h | h | h)
      · exact absurd h (by decide)
      · exact not_pow_two_between 1000 9 (by norm_num) (by norm_num) h
      · exact absurd h (by norm_num)
      · exact not_pow_two_between ((1000 + 1) % 2 ^ 32) 9 (by norm_num) (by norm_num) h)⟩


/-! ## Threading of the bitwise-context flag -/

theorem binary_text_inv (op : mes_expression_op) (l r : mes_expression)
    (pl pr : Except fault String) (s : String)
    (h : binary_expression_text op l r pl pr = .ok s) :
    ∃ (bl br : Bool) (sym tl tr : String),
      binary_parens_required op l = .ok bl ∧ binary_parens_required op r = .ok br ∧
      binary_op_to_string op = .ok sym ∧ pl = .ok tl ∧ pr = .ok tr := by
  unfold binary_expression_text at h
  cases h1 : binary_parens_required op r with
  | error e => simp [h1, bind, Except.bind] at h
  | ok br =>
    cases pr with
    | error e => simp [h1, bind, Except.bind] at h
    | ok tr =>
      cases h2 : binary_op_to_string op with
      | error e => simp [h1, h2, bind, Except.bind] at h
      | ok sym =>
        cases h3 : binary_parens_required op l with
        | error e => simp [h1, h2, h3, bind, Except.bind] at h
        | ok bl =>
          cases pl with
          | error e => simp [h1, h2, h3, bind, Except.bind] at h
          | ok tl => exact ⟨bl, br, sym, tl, tr, rfl, rfl, rfl, rfl, rfl⟩

theorem wrap_eq (b : Bool) (x : String) :
    (if b then "(" ++ x ++ ")" else x) = (if b then "(" else "") ++ x ++ (if b then ")" else "") := by
  cases b <;> simp

theorem parens_congr (op : mes_expression_op) (e e' : mes_expression)
    (h : root_op e' = root_op e) :
    binary_parens_required op e' = binary_parens_required op e := by
  cases e <;> cases e' <;> simp [root_op] at h
  · rfl
  · subst h; rfl

theorem root_op_plug (ds : List descent) (e e' : mes_expression)
    (h : root_op e' = root_op e) : root_op (plug ds e') = root_op (plug ds e) := by
  cases ds with
  | nil => exact h
  | cons d ds =>
    simp only [plug, descent.node]
    split <;> rfl

theorem flag_at_append (xs ys : List descent) (bitwise : Bool) :
    flag_at (xs ++ ys) bitwise = flag_at ys (flag_at xs bitwise) := by
  induction xs generalizing bitwise with
  | nil => rfl
  | cons d xs ih => simp [flag_at, ih]

theorem flag_at_arithmetic (ds : List descent)
    (hds : ∀ d ∈ ds, d.op ∈ additive_ops ++ multiplicative_ops) (bitwise : Bool) :
    flag_at ds bitwise = bitwise := by
  induction ds generalizing bitwise with
  | nil => rfl
  | cons d ds ih =>
    have hd := hds d (List.mem_cons_self _ _)
    have hflag : spec_child_flag d.op bitwise = bitwise := by
      simp only [additive_ops, multiplicative_ops, List.cons_append, List.nil_append,
        List.mem_cons, List.mem_singleton, List.mem_nil_iff, or_false] at hd
      rcases hd with h | h | h | h | h <;> rw [h] <;> rfl
    rw [flag_at, hflag]
    exact ih (fun x hx => hds x (List.mem_cons_of_mem _ hx)) bitwise

/-- The text of a tree is the text of the context around a position, with the text of
the subtree at that position, rendered under the threaded flag, in between. -/
theorem plug_render (T : system_var_names) (ds : List descent)
    (hds : ∀ d ∈ ds, d.op ∈ binary_operators) :
    ∀ (hole : mes_expression) (bitwise : Bool) (s : String),
      _mes_expression_print T (plug ds hole) bitwise = .ok s →
      ∃ pre t post, _mes_expression_print T hole (flag_at ds bitwise) = .ok t ∧
        s = pre ++ t ++ post ∧
        ∀ hole' t', root_op hole' = root_op hole →
          _mes_expression_print T hole' (flag_at ds bitwise) = .ok t' →
          _mes_expression_print T (plug ds hole') bitwise = .ok (pre ++ t' ++ post) := by
  induction ds with
  | nil =>
    intro hole bitwise s h
    refine ⟨"", s, "", h, by simp, ?_⟩
    intro hole' t' _ h'
    simpa [plug, flag_at] using h'
  | cons d ds ih =>
    intro hole bitwise s h
    have hop : d.op ∈ binary_operators := hds d (List.mem_cons_self _ _)
    have ih' := ih (fun x hx => hds x (List.mem_cons_of_mem _ hx))
    cases hside : d.into_sub_b with
    | true =>
      simp only [plug, descent.node, hside, if_true] at h ⊢
      rw [print_binary T _ _ _ _ _ hop, mes_binary_expression_print] at h
      obtain ⟨bl, br, sym, tl, tr, hbl, hbr, hsym, hl, hr⟩ := binary_text_inv _ _ _ _ _ _ h
      rw [hl, hr, binary_text_ok _ _ _ bl br sym tl tr hbl hbr hsym] at h
      obtain ⟨pre, t, post, ht, hs, hrest⟩ := ih' hole _ tr hr
      refine ⟨(if br then "(" else "") ++ pre, t,
        post ++ (if br then ")" else "") ++ " " ++ sym ++ " " ++
          (if bl then "(" ++ tl ++ ")" else tl), by simpa [flag_at] using ht, ?_, ?_⟩
      · cases h
        subst hs
        simp only [wrap_eq]
        simp only [String.append_assoc]
      · intro hole' t' hroot h'
        have h'' := hrest hole' t' hroot (by simpa [flag_at] using h')
        have hbr' : binary_parens_required d.op (plug ds hole') = .ok br := by
          rw [parens_congr d.op _ _ (root_op_plug ds _ _ hroot)]; exact hbr
        rw [print_binary T _ _ _ _ _ hop, mes_binary_expression_print, hl, h'',
          binary_text_ok _ _ _ bl br sym tl _ hbl hbr' hsym]
        simp only [wrap_eq]
        simp only [String.append_assoc]
    | false =>
      simp only [plug, descent.node, hside, Bool.false_eq_true, if_false] at h ⊢
      rw [print_binary T _ _ _ _ _ hop, mes_binary_expression_print] at h
      obtain ⟨bl, br, sym, tl, tr, hbl, hbr, hsym, hl, hr⟩ := binary_text_inv _ _ _ _ _ _ h
      rw [hl, hr, binary_text_ok _ _ _ bl br sym tl tr hbl hbr hsym] at h
      obtain ⟨pre, t, post, ht, hs, hrest⟩ := ih' hole _ tl hl
      refine ⟨(if br then "(" ++ tr ++ ")" else tr) ++ " " ++ sym ++ " " ++
          (if bl then "(" else "") ++ pre, t,
        post ++ (if bl then ")" else ""), by simpa [flag_at] using ht, ?_, ?_⟩
      · cases h
        subst hs
        simp only [wrap_eq]
        simp only [String.append_assoc]
      · intro hole' t' hroot h'
        have h'' := hrest hole' t' hroot (by simpa [flag_at] using h')
        have hbl' : binary_parens_required d.op (plug ds hole') = .ok bl := by
          rw [parens_congr d.op _ _ (root_op_plug ds _ _ hroot)]; exact hbl
        rw [print_binary T _ _ _ _ _ hop, mes_binary_expression_print, hr, h'',
          binary_text_ok _ _ _ bl br sym _ tr hbl' hbr hsym]
        simp only [wrap_eq]
        simp only [String.append_assoc]


theorem print_immediate (T : system_var_names) (hole : mes_expression) (n : Nat)
    (h : immediate_value hole = some n) (bitwise : Bool) :
    n < 2 ^ 32 ∧ _mes_expression_print T hole bitwise = .ok (print_number n bitwise) := by
  cases hole with
  | NULL => simp [immediate_value] at h
  | node op arg a b =>
    cases op <;> simp only [immediate_value, Option.some.injEq, reduceCtorEq] at h <;>
      subst h <;> refine ⟨?_, rfl⟩ <;> norm_num <;> omega

theorem not_mask_shaped_1000 : ¬ mask_shaped 1000 := by
  rintro (h | h | h | h)
  · exact absurd h (by decide)
  · exact not_pow_two_between 1000 9 (by norm_num) (by norm_num) h
  · exact absurd h (by norm_num)
  · exact not_pow_two_between ((1000 + 1) % 2 ^ 32) 9 (by norm_num) (by norm_num) h

theorem print_binary_bitwise (T : system_var_names) (op : mes_expression_op) (arg : Nat)
    (a b : mes_expression) (bitwise : Bool) (hop : op ∈ bitwise_ops) :
    _mes_expression_print T (.node op arg a b) bitwise =
      mes_binary_expression_print T op a b true := by
  simp only [bitwise_ops, List.mem_cons, List.mem_singleton, List.mem_nil_iff, or_false] at hop
  rcases hop with h | h | h <;> subst h <;> rfl

theorem print_binary_leaving (T : system_var_names) (op : mes_expression_op) (arg : Nat)
    (a b : mes_expression) (bitwise : Bool) (hop : op ∈ relational_ops ++ logical_ops) :
    _mes_expression_print T (.node op arg a b) bitwise =
      mes_binary_expression_print T op a b false := by
  simp only [relational_ops, logical_ops, List.cons_append, List.nil_append, List.mem_cons,
    List.mem_singleton, List.mem_nil_iff, or_false] at hop
  rcases hop with h | h | h | h | h | h | h | h <;> subst h <;> rfl

theorem print_binary_arithmetic (T : system_var_names) (op : mes_expression_op) (arg : Nat)
    (a b : mes_expression) (bitwise : Bool) (hop : op ∈ additive_ops ++ multiplicative_ops) :
    _mes_expression_print T (.node op arg a b) bitwise =
      mes_binary_expression_print T op a b bitwise := by
  simp only [additive_ops, multiplicative_ops, List.cons_append, List.nil_append,
    List.mem_cons, List.mem_singleton, List.mem_nil_iff, or_false] at hop
  rcases hop with h | h | h | h | h <;> subst h <;> rfl

theorem arithmetic_is_binary (op : mes_expression_op)
    (h : op ∈ additive_ops ++ multiplicative_ops) : op ∈ binary_operators := by
  simp only [additive_ops, multiplicative_ops, List.cons_append, List.nil_append,
    List.mem_cons, List.mem_singleton, List.mem_nil_iff, or_false] at h
  rcases h with h | h | h | h | h <;> subst h <;> decide

theorem bitwise_is_binary (op : mes_expression_op) (h : op ∈ bitwise_ops) :
    op ∈ binary_operators := by
  simp only [bitwise_ops, List.mem_cons, List.mem_singleton, List.mem_nil_iff, or_false] at h
  rcases h with h | h | h <;> subst h <;> decide

theorem leaving_is_binary (op : mes_expression_op) (h : op ∈ relational_ops ++ logical_ops) :
    op ∈ binary_operators := by
  simp only [relational_ops, logical_ops, List.cons_append, List.nil_append, List.mem_cons,
    List.mem_singleton, List.mem_nil_iff, or_false] at h
  rcases h with h | h | h | h | h | h | h | h <;> subst h <;> decide

/-- The flag at the end of a path whose last non-arithmetic step is `d`. -/
theorem flag_at_below (outer inner : List descent) (d : descent) (bitwise : Bool)
    (hinner : ∀ x ∈ inner, x.op ∈ additive_ops ++ multiplicative_ops) :
    flag_at (outer ++ d :: inner) bitwise = spec_child_flag d.op (flag_at outer bitwise) := by
  rw [flag_at_append, flag_at, flag_at_arithmetic inner hinner]

theorem path_is_binary (outer inner : List descent) (d : descent)
    (houter : ∀ x ∈ outer, x.op ∈ binary_operators) (hd : d.op ∈ binary_operators)
    (hinner : ∀ x ∈ inner, x.op ∈ additive_ops ++ multiplicative_ops) :
    ∀ x ∈ outer ++ d :: inner, x.op ∈ binary_operators := by
  intro x hx
  rcases List.mem_append.mp hx with h | h
  · exact houter x h
  · rcases List.mem_cons.mp h with h | h
    · rw [h]; exact hd
    · exact arithmetic_is_binary _ (hinner x h)

/-- C5: the flag is threaded top-down as stated. `mes_expression_print` starts with the
flag clear; a bitwise operator renders both children with the flag set, a comparison or
logical operator with the flag clear, an arithmetic operator with the flag it received.
Hence an immediate `n >= 255` that is not mask-shaped, sitting below a bitwise operator
`d` with only arithmetic operators in between, is written `0x<hex of n>` at its position
in the text (the text around that position does not depend on the immediate); and it is
written in decimal when the nearest non-arithmetic operator above it is a comparison or
a logical operator. -/
theorem bitwise_flag_threading (T : system_var_names) :
    (∀ e, mes_expression_print T e = _mes_expression_print T e false) ∧
    (∀ op arg a b bitwise, op ∈ bitwise_ops →
      _mes_expression_print T (.node op arg a b) bitwise =
        mes_binary_expression_print T op a b true) ∧
    (∀ op arg a b bitwise, op ∈ relational_ops ++ logical_ops →
      _mes_expression_print T (.node op arg a b) bitwise =
        mes_binary_expression_print T op a b false) ∧
    (∀ op arg a b bitwise, op ∈ additive_ops ++ multiplicative_ops →
      _mes_expression_print T (.node op arg a b) bitwise =
        mes_binary_expression_print T op a b bitwise) ∧
    (∀ (outer inner : List descent) (d : descent) (hole : mes_expression) (n : Nat)
        (bitwise : Bool) (s : String),
      (∀ x ∈ outer, x.op ∈ binary_operators) → d.op ∈ bitwise_ops →
      (∀ x ∈ inner, x.op ∈ additive_ops ++ multiplicative_ops) →
      immediate_value hole = some n → 255 ≤ n → ¬ mask_shaped n →
      _mes_expression_print T (plug (outer ++ d :: inner) hole) bitwise = .ok s →
      ∃ pre post, s = pre ++ ("0x" ++ printf_x n) ++ post ∧
        ∀ hole' t', root_op hole' = root_op hole →
          _mes_expression_print T hole' true = .ok t' →
          _mes_expression_print T (plug (outer ++ d :: inner) hole') bitwise =
            .ok (pre ++ t' ++ post)) ∧
    (∀ (outer inner : List descent) (d : descent) (hole : mes_expression) (n : Nat)
        (bitwise : Bool) (s : String),
      (∀ x ∈ outer, x.op ∈ binary_operators) → d.op ∈ relational_ops ++ logical_ops →
      (∀ x ∈ inner, x.op ∈ additive_ops ++ multiplicative_ops) →
      immediate_value hole = some n → 255 ≤ n → ¬ mask_shaped n →
      _mes_expression_print T (plug (outer ++ d :: inner) hole) bitwise = .ok s →
      ∃ pre post, s = pre ++ printf_u n ++ post ∧
        ∀ hole' t', root_op hole' = root_op hole →
          _mes_expression_print T hole' false = .ok t' →
          _mes_expression_print T (plug (outer ++ d :: inner) hole') bitwise =
            .ok (pre ++ t' ++ post)) := by
  refine ⟨fun _ => rfl, fun op arg a b bw h => print_binary_bitwise T op arg a b bw h,
    fun op arg a b bw h => print_binary_leaving T op arg a b bw h,
    fun op arg a b bw h => print_binary_arithmetic T op arg a b bw h, ?_, ?_⟩
  · intro outer inner d hole n bitwise s houter hd hinner himm hlo hmask hs
    have hflag : flag_at (outer ++ d :: inner) bitwise = true := by
      rw [flag_at_below outer inner d bitwise hinner]
      simp [spec_child_flag, hd]
    obtain ⟨pre, t, post, ht, hst, hrest⟩ :=
      plug_render T _ (path_is_binary outer inner d houter (bitwise_is_binary _ hd) hinner)
        hole bitwise s hs
    rw [hflag] at ht hrest
    obtain ⟨hhi, hprint⟩ := print_immediate T hole n himm true
    rw [hprint, (print_number_large n true hlo hhi).2 hmask] at ht
    cases ht
    exact ⟨pre, post, hst, hrest⟩
  · intro outer inner d hole n bitwise s houter hd hinner himm hlo hmask hs
    have hflag : flag_at (outer ++ d :: inner) bitwise = false := by
      rw [flag_at_below outer inner d bitwise hinner]
      simp only [relational_ops, logical_ops, List.cons_append, List.nil_append,
        List.mem_cons, List.mem_singleton, List.mem_nil_iff, or_false] at hd
      rcases hd with h | h | h | h | h | h | h | h <;> rw [h] <;> rfl
    obtain ⟨pre, t, post, ht, hst, hrest⟩ :=
      plug_render T _ (path_is_binary outer inner d houter (leaving_is_binary _ hd) hinner)
        hole bitwise s hs
    rw [hflag] at ht hrest
    obtain ⟨hhi, hprint⟩ := print_immediate T hole n himm false
    rw [hprint, (print_number_large n false hlo hhi).2 hmask] at ht
    cases ht
    exact ⟨pre, post, hst, hrest⟩


theorem bitwise_flag_threading_witness :
    (_mes_expression_print no_names (.node MES_EXPR_BITXOR 0 (imm8 1) (imm8 2)) false =
      mes_binary_expression_print no_names MES_EXPR_BITXOR (imm8 1) (imm8 2) true) ∧
    (_mes_expression_print no_names (.node MES_EXPR_OR 0 (imm8 1) (imm8 2)) true =
      mes_binary_expression_print no_names MES_EXPR_OR (imm8 1) (imm8 2) false) ∧
    (_mes_expression_print no_names (.node MES_EXPR_MOD 0 (imm8 1) (imm8 2)) true =
      mes_binary_expression_print no_names MES_EXPR_MOD (imm8 1) (imm8 2) true) ∧
    (∃ pre post, "(var16[2] + 0x3e8) & 0x1" = pre ++ ("0x" ++ printf_x 1000) ++ post ∧
      ∀ hole' t', root_op hole' = root_op (imm16 1000) →
        _mes_expression_print no_names hole' true = .ok t' →
        _mes_expression_print no_names
            (plug ([] ++ sample_and_step :: [sample_plus_step]) hole') false =
          .ok (pre ++ t' ++ post)) ∧
    (∃ pre post, "(var16[2] < 1000) & 0x1" = pre ++ printf_u 1000 ++ post ∧
      ∀ hole' t', root_op hole' = root_op (imm16 1000) →
        _mes_expression_print no_names hole' false = .ok t' →
        _mes_expression_print no_names
            (plug ([sample_and_step] ++ sample_lt_step :: []) hole') false =
          .ok (pre ++ t' ++ post)) :=
  ⟨(bitwise_flag_threading no_names).2.1 MES_EXPR_BITXOR 0 (imm8 1) (imm8 2) false
      (show MES_EXPR_BITXOR ∈ bitwise_ops by decide),
   (bitwise_flag_threading no_names).2.2.1 MES_EXPR_OR 0 (imm8 1) (imm8 2) true
      (show MES_EXPR_OR ∈ relational_ops ++ logical_ops by decide),
   (bitwise_flag_threading no_names).2.2.2.1 MES_EXPR_MOD 0 (imm8 1) (imm8 2) true
      (show MES_EXPR_MOD ∈ additive_ops ++ multiplicative_ops by decide),
   (bitwise_flag_threading no_names).2.2.2.2.1 [] [sample_plus_step] sample_and_step
      (imm16 1000) 1000 false "(var16[2] + 0x3e8) & 0x1" (by decide) (by decide) (by decide)
      (by decide) (by decide) not_mask_shaped_1000 (by decide),
   (bitwise_flag_threading no_names).2.2.2.2.2 [sample_and_step] [] sample_lt_step
      (imm16 1000) 1000 false "(var16[2] < 1000) & 0x1" (by decide) (by decide) (by decide)
      (by decide) (by decide) not_mask_shaped_1000 (by decide)⟩


/-! ## The parser -/

theorem parse_expr_atom (fuel min : Nat) (text : String) (rest : List token) :
    parse_expr (fuel + 1) min (.atom text :: rest) = parse_loop fuel min (.leaf text) rest := by
  rw [parse_expr]

theorem parse_expr_lparen (fuel min : Nat) (rest : List token) :
    parse_expr (fuel + 1) min (.lparen :: rest) =
      match parse_expr fuel 0 rest with
      | some (g, .rparen :: rest') => parse_loop fuel min g rest'
      | _ => none := by
  rw [parse_expr]

theorem parse_loop_operator (fuel min : Nat) (lhs : grouping) (op : mes_expression_op)
    (rest : List token) :
    parse_loop (fuel + 1) min lhs (.operator op :: rest) =
      if min ≤ precedence op then
        match parse_expr fuel (precedence op + 1) rest with
        | some (rhs, rest') => parse_loop fuel min (.binary op lhs rhs) rest'
        | none => none
      else some (lhs, .operator op :: rest) := by
  rw [parse_loop]

theorem parse_expr_zero (min : Nat) (ts : List token) : parse_expr 0 min ts = none := by
  rw [parse_expr]

theorem parse_loop_zero (min : Nat) (lhs : grouping) (ts : List token) :
    parse_loop 0 min lhs ts = none := by
  rw [parse_loop]

theorem parse_expr_other (fuel min : Nat) (ts : List token)
    (h : ts = [] ∨ (∃ rest, ts = .rparen :: rest) ∨ ∃ op rest, ts = .operator op :: rest) :
    parse_expr (fuel + 1) min ts = none := by
  rcases h with h | ⟨rest, h⟩ | ⟨op, rest, h⟩ <;> subst h <;> simp [parse_expr]

theorem parse_loop_other (fuel min : Nat) (lhs : grouping) (ts : List token)
    (h : ∀ op rest, ts ≠ .operator op :: rest) :
    parse_loop (fuel + 1) min lhs ts = some (lhs, ts) := by
  cases ts with
  | nil => simp [parse_loop]
  | cons t rest =>
    cases t with
    | operator op => exact absurd rfl (h op rest)
    | lparen => simp [parse_loop]
    | rparen => simp [parse_loop]
    | atom text => simp [parse_loop]

theorem parse_loop_fuel_pos (fuel min : Nat) (lhs : grouping) (rest : List token)
    (r : grouping × List token) (h : parse_loop fuel min lhs rest = some r) : 0 < fuel := by
  cases fuel with
  | zero => rw [parse_loop_zero] at h; cases h
  | succ n => omega

/-- The loop stops at once in front of anything but an operator of precedence at least
`min`. -/
theorem parse_loop_stop (fuel min : Nat) (lhs : grouping) (rest : List token)
    (hrest : ∀ op rest', rest = .operator op :: rest' → precedence op < min) :
    parse_loop (fuel + 1) min lhs rest = some (lhs, rest) := by
  by_cases h : ∃ op rest', rest = .operator op :: rest'
  · obtain ⟨op, rest', h⟩ := h
    have hlt := hrest op rest' h
    subst h
    rw [parse_loop_operator, if_neg (by omega)]
  · exact parse_loop_other _ _ _ _ (fun op rest' he => h ⟨op, rest', he⟩)

theorem parse_fuel_succ (fuel : Nat) :
    (∀ min ts r, parse_expr fuel min ts = some r → parse_expr (fuel + 1) min ts = some r) ∧
    (∀ min lhs ts r, parse_loop fuel min lhs ts = some r →
      parse_loop (fuel + 1) min lhs ts = some r) := by
  induction fuel with
  | zero =>
    constructor
    · intro min ts r h; rw [parse_expr_zero] at h; cases h
    · intro min lhs ts r h; rw [parse_loop_zero] at h; cases h
  | succ n ih =>
    obtain ⟨ihe, ihl⟩ := ih
    constructor
    · intro min ts r h
      cases ts with
      | nil => rw [parse_expr_other _ _ _ (Or.inl rfl)] at h; cases h
      | cons t rest =>
        cases t with
        | atom text =>
          rw [parse_expr_atom] at h ⊢
          exact ihl _ _ _ _ h
        | lparen =>
          rw [parse_expr_lparen] at h ⊢
          cases hin : parse_expr n 0 rest with
          | none => simp [hin] at h
          | some p =>
            obtain ⟨g, rest1⟩ := p
            rw [hin] at h
            rw [ihe _ _ _ hin]
            cases rest1 with
            | nil => simp at h
            | cons t1 rest2 =>
              cases t1 with
              | rparen => exact ihl _ _ _ _ h
              | lparen => simp at h
              | operator op => simp at h
              | atom text => simp at h
        | rparen => rw [parse_expr_other _ _ _ (Or.inr (Or.inl ⟨_, rfl⟩))] at h; cases h
        | operator op =>
          rw [parse_expr_other _ _ _ (Or.inr (Or.inr ⟨_, _, rfl⟩))] at h; cases h
    · intro min lhs ts r h
      by_cases hop : ∃ op rest, ts = .operator op :: rest
      · obtain ⟨op, rest, hts⟩ := hop
        subst hts
        rw [parse_loop_operator] at h ⊢
        by_cases hmin : min ≤ precedence op
        · rw [if_pos hmin] at h ⊢
          cases hin : parse_expr n (precedence op + 1) rest with
          | none => simp [hin] at h
          | some p =>
            obtain ⟨rhs, rest1⟩ := p
            rw [hin] at h
            rw [ihe _ _ _ hin]
            exact ihl _ _ _ _ h
        · rw [if_neg hmin] at h ⊢; exact h
      · have hne : ∀ op rest, ts ≠ .operator op :: rest := fun op rest he => hop ⟨op, rest, he⟩
        rw [parse_loop_other _ _ _ _ hne] at h
        rw [parse_loop_other _ _ _ _ hne]
        exact h

theorem parse_loop_mono (fuel extra min : Nat) (lhs : grouping) (ts : List token)
    (r : grouping × List token) (h : parse_loop fuel min lhs ts = some r) :
    parse_loop (fuel + extra) min lhs ts = some r := by
  induction extra with
  | zero => exact h
  | succ k ih => exact (parse_fuel_succ (fuel + k)).2 _ _ _ _ ih


/-! ## Parsing the items of a grouping -/

theorem precedence_le (op : mes_expression_op) : precedence op ≤ 5 := by
  cases op <;> decide

theorem unparenthesised_first_level (op c : mes_expression_op) :
    is_binary_operator op = true → is_binary_operator c = true →
    binary_parens_required op (.node c 0 .NULL .NULL) = .ok false →
    precedence op ≤ precedence c := by
  cases op <;> cases c <;> decide

theorem unparenthesised_second_level (op c : mes_expression_op) :
    is_binary_operator op = true → is_binary_operator c = true →
    binary_parens_required op (.node c 0 .NULL .NULL) = .ok false →
    ¬ (op ∈ multiplicative_ops ∧ c = MES_EXPR_MOD) →
    precedence op + 1 ≤ precedence c := by
  cases op <;> cases c <;> decide

theorem parens_total_binary (op c : mes_expression_op) :
    is_binary_operator op = true →
    ∃ p, binary_parens_required op (.node c 0 .NULL .NULL) = .ok p := by
  cases op <;> cases c <;> first | (intro h; exact absurd h (by decide)) | exact fun _ => ⟨_, rfl⟩

theorem first_operand_level (op : mes_expression_op) (g : grouping)
    (hop : is_binary_operator op = true) (hg : grouping_ok g = true)
    (hp : child_parens op g = false) : precedence op ≤ grouping_level g := by
  cases g with
  | leaf text => have := precedence_le op; simp only [grouping_level]; omega
  | binary c f s =>
    have hc : is_binary_operator c = true := by
      simp only [grouping_ok, Bool.and_eq_true] at hg
      exact hg.1.1.1
    obtain ⟨p, hpar⟩ := parens_total_binary op c hop
    simp only [child_parens, hpar] at hp
    subst hp
    exact unparenthesised_first_level op c hop hc hpar

theorem second_operand_level (op : mes_expression_op) (g : grouping)
    (hop : is_binary_operator op = true) (hg : grouping_ok g = true)
    (hp : child_parens op g = false)
    (hmod : ¬ (op ∈ multiplicative_ops ∧ grouping_root g = some MES_EXPR_MOD)) :
    precedence op + 1 ≤ grouping_level g := by
  cases g with
  | leaf text => have := precedence_le op; simp only [grouping_level]; omega
  | binary c f s =>
    have hc : is_binary_operator c = true := by
      simp only [grouping_ok, Bool.and_eq_true] at hg
      exact hg.1.1.1
    obtain ⟨p, hpar⟩ := parens_total_binary op c hop
    simp only [child_parens, hpar] at hp
    subst hp
    refine unparenthesised_second_level op c hop hc hpar ?_
    rintro ⟨h1, h2⟩
    exact hmod ⟨h1, by simp [grouping_root, h2]⟩

/-- An operand position: the items of `g`, between parentheses or not, are read as `g`,
after which the loop goes on. -/
theorem parse_operand (g : grouping)
    (ih : ∀ (min fuel : Nat) (rest : List token) (r : grouping × List token),
      min ≤ grouping_level g →
      (∀ op rest', rest = .operator op :: rest' → precedence op ≤ grouping_level g) →
      parse_loop fuel min g rest = some r →
      parse_expr (fuel + (grouping_tokens g).length) min (grouping_tokens g ++ rest) = some r)
    (parens : Bool) (min fuel : Nat) (rest : List token) (r : grouping × List token)
    (hp : parens = false → min ≤ grouping_level g ∧
      ∀ op rest', rest = .operator op :: rest' → precedence op ≤ grouping_level g)
    (h : parse_loop fuel min g rest = some r) :
    parse_expr (fuel + (wrap_tokens parens (grouping_tokens g)).length) min
      (wrap_tokens parens (grouping_tokens g) ++ rest) = some r := by
  cases parens with
  | false =>
    obtain ⟨h1, h2⟩ := hp rfl
    simpa [wrap_tokens] using ih min fuel rest r h1 h2 h
  | true =>
    have hinner : parse_expr (fuel + 1 + (grouping_tokens g).length) 0
        (grouping_tokens g ++ .rparen :: rest) = some (g, .rparen :: rest) := by
      refine ih 0 (fuel + 1) (.rparen :: rest) _ (Nat.zero_le _) ?_ ?_
      · intro op rest' he; cases he
      · exact parse_loop_other _ _ _ _ (fun op rest' he => by cases he)
    have hlen : fuel + (wrap_tokens true (grouping_tokens g)).length =
        (fuel + 1 + (grouping_tokens g).length) + 1 := by
      simp [wrap_tokens]; omega
    have hlist : wrap_tokens true (grouping_tokens g) ++ rest =
        .lparen :: (grouping_tokens g ++ .rparen :: rest) := by
      simp [wrap_tokens]
    rw [hlen, hlist, parse_expr_lparen, hinner]
    simp only []
    have := parse_loop_mono fuel (1 + (grouping_tokens g).length) min g rest r h
    rw [show fuel + 1 + (grouping_tokens g).length = fuel + (1 + (grouping_tokens g).length)
      by omega]
    exact this

theorem parse_grouping_tokens (g : grouping) (hok : grouping_ok g = true) :
    ∀ (min fuel : Nat) (rest : List token) (r : grouping × List token),
      min ≤ grouping_level g →
      (∀ op rest', rest = .operator op :: rest' → precedence op ≤ grouping_level g) →
      parse_loop fuel min g rest = some r →
      parse_expr (fuel + (grouping_tokens g).length) min (grouping_tokens g ++ rest) = some r := by
  induction g with
  | leaf text =>
    intro min fuel rest r _ _ h
    simpa [grouping_tokens, parse_expr_atom] using h
  | binary op f s ihf ihs =>
    intro min fuel rest r hmin hrest h
    simp only [grouping_ok, Bool.and_eq_true, Bool.not_eq_true', Bool.and_eq_false_iff,
      decide_eq_false_iff_not] at hok
    obtain ⟨⟨⟨hop, hmod⟩, hokf⟩, hoks⟩ := hok
    simp only [grouping_level] at hmin hrest
    obtain ⟨k, hk⟩ : ∃ k, fuel = k + 1 :=
      ⟨fuel - 1, by have := parse_loop_fuel_pos _ _ _ _ _ h; omega⟩
    -- the second operand
    have hsecond : parse_expr (fuel + (wrap_tokens (child_parens op s) (grouping_tokens s)).length)
        (precedence op + 1) (wrap_tokens (child_parens op s) (grouping_tokens s) ++ rest) =
        some (s, rest) := by
      refine parse_operand s (ihs hoks) _ _ _ _ _ ?_ ?_
      · intro hp
        have hlev := second_operand_level op s hop hoks hp (by
          rintro ⟨h1, h2⟩
          rcases hmod with hm | hm
          · exact hm h1
          · exact hm h2)
        exact ⟨hlev, fun o rest' he => by have := hrest o rest' he; omega⟩
      · rw [hk]
        exact parse_loop_stop _ _ _ _ (fun o rest' he => by have := hrest o rest' he; omega)
    -- the loop in front of the operator
    have hloop : parse_loop
        (fuel + (wrap_tokens (child_parens op s) (grouping_tokens s)).length + 1) min f
        (.operator op :: (wrap_tokens (child_parens op s) (grouping_tokens s) ++ rest)) =
        some r := by
      rw [parse_loop_operator, if_pos hmin, hsecond]
      exact parse_loop_mono _ _ _ _ _ _ h
    -- the first operand
    have hfirst := parse_operand f (ihf hokf) (child_parens op f) min _ _ r (by
      intro hp
      have hlev := first_operand_level op f hop hokf hp
      refine ⟨by omega, fun o rest' he => ?_⟩
      cases he
      exact hlev) hloop
    have hlen : fuel + (grouping_tokens (.binary op f s)).length =
        fuel + (wrap_tokens (child_parens op s) (grouping_tokens s)).length + 1 +
          (wrap_tokens (child_parens op f) (grouping_tokens f)).length := by
      simp [grouping_tokens]; omega
    have hlist : grouping_tokens (.binary op f s) ++ rest =
        wrap_tokens (child_parens op f) (grouping_tokens f) ++
          .operator op :: (wrap_tokens (child_parens op s) (grouping_tokens s) ++ rest) := by
      simp [grouping_tokens]
    rw [hlen, hlist]
    exact hfirst

/-- The items of a grouping are read back as the grouping. -/
theorem parse_grouping (g : grouping) (hok : grouping_ok g = true) :
    parse (grouping_tokens g) = some g := by
  have h := parse_grouping_tokens g hok 0 1 [] (g, []) (Nat.zero_le _)
    (fun op rest' he => by cases he) (parse_loop_other _ _ _ _ (fun op rest' he => by cases he))
  rw [List.append_nil, Nat.add_comm] at h
  simp [parse, h]


/-! ## The items and the grouping of a tree -/

theorem bind_eq_ok {α β : Type} (m : Except fault α) (f : α → Except fault β) (y : β)
    (h : (m >>= f) = .ok y) : ∃ x, m = .ok x ∧ f x = .ok y := by
  cases m with
  | error e => cases h
  | ok x => exact ⟨x, rfl, h⟩

theorem tokens_text_append (xs ys : List token) :
    tokens_text (xs ++ ys) = tokens_text xs ++ tokens_text ys := by
  induction xs with
  | nil => simp [tokens_text]
  | cons t xs ih => simp [tokens_text, ih, String.append_assoc]

theorem tokens_text_wrap (parens : Bool) (ts : List token) :
    tokens_text (if parens then [.lparen] ++ ts ++ [.rparen] else ts) =
      if parens then "(" ++ tokens_text ts ++ ")" else tokens_text ts := by
  cases parens
  · simp
  · simp [tokens_text_append, tokens_text, token_text, String.append_assoc]

/-- The text of the items of a tree is the text that the printer writes. -/
theorem expression_tokens_text (T : system_var_names) (e : mes_expression) :
    ∀ bitwise, (expression_tokens T e bitwise).map tokens_text =
      _mes_expression_print T e bitwise := by
  induction e with
  | NULL => intro bitwise; rfl
  | node op arg a b iha ihb =>
    intro bitwise
    by_cases hbin : is_binary_operator op = true
    · have hop : op ∈ binary_operators := by simpa [is_binary_operator] using hbin
      rw [print_binary T op arg a b bitwise hop, mes_binary_expression_print,
        ← iha (spec_child_flag op bitwise), ← ihb (spec_child_flag op bitwise)]
      simp only [expression_tokens, hbin, if_true, binary_expression_text]
      cases binary_parens_required op b with
      | error err => rfl
      | ok pb =>
        cases expression_tokens T b (spec_child_flag op bitwise) with
        | error err => rfl
        | ok tb =>
          cases hsym : binary_op_to_string op with
          | error err => rfl
          | ok sym =>
            cases binary_parens_required op a with
            | error err => rfl
            | ok pa =>
              cases expression_tokens T a (spec_child_flag op bitwise) with
              | error err => rfl
              | ok ta =>
                simp only [Except.map, bind, Except.bind, pure, Except.pure, Except.ok.injEq]
                rw [tokens_text_append, tokens_text_append, tokens_text_wrap, tokens_text_wrap]
                simp [tokens_text, token_text, hsym, String.append_assoc]
    · simp only [expression_tokens, hbin]
      cases _mes_expression_print T (.node op arg a b) bitwise with
      | error err => rfl
      | ok text => simp [Except.map, bind, Except.bind, pure, Except.pure, tokens_text, token_text]

theorem not_binary_operator_is_binary_op (op : mes_expression_op)
    (h : is_binary_operator op = false) : is_binary_op op = false := by
  cases op <;> first | rfl | exact absurd h (by decide)

theorem child_parens_eq (op : mes_expression_op) (e : mes_expression) (g : grouping) (p : Bool)
    (hroot : ∀ c, grouping_root g = some c ↔ (root_op e = some c ∧ is_binary_operator c = true))
    (hp : binary_parens_required op e = .ok p) : child_parens op g = p := by
  cases e with
  | NULL => cases hp
  | node c arg a b =>
    cases g with
    | leaf text =>
      have hc : is_binary_operator c = false := by
        by_contra hc
        have := (hroot c).mpr ⟨rfl, by simpa using hc⟩
        simp [grouping_root] at this
      have hf : binary_parens_required op (.node c arg a b) = .ok false := by
        simp [binary_parens_required, not_binary_operator_is_binary_op c hc]
      rw [hf] at hp
      cases hp
      rfl
    | binary c' f s =>
      have hcc : c' = c := by
        have := ((hroot c').mp rfl).1
        simpa [root_op] using this.symm
      subst hcc
      have hcong : binary_parens_required op (.node c' 0 .NULL .NULL) =
          binary_parens_required op (.node c' arg a b) := rfl
      simp [child_parens, hcong, hp]

/-- The items of a tree are the items of its grouping. -/
theorem expression_tokens_grouping (T : system_var_names) (e : mes_expression) :
    ∀ bitwise ts, expression_tokens T e bitwise = .ok ts →
      ∃ g, expression_grouping T e bitwise = .ok g ∧ grouping_tokens g = ts ∧
        (∀ c, grouping_root g = some c ↔ (root_op e = some c ∧ is_binary_operator c = true)) ∧
        (no_mod_second_operand e = true → grouping_ok g = true) := by
  induction e with
  | NULL => intro bitwise ts h; cases h
  | node op arg a b iha ihb =>
    intro bitwise ts h
    by_cases hbin : is_binary_operator op = true
    · simp only [expression_tokens, hbin, if_true] at h
      obtain ⟨pb, hpb, h⟩ := bind_eq_ok _ _ _ h
      obtain ⟨tb, htb, h⟩ := bind_eq_ok _ _ _ h
      obtain ⟨sym, hsym, h⟩ := bind_eq_ok _ _ _ h
      obtain ⟨pa, hpa, h⟩ := bind_eq_ok _ _ _ h
      obtain ⟨ta, hta, h⟩ := bind_eq_ok _ _ _ h
      obtain ⟨gb, hgb, htoksb, hrootb, hokb⟩ := ihb _ _ htb
      obtain ⟨ga, hga, htoksa, hroota, hoka⟩ := iha _ _ hta
      refine ⟨.binary op gb ga, ?_, ?_, ?_, ?_⟩
      · simp [expression_grouping, hbin, hgb, hga, bind, Except.bind, pure, Except.pure]
      · cases h
        simp [grouping_tokens, wrap_tokens, child_parens_eq op b gb pb hrootb hpb,
          child_parens_eq op a ga pa hroota hpa, htoksb, htoksa]
      · intro c
        simp only [grouping_root, root_op, Option.some.injEq]
        constructor
        · intro hc; subst hc; exact ⟨rfl, hbin⟩
        · intro hc; exact hc.1
      · intro hno
        simp only [no_mod_second_operand, hbin, if_true, Bool.and_eq_true] at hno
        obtain ⟨⟨hmod, hnoa⟩, hnob⟩ := hno
        simp only [grouping_ok, hbin, hokb hnob, hoka hnoa, Bool.and_true, Bool.true_and]
        have hiff : (grouping_root ga = some MES_EXPR_MOD) ↔ (root_op a = some MES_EXPR_MOD) := by
          rw [hroota]
          exact ⟨fun hh => hh.1, fun hh => ⟨hh, by decide⟩⟩
        simpa [hiff] using hmod
    · simp only [expression_tokens, hbin] at h
      obtain ⟨text, htext, h⟩ := bind_eq_ok _ _ _ h
      cases h
      refine ⟨.leaf text, ?_, rfl, ?_, fun _ => rfl⟩
      · simp [expression_grouping, hbin, htext, bind, Except.bind, pure, Except.pure]
      · intro c
        simp only [grouping_root, root_op, Option.some.injEq, false_iff, not_and, reduceCtorEq]
        intro hc; subst hc; exact hbin

/-! ## Parentheses and grouping -/

/-- C1 as stated fails on the tree `(1 + 2) + 3` of the claim. The printer writes
`(1 + 2) + 3`, the parentheses being the items 0 and 4; without that pair the text is
`1 + 2 + 3`, which the precedence table (operators of one family group to the left)
reads as the grouping of the tree itself: the pair is not necessary. -/
theorem redundant_parentheses :
    mes_expression_print no_names sample_sum = .ok "(1 + 2) + 3" ∧
    expression_tokens no_names sample_sum false =
      .ok [.lparen, .atom "1", .operator MES_EXPR_PLUS, .atom "2", .rparen,
        .operator MES_EXPR_PLUS, .atom "3"] ∧
    expression_grouping no_names sample_sum false =
      .ok (.binary MES_EXPR_PLUS (.binary MES_EXPR_PLUS (.leaf "1") (.leaf "2")) (.leaf "3")) ∧
    List.eraseIdx (List.eraseIdx [token.lparen, .atom "1", .operator MES_EXPR_PLUS, .atom "2",
        .rparen, .operator MES_EXPR_PLUS, .atom "3"] 4) 0 =
      [.atom "1", .operator MES_EXPR_PLUS, .atom "2", .operator MES_EXPR_PLUS, .atom "3"] ∧
    tokens_text [.atom "1", .operator MES_EXPR_PLUS, .atom "2", .operator MES_EXPR_PLUS,
      .atom "3"] = "1 + 2 + 3" ∧
    parse [.atom "1", .operator MES_EXPR_PLUS, .atom "2", .operator MES_EXPR_PLUS, .atom "3"] =
      some (.binary MES_EXPR_PLUS (.binary MES_EXPR_PLUS (.leaf "1") (.leaf "2")) (.leaf "3")) := by
  refine ⟨?_, ?_, ?_, ?_, ?_, ?_⟩ <;> decide

/-- Where a multiplicative operator has a `%` node as second operand, the text does not
keep the grouping: `1 * (2 % 3)` is written `1 * 2 % 3`, which reads as `(1 * 2) % 3`. -/
theorem mod_second_operand_regroups :
    mes_expression_print no_names
        (.node MES_EXPR_MUL 0 (.node MES_EXPR_MOD 0 (imm8 3) (imm8 2)) (imm8 1)) =
      .ok "1 * 2 % 3" ∧
    parse [.atom "1", .operator MES_EXPR_MUL, .atom "2", .operator MES_EXPR_MOD, .atom "3"] =
      some (.binary MES_EXPR_MOD (.binary MES_EXPR_MUL (.leaf "1") (.leaf "2")) (.leaf "3")) := by
  refine ⟨?_, ?_⟩ <;> decide

/-- C1, amended: for every tree in which no multiplicative operator has a `%` node as
its second-written operand, the text that the printer writes, with the parentheses it
inserts, is the text of a sequence of items that the precedence table reads back as the
grouping of the tree. The parentheses are sufficient to keep the grouping; they are not
claimed to be the fewest. -/
theorem printed_text_reparses (T : system_var_names) (e : mes_expression) (bitwise : Bool)
    (s : String) (hno : no_mod_second_operand e = true)
    (hs : _mes_expression_print T e bitwise = .ok s) :
    ∃ ts g, expression_tokens T e bitwise = .ok ts ∧ tokens_text ts = s ∧
      expression_grouping T e bitwise = .ok g ∧ parse ts = some g := by
  have hlink := expression_tokens_text T e bitwise
  rw [hs] at hlink
  cases hts : expression_tokens T e bitwise with
  | error err => rw [hts] at hlink; cases hlink
  | ok ts =>
    rw [hts] at hlink
    obtain ⟨g, hg, htoks, _, hok⟩ := expression_tokens_grouping T e bitwise ts hts
    refine ⟨ts, g, rfl, ?_, hg, ?_⟩
    · simpa [Except.map] using hlink
    · rw [← htoks]
      exact parse_grouping g (hok hno)

theorem printed_text_reparses_witness :
    ∃ ts g, expression_tokens no_names sample_comparison false = .ok ts ∧
      tokens_text ts = "var16[1] + 2 * 3 < 9 && 4 - (5 + 6)" ∧
      expression_grouping no_names sample_comparison false = .ok g ∧ parse ts = some g :=
  printed_text_reparses no_names sample_comparison false "var16[1] + 2 * 3 < 9 && 4 - (5 + 6)"
    (by decide) (by decide)

/-! ## Lists of expressions and parameters -/

theorem intercalate_go_append (x acc sep : String) (l : List String) :
    String.intercalate.go (x ++ acc) sep l = x ++ String.intercalate.go acc sep l := by
  induction l generalizing acc with
  | nil => rfl
  | cons a l ih =>
    simp only [String.intercalate.go]
    rw [String.append_assoc, String.append_assoc, ← String.append_assoc acc, ih]

theorem intercalate_cons_cons (sep a b : String) (l : List String) :
    sep.intercalate (a :: b :: l) = a ++ sep ++ sep.intercalate (b :: l) := by
  simp only [String.intercalate, String.intercalate.go]
  rw [String.append_assoc, intercalate_go_append, intercalate_go_append, String.append_assoc]

/-- The items after the first one, each behind its comma. -/
theorem parameter_loop_later (T : system_var_names) (start : Nat) (l : List mes_parameter)
    (texts : List String) (h : List.Forall₂ (fun p t => mes_parameter_print T p = .ok t) l texts) :
    ∀ i, start < i → parameter_list_loop T start l i =
      .ok ((texts.map fun t => "," ++ t).foldr (· ++ ·) "") := by
  induction h with
  | nil => intro i _; rfl
  | cons hp _ ih =>
    intro i hi
    simp [parameter_list_loop, hp, ih (i + 1) (by omega), hi, bind, Except.bind, pure,
      Except.pure, String.append_assoc]

theorem intercalate_eq_foldr (a : String) (l : List String) :
    ",".intercalate (a :: l) = a ++ (l.map fun t => "," ++ t).foldr (· ++ ·) "" := by
  induction l generalizing a with
  | nil => simp [String.intercalate, String.intercalate.go]
  | cons b l ih =>
    rw [intercalate_cons_cons, ih b]
    simp [String.append_assoc]

theorem parameter_loop_first (T : system_var_names) (start : Nat) (l : List mes_parameter)
    (texts : List String) (h : List.Forall₂ (fun p t => mes_parameter_print T p = .ok t) l texts) :
    parameter_list_loop T start l start = .ok (",".intercalate texts) := by
  cases h with
  | nil => rfl
  | cons hp hrest =>
    rw [intercalate_eq_foldr]
    simp [parameter_list_loop, hp, parameter_loop_later T start _ _ hrest (start + 1) (by omega),
      bind, Except.bind, pure, Except.pure]

theorem parameter_loop_shift (T : system_var_names) (start k : Nat) (l : List mes_parameter) :
    ∀ i, parameter_list_loop T (start + k) l (i + k) = parameter_list_loop T start l i := by
  induction l with
  | nil => intro i; rfl
  | cons p l ih =>
    intro i
    have h := ih (i + 1)
    rw [show i + 1 + k = i + k + 1 by omega] at h
    simp only [parameter_list_loop, h]
    have hc : (i + k > start + k) = (i > start) := by
      apply propext; constructor <;> intro hh <;> omega
    simp only [hc]

/-- Printing from index 1 is printing the list without its first parameter. -/
theorem parameter_list_print_from_one (T : system_var_names) (p : mes_parameter)
    (rest : List mes_parameter) :
    mes_parameter_list_print_from T (p :: rest) 1 = mes_parameter_list_print T rest := by
  have h := parameter_loop_shift T 0 1 rest 0
  simp only [Nat.zero_add] at h
  simp [mes_parameter_list_print, mes_parameter_list_print_from, h]

/-- A list of parameters is written between parentheses, separated by commas. -/
theorem parameter_list_print_texts (T : system_var_names) (l : List mes_parameter)
    (texts : List String) (h : List.Forall₂ (fun p t => mes_parameter_print T p = .ok t) l texts) :
    mes_parameter_list_print T l = .ok ("(" ++ ",".intercalate texts ++ ")") := by
  simp [mes_parameter_list_print, mes_parameter_list_print_from,
    parameter_loop_first T 0 l texts h, bind, Except.bind, pure, Except.pure]

theorem expression_loop_later (T : system_var_names) (l : List mes_expression)
    (texts : List String)
    (h : List.Forall₂ (fun e t => mes_expression_print T e = .ok t) l texts) :
    ∀ i, 0 < i → expression_list_loop T l i =
      .ok ((texts.map fun t => "," ++ t).foldr (· ++ ·) "") := by
  induction h with
  | nil => intro i _; rfl
  | cons hp _ ih =>
    intro i hi
    simp [expression_list_loop, hp, ih (i + 1) (by omega), hi, bind, Except.bind, pure,
      Except.pure, String.append_assoc]

/-- A list of expressions is written separated by commas. -/
theorem expression_list_print_texts (T : system_var_names) (l : List mes_expression)
    (texts : List String)
    (h : List.Forall₂ (fun e t => mes_expression_print T e = .ok t) l texts) :
    mes_expression_list_print T l = .ok (",".intercalate texts) := by
  cases h with
  | nil => rfl
  | cons hp hrest =>
    rw [intercalate_eq_foldr]
    simp [mes_expression_list_print, expression_list_loop, hp,
      expression_loop_later T _ _ hrest 1 (by omega), bind, Except.bind, pure, Except.pure]

/-! ## Faults of the expression printer -/

theorem well_formed_not_null (e : mes_expression) (h : well_formed e = true) :
    ∃ op arg a b, e = .node op arg a b := by
  cases e with
  | NULL => simp [well_formed] at h
  | node op arg a b => exact ⟨op, arg, a, b, rfl⟩

/-- The text of a binary operator node in terms of the results for its children, when
both children are nodes. -/
theorem binary_text_cases (op : mes_expression_op) (hop : op ∈ binary_operators)
    (l r : mes_expression) (hl : well_formed l = true) (hr : well_formed r = true)
    (pl pr : Except fault String) :
    binary_expression_text op l r pl pr =
      match pr with
      | .error err => .error err
      | .ok tr =>
        match pl with
        | .error err => .error err
        | .ok tl => binary_expression_text op l r (.ok tl) (.ok tr) := by
  obtain ⟨ol, al, la, lb, rfl⟩ := well_formed_not_null l hl
  obtain ⟨or, ar, ra, rb, rfl⟩ := well_formed_not_null r hr
  obtain ⟨bl, hbl⟩ := parens_required_node op ol al la lb hop
  obtain ⟨br, hbr⟩ := parens_required_node op or ar ra rb hop
  obtain ⟨sym, hsym⟩ := op_to_string_binary op hop
  cases pr with
  | error err => simp [binary_expression_text, hbr, bind, Except.bind]
  | ok tr =>
    cases pl with
    | error err => simp [binary_expression_text, hbl, hbr, hsym, bind, Except.bind]
    | ok tl => rfl

theorem binary_text_total (op : mes_expression_op) (hop : op ∈ binary_operators)
    (l r : mes_expression) (hl : well_formed l = true) (hr : well_formed r = true)
    (tl tr : String) : ∃ s, binary_expression_text op l r (.ok tl) (.ok tr) = .ok s := by
  obtain ⟨ol, al, la, lb, rfl⟩ := well_formed_not_null l hl
  obtain ⟨or, ar, ra, rb, rfl⟩ := well_formed_not_null r hr
  obtain ⟨bl, hbl⟩ := parens_required_node op ol al la lb hop
  obtain ⟨br, hbr⟩ := parens_required_node op or ar ra rb hop
  obtain ⟨sym, hsym⟩ := op_to_string_binary op hop
  exact ⟨_, binary_text_ok op _ _ bl br sym tl tr hbl hbr hsym⟩

theorem operand_result_map (f : String → String) (inner : Except fault String) :
    operand_result inner (do let t ← inner; pure (f t)) := by
  cases inner with
  | error err => rfl
  | ok t => exact ⟨f t, rfl⟩

theorem array16_result (T : system_var_names) (arg : Nat) (a : mes_expression)
    (ha : well_formed a = true) (inner : Except fault String)
    (himm : root_op a = some MES_EXPR_IMM → ∃ s, inner = .ok s) :
    operand_result inner (array16_get16_text T arg a inner) := by
  obtain ⟨oa, aa, x, y, rfl⟩ := well_formed_not_null a ha
  unfold array16_get16_text
  split
  · by_cases hop : oa = MES_EXPR_IMM
    · obtain ⟨s, hs⟩ := himm (by simp [root_op, hop])
      subst hs
      simp only [hop, if_true]
      cases system_var16_name T (aa % 256) with
      | none => exact ⟨_, rfl⟩
      | some name => exact ⟨_, rfl⟩
    · simp only [hop, if_false]
      exact operand_result_map _ inner
  · exact operand_result_map _ inner

theorem array32_result (T : system_var_names) (arg : Nat) (a : mes_expression)
    (ha : well_formed a = true) (inner : Except fault String)
    (himm : root_op a = some MES_EXPR_IMM → ∃ s, inner = .ok s) :
    operand_result inner (array32_get32_text T arg a inner) := by
  obtain ⟨oa, aa, x, y, rfl⟩ := well_formed_not_null a ha
  unfold array32_get32_text
  split
  · by_cases hop : oa = MES_EXPR_IMM
    · obtain ⟨s, hs⟩ := himm (by simp [root_op, hop])
      subst hs
      simp only [hop, if_true]
      cases system_var32_name T (aa % 256) with
      | none => exact ⟨_, rfl⟩
      | some name => exact ⟨_, rfl⟩
    · simp only [hop, if_false]
      exact operand_result_map _ inner
  · exact operand_result_map _ inner

theorem print_immediate_root (T : system_var_names) (a : mes_expression) (bitwise : Bool)
    (h : root_op a = some MES_EXPR_IMM) : ∃ s, _mes_expression_print T a bitwise = .ok s := by
  cases a with
  | NULL => simp [root_op] at h
  | node op arg x y =>
    simp only [root_op, Option.some.injEq] at h
    subst h
    exact ⟨_, rfl⟩

/-- An operator with an operand passes on the result of its operand. -/
theorem operand_node_result (T : system_var_names) (op : mes_expression_op) (arg : Nat)
    (a b : mes_expression) (bitwise : Bool) (hop : op ∈ operand_ops)
    (ha : well_formed a = true) :
    operand_result (_mes_expression_print T a false)
      (_mes_expression_print T (.node op arg a b) bitwise) := by
  simp only [operand_ops, List.mem_cons, List.mem_singleton, List.mem_nil_iff, or_false] at hop
  rcases hop with h | h | h | h | h | h | h <;> subst h
  · exact array16_result T arg a ha _ (print_immediate_root T a false)
  · exact operand_result_map _ _
  · exact operand_result_map _ _
  · exact operand_result_map _ _
  · exact array32_result T arg a ha _ (print_immediate_root T a false)
  · exact operand_result_map _ _
  · exact operand_result_map _ _

/-- On a tree the printer stops exactly at a rendered terminator. -/
theorem print_well_formed (T : system_var_names) (e : mes_expression) :
    well_formed e = true → ∀ bitwise,
      (has_rendered_end e = false → ∃ s, _mes_expression_print T e bitwise = .ok s) ∧
      (has_rendered_end e = true →
        _mes_expression_print T e bitwise = .error .end_expression) := by
  induction e with
  | NULL => intro h; simp [well_formed] at h
  | node op arg a b iha ihb =>
    intro hwf bitwise
    by_cases hbin : op ∈ binary_operators
    · have hne : op ≠ MES_EXPR_END := by rintro rfl; exact absurd hbin (by decide)
      simp only [well_formed, hbin, if_true, Bool.and_eq_true] at hwf
      simp only [has_rendered_end, hne, hbin, if_true, if_false, Bool.or_eq_false_iff,
        Bool.or_eq_true]
      rw [print_binary T op arg a b bitwise hbin, mes_binary_expression_print,
        binary_text_cases op hbin a b hwf.1 hwf.2]
      have ha := iha hwf.1 (spec_child_flag op bitwise)
      have hb := ihb hwf.2 (spec_child_flag op bitwise)
      constructor
      · rintro ⟨hea, heb⟩
        obtain ⟨ta, hta⟩ := ha.1 hea
        obtain ⟨tb, htb⟩ := hb.1 heb
        rw [hta, htb]
        exact binary_text_total op hbin a b hwf.1 hwf.2 ta tb
      · intro hend
        cases heb : has_rendered_end b with
        | true => rw [hb.2 heb]
        | false =>
          obtain ⟨tb, htb⟩ := hb.1 heb
          have hea : has_rendered_end a = true := by
            rcases hend with h | h
            · exact h
            · rw [heb] at h; cases h
          rw [htb, ha.2 hea]
    · by_cases hun : op ∈ operand_ops
      · have hne : op ≠ MES_EXPR_END := by rintro rfl; exact absurd hun (by decide)
        simp only [well_formed, hbin, hun, if_true, if_false] at hwf
        simp only [has_rendered_end, hne, hbin, hun, if_true, if_false]
        have hres := operand_node_result T op arg a b bitwise hun hwf
        have ha := iha hwf false
        constructor
        · intro hea
          obtain ⟨ta, hta⟩ := ha.1 hea
          rw [hta] at hres
          exact hres
        · intro hea
          rw [ha.2 hea] at hres
          exact hres
      · simp only [has_rendered_end, hbin, hun, if_false]
        cases op <;>
          first
          | exact absurd (by decide) hbin
          | exact absurd (by decide) hun
          | exact ⟨fun _ => ⟨_, rfl⟩, fun h => by simp at h⟩
          | exact ⟨fun h => by simp at h, fun _ => rfl⟩

theorem binary_text_not_invalid (op : mes_expression_op) (hop : op ∈ binary_operators)
    (l r : mes_expression) (pl pr : Except fault String)
    (hl : pl ≠ .error .invalid_binary_operator) (hr : pr ≠ .error .invalid_binary_operator) :
    binary_expression_text op l r pl pr ≠ .error .invalid_binary_operator := by
  obtain ⟨sym, hsym⟩ := op_to_string_binary op hop
  cases r with
  | NULL => simp [binary_expression_text, binary_parens_required, bind, Except.bind]
  | node or ar ra rb =>
    obtain ⟨br, hbr⟩ := parens_required_node op or ar ra rb hop
    cases pr with
    | error err =>
      simp only [binary_expression_text, hbr, bind, Except.bind]
      exact hr
    | ok tr =>
      cases l with
      | NULL =>
        have hnull : binary_parens_required op .NULL = .error .null_dereference := rfl
        simp [binary_expression_text, hnull, hbr, hsym, bind, Except.bind]
      | node ol al la lb =>
        obtain ⟨bl, hbl⟩ := parens_required_node op ol al la lb hop
        cases pl with
        | error err =>
          simp only [binary_expression_text, hbl, hbr, hsym, bind, Except.bind]
          exact hl
        | ok tl => simp [binary_expression_text, hbl, hbr, hsym, bind, Except.bind, pure, Except.pure]

theorem map_not_invalid (f : String → String) (inner : Except fault String)
    (h : inner ≠ .error .invalid_binary_operator) :
    (do let t ← inner; pure (f t)) ≠ .error .invalid_binary_operator := by
  cases inner with
  | error err => exact h
  | ok t => simp [bind, Except.bind, pure, Except.pure]

theorem array16_not_invalid (T : system_var_names) (arg : Nat) (a : mes_expression)
    (inner : Except fault String) (h : inner ≠ .error .invalid_binary_operator) :
    array16_get16_text T arg a inner ≠ .error .invalid_binary_operator := by
  unfold array16_get16_text
  split
  · cases a with
    | NULL => simp
    | node oa aa x y =>
      simp only []
      split
      · simp
      · exact map_not_invalid _ _ h
  · exact map_not_invalid _ _ h

theorem array32_not_invalid (T : system_var_names) (arg : Nat) (a : mes_expression)
    (inner : Except fault String) (h : inner ≠ .error .invalid_binary_operator) :
    array32_get32_text T arg a inner ≠ .error .invalid_binary_operator := by
  unfold array32_get32_text
  split
  · cases a with
    | NULL => simp
    | node oa aa x y =>
      simp only []
      split
      · simp
      · exact map_not_invalid _ _ h
  · exact map_not_invalid _ _ h

/-- The printer never reaches the branch `invalid binary operator`. -/
theorem print_not_invalid (T : system_var_names) (e : mes_expression) :
    ∀ bitwise, _mes_expression_print T e bitwise ≠ .error .invalid_binary_operator := by
  induction e with
  | NULL => intro bitwise; simp [_mes_expression_print]
  | node op arg a b iha ihb =>
    intro bitwise
    by_cases hbin : op ∈ binary_operators
    · rw [print_binary T op arg a b bitwise hbin, mes_binary_expression_print]
      exact binary_text_not_invalid op hbin a b _ _ (iha _) (ihb _)
    · cases op <;>
        first
        | exact absurd (by decide) hbin
        | exact array16_not_invalid T arg a _ (iha false)
        | exact array32_not_invalid T arg a _ (iha false)
        | exact map_not_invalid _ _ (iha false)
        | simp [_mes_expression_print]

/-- C19: the printer never reaches an `invalid binary operator` branch, because
`binary_op_to_string` and `binary_parens_required` answer for each of the sixteen binary
operators and are called for no other; and on a tree it returns a text exactly when no
rendered position holds the terminator `MES_EXPR_END`, a rendered terminator making it
stop with `encountered END expression when printing`. -/
theorem expression_print_faults (T : system_var_names) (e : mes_expression) (bitwise : Bool) :
    _mes_expression_print T e bitwise ≠ .error .invalid_binary_operator ∧
    (∀ op ∈ binary_operators, (∃ s, binary_op_to_string op = .ok s) ∧
      ∀ sub_op arg a b, ∃ p, binary_parens_required op (.node sub_op arg a b) = .ok p) ∧
    (well_formed e = true →
      ((∃ s, _mes_expression_print T e bitwise = .ok s) ↔ has_rendered_end e = false) ∧
      (has_rendered_end e = true →
        _mes_expression_print T e bitwise = .error .end_expression)) := by
  refine ⟨print_not_invalid T e bitwise, ?_, ?_⟩
  · intro op hop
    exact ⟨op_to_string_binary op hop, fun sub_op arg a b =>
      parens_required_node op sub_op arg a b hop⟩
  · intro hwf
    obtain ⟨hok, hend⟩ := print_well_formed T e hwf bitwise
    refine ⟨⟨?_, hok⟩, hend⟩
    rintro ⟨s, hs⟩
    cases hre : has_rendered_end e with
    | false => rfl
    | true => rw [hend hre] at hs; cases hs

theorem expression_print_faults_witness :
    ((∃ s, binary_op_to_string MES_EXPR_MOD = .ok s) ∧
      ∀ sub_op arg a b, ∃ p,
        binary_parens_required MES_EXPR_MOD (.node sub_op arg a b) = .ok p) ∧
    ((∃ s, _mes_expression_print no_names sample_sum false = .ok s) ↔
      has_rendered_end sample_sum = false) ∧
    _mes_expression_print no_names
        (.node MES_EXPR_PLUS 0 (imm8 1)
          (.node MES_EXPR_RAND 0 (.node MES_EXPR_END 0 .NULL .NULL) .NULL)) true =
      .error .end_expression :=
  ⟨(expression_print_faults no_names sample_sum false).2.1 MES_EXPR_MOD (by decide),
   ((expression_print_faults no_names sample_sum false).2.2 (by decide)).1,
   ((expression_print_faults no_names
      (.node MES_EXPR_PLUS 0 (imm8 1)
        (.node MES_EXPR_RAND 0 (.node MES_EXPR_END 0 .NULL .NULL) .NULL)) true).2.2
      (by decide)).2 (by decide)⟩

/-! ## System calls -/

theorem statement_print_sys (T : system_var_names) (address next_address : Nat)
    (flag : Bool) (expr : mes_expression) (params : List mes_parameter) (indent : Int) :
    _mes_statement_print T (sys_statement address next_address flag expr params) indent =
      (stmt_sys_print T expr params).map fun text => indent_print indent ++ text := by
  simp only [_mes_statement_print, sys_statement, statement_text]
  exact except_map_eq _ _

theorem get_int_parameter_immediate (cmd : Nat) (ca cb : mes_expression)
    (rest : List mes_parameter) :
    get_int_parameter (.MES_PARAM_EXPRESSION (.node MES_EXPR_IMM cmd ca cb) :: rest) 0 =
      .ok ((cmd % 256 : Nat) : Int) := by
  simp [get_int_parameter]

/-- A command case of `stmt_sys_print` whose first parameter is an 8-bit immediate. -/
theorem sys_command_immediate (T : system_var_names) (expr : mes_expression)
    (cmd : Nat) (ca cb : mes_expression) (rest : List mes_parameter) (name : Int → String) :
    sys_command T expr (.MES_PARAM_EXPRESSION (.node MES_EXPR_IMM cmd ca cb) :: rest) name =
      (mes_parameter_list_print T rest).map fun arguments =>
        name ((cmd % 256 : Nat) : Int) ++ arguments ++ ";\n" := by
  have hneg : ¬ (((cmd % 256 : Nat) : Int) < 0) := by omega
  simp only [sys_command, get_int_parameter_immediate, bind, Except.bind, if_neg hneg,
    parameter_list_print_from_one]
  cases mes_parameter_list_print T rest <;> rfl

theorem printf_d_natCast (n : Nat) : printf_d (n : Int) = printf_u n := by
  have h : ¬ ((n : Int) < 0) := by omega
  simp [printf_d, h]

/-- C11: a `SYS` statement whose selector is the 8-bit immediate 2 and whose first
parameter is the 8-bit immediate 5 is written as the indentation, `System.Cursor.show`,
the parameters from the second one on between parentheses and separated by commas, `;`
and a newline; with the first parameter 3 the name is `System.Cursor.set_pos`. -/
theorem sys_cursor_show (T : system_var_names) (address next_address : Nat) (flag : Bool)
    (indent : Int) (sel cmd : Nat) (sa sb ca cb : mes_expression) (rest : List mes_parameter)
    (texts : List String) (hsel : sel % 256 = 2)
    (hrest : List.Forall₂ (fun p t => mes_parameter_print T p = .ok t) rest texts) :
    (cmd % 256 = 5 →
      _mes_statement_print T
          (sys_statement address next_address flag (.node MES_EXPR_IMM sel sa sb)
            (.MES_PARAM_EXPRESSION (.node MES_EXPR_IMM cmd ca cb) :: rest)) indent =
        .ok (indent_print indent ++ "System.Cursor.show" ++ "(" ++ ",".intercalate texts ++ ")" ++
          ";\n")) ∧
    (cmd % 256 = 3 →
      _mes_statement_print T
          (sys_statement address next_address flag (.node MES_EXPR_IMM sel sa sb)
            (.MES_PARAM_EXPRESSION (.node MES_EXPR_IMM cmd ca cb) :: rest)) indent =
        .ok (indent_print indent ++ "System.Cursor.set_pos" ++ "(" ++ ",".intercalate texts ++
          ")" ++ ";\n")) := by
  have hprint := parameter_list_print_texts T rest texts hrest
  constructor <;> intro hcmd <;>
    simp [statement_print_sys, stmt_sys_print, hsel, sys_command_immediate, hcmd, hprint,
      sys_cursor_name, Except.map, String.append_assoc] <;>
    (apply String.ext; simp [String.data_append])

theorem sys_cursor_show_witness :
    _mes_statement_print no_names
        (sys_statement 16 24 false (.node MES_EXPR_IMM 2 .NULL .NULL)
          (.MES_PARAM_EXPRESSION (.node MES_EXPR_IMM 5 .NULL .NULL) ::
            [.MES_PARAM_STRING "a", .MES_PARAM_EXPRESSION (imm8 7)])) 1 =
      .ok (indent_print 1 ++ "System.Cursor.show" ++ "(" ++ ",".intercalate ["\"a\"", "7"] ++ ")" ++
        ";\n") ∧
    _mes_statement_print no_names
        (sys_statement 16 24 false (.node MES_EXPR_IMM 2 .NULL .NULL)
          (.MES_PARAM_EXPRESSION (.node MES_EXPR_IMM 3 .NULL .NULL) ::
            [.MES_PARAM_STRING "a", .MES_PARAM_EXPRESSION (imm8 7)])) 1 =
      .ok (indent_print 1 ++ "System.Cursor.set_pos" ++ "(" ++ ",".intercalate ["\"a\"", "7"] ++
        ")" ++ ";\n") :=
  ⟨(sys_cursor_show no_names 16 24 false 1 2 5 .NULL .NULL .NULL .NULL
      [.MES_PARAM_STRING "a", .MES_PARAM_EXPRESSION (imm8 7)] ["\"a\"", "7"] (by decide)
      (.cons rfl (.cons rfl .nil))).1 (by decide),
   (sys_cursor_show no_names 16 24 false 1 2 3 .NULL .NULL .NULL .NULL
      [.MES_PARAM_STRING "a", .MES_PARAM_EXPRESSION (imm8 7)] ["\"a\"", "7"] (by decide)
      (.cons rfl (.cons rfl .nil))).2 (by decide)⟩

theorem parameters_render (T : system_var_names) (params : List mes_parameter)
    (h : ∀ p ∈ params, parameter_end_free p = true) :
    ∃ texts, List.Forall₂ (fun p t => mes_parameter_print T p = .ok t) params texts := by
  induction params with
  | nil => exact ⟨[], .nil⟩
  | cons p rest ih =>
    obtain ⟨texts, hrest⟩ := ih (fun q hq => h q (List.mem_cons_of_mem _ hq))
    have hp := h p (List.mem_cons_self _ _)
    cases p with
    | MES_PARAM_STRING str => exact ⟨_ :: texts, .cons rfl hrest⟩
    | MES_PARAM_EXPRESSION expr =>
      simp only [parameter_end_free, Bool.and_eq_true, Bool.not_eq_true'] at hp
      obtain ⟨t, ht⟩ := (print_well_formed T expr hp.1 false).1 hp.2
      exact ⟨t :: texts, .cons ht hrest⟩

theorem stmt_sys_print_unknown (T : system_var_names) (sel : Nat) (sa sb : mes_expression)
    (params : List mes_parameter) (hsel : sel % 256 ∉ sys_selectors) :
    stmt_sys_print T (.node MES_EXPR_IMM sel sa sb) params =
      sys_fallback T (.node MES_EXPR_IMM sel sa sb) params := by
  simp only [sys_selectors, List.mem_cons, List.mem_singleton, List.mem_nil_iff, or_false,
    not_or] at hsel
  obtain ⟨h0, h2, h3, h4, h5, h7, h8, h9, h10, h11, h12, h13, h16, h17, h19, h20, h21, h22,
    h23⟩ := hsel
  simp [stmt_sys_print, h0, h2, h3, h4, h5, h7, h8, h9, h10, h11, h12, h13, h16, h17, h19, h20,
    h21, h22, h23]

/-- C12: a `SYS` statement whose selector is an 8-bit immediate `n` that has no case in
the `switch`, with parameters that are strings or trees without a rendered terminator,
is written without a fault as the indentation, `System.function[<n>]`, every parameter
between parentheses and separated by commas, `;` and a newline. The selector is written
as the expression printer writes the immediate `n`: in decimal for `n < 255`, so that 99
gives `System.function[99]`, and as `0xff` for 255. -/
theorem sys_unknown_selector (T : system_var_names) (address next_address : Nat) (flag : Bool)
    (indent : Int) (sel : Nat) (sa sb : mes_expression) (params : List mes_parameter)
    (hsel : sel % 256 ∉ sys_selectors)
    (hparams : ∀ p ∈ params, parameter_end_free p = true) :
    ∃ texts, List.Forall₂ (fun p t => mes_parameter_print T p = .ok t) params texts ∧
      _mes_statement_print T
          (sys_statement address next_address flag (.node MES_EXPR_IMM sel sa sb) params)
          indent =
        .ok (indent_print indent ++ "System.function[" ++ print_number (sel % 256) false ++ "]" ++
          "(" ++ ",".intercalate texts ++ ")" ++ ";\n") ∧
      (sel % 256 < 255 → print_number (sel % 256) false = printf_u (sel % 256)) ∧
      (sel % 256 = 255 → print_number (sel % 256) false = "0xff") := by
  obtain ⟨texts, htexts⟩ := parameters_render T params hparams
  refine ⟨texts, htexts, ?_, ?_, ?_⟩
  · rw [statement_print_sys, stmt_sys_print_unknown T sel sa sb params hsel]
    simp only [sys_fallback, mes_expression_print, _mes_expression_print,
      parameter_list_print_texts T params texts htexts, bind, Except.bind, pure, Except.pure,
      Except.map, Except.ok.injEq]
    apply String.ext
    simp [String.data_append]
  · intro h
    simp [print_number, h]
  · intro h
    rw [h]
    decide

theorem sys_unknown_selector_witness :
    ∃ texts,
      List.Forall₂ (fun p t => mes_parameter_print no_names p = .ok t)
        [.MES_PARAM_STRING "a", .MES_PARAM_EXPRESSION (imm8 7)] texts ∧
      _mes_statement_print no_names
          (sys_statement 16 24 false (.node MES_EXPR_IMM 99 .NULL .NULL)
            [.MES_PARAM_STRING "a", .MES_PARAM_EXPRESSION (imm8 7)]) 1 =
        .ok (indent_print 1 ++ "System.function[" ++ print_number (99 % 256) false ++ "]" ++
          "(" ++ ",".intercalate texts ++ ")" ++ ";\n") ∧
      (99 % 256 < 255 → print_number (99 % 256) false = printf_u (99 % 256)) ∧
      (99 % 256 = 255 → print_number (99 % 256) false = "0xff") :=
  sys_unknown_selector no_names 16 24 false 1 99 .NULL .NULL
    [.MES_PARAM_STRING "a", .MES_PARAM_EXPRESSION (imm8 7)] (by decide) (by decide)

theorem sys_cursor_name_unknown (n : Nat) (h : n ∉ [0, 1, 2, 3, 4, 5, 6]) :
    sys_cursor_name (n : Int) = "System." ++ "Cursor" ++ ".function[" ++ printf_u n ++ "]" := by
  simp only [List.mem_cons, List.mem_singleton, List.mem_nil_iff, or_false, not_or] at h
  have c0 : ¬ ((n : Int) = 0) := by omega
  have c1 : ¬ ((n : Int) = 1) := by omega
  have c2 : ¬ ((n : Int) = 2) := by omega
  have c3 : ¬ ((n : Int) = 3) := by omega
  have c4 : ¬ ((n : Int) = 4) := by omega
  have c5 : ¬ ((n : Int) = 5) := by omega
  have c6 : ¬ ((n : Int) = 6) := by omega
  simp only [sys_cursor_name, if_neg c0, if_neg c1, if_neg c2, if_neg c3, if_neg c4, if_neg c5,
    if_neg c6, printf_d_natCast]
  apply String.ext
  simp [String.data_append]

theorem sys_savedata_name_unknown (n : Nat) (h : n ∉ [0, 1, 2, 3, 4, 5, 6, 7, 8, 9, 13]) :
    sys_savedata_name (n : Int) =
      "System." ++ "SaveData" ++ ".function[" ++ printf_u n ++ "]" := by
  simp only [List.mem_cons, List.mem_singleton, List.mem_nil_iff, or_false, not_or] at h
  by_cases h11 : n = 11
  · subst h11; decide
  by_cases h12 : n = 12
  · subst h12; decide
  have c0 : ¬ ((n : Int) = 0) := by omega
  have c1 : ¬ ((n : Int) = 1) := by omega
  have c2 : ¬ ((n : Int) = 2) := by omega
  have c3 : ¬ ((n : Int) = 3) := by omega
  have c4 : ¬ ((n : Int) = 4) := by omega
  have c5 : ¬ ((n : Int) = 5) := by omega
  have c6 : ¬ ((n : Int) = 6) := by omega
  have c7 : ¬ ((n : Int) = 7) := by omega
  have c8 : ¬ ((n : Int) = 8) := by omega
  have c9 : ¬ ((n : Int) = 9) := by omega
  have c11 : ¬ ((n : Int) = 11) := by omega
  have c12 : ¬ ((n : Int) = 12) := by omega
  have c13 : ¬ ((n : Int) = 13) := by omega
  simp only [sys_savedata_name, if_neg c0, if_neg c1, if_neg c2, if_neg c3, if_neg c4,
    if_neg c5, if_neg c6, if_neg c7, if_neg c8, if_neg c9, if_neg c11, if_neg c12, if_neg c13,
    printf_d_natCast]
  apply String.ext
  simp [String.data_append]

theorem sys_audio_name_unknown (n : Nat) (h : n ∉ [0, 2, 3, 4, 5, 7, 9, 10, 12, 18]) :
    sys_audio_name (n : Int) = "System." ++ "Audio" ++ ".function[" ++ printf_u n ++ "]" := by
  simp only [List.mem_cons, List.mem_singleton, List.mem_nil_iff, or_false, not_or] at h
  have c0 : ¬ ((n : Int) = 0) := by omega
  have c2 : ¬ ((n : Int) = 2) := by omega
  have c3 : ¬ ((n : Int) = 3) := by omega
  have c4 : ¬ ((n : Int) = 4) := by omega
  have c5 : ¬ ((n : Int) = 5) := by omega
  have c7 : ¬ ((n : Int) = 7) := by omega
  have c9 : ¬ ((n : Int) = 9) := by omega
  have c10 : ¬ ((n : Int) = 10) := by omega
  have c12 : ¬ ((n : Int) = 12) := by omega
  have c18 : ¬ ((n : Int) = 18) := by omega
  simp only [sys_audio_name, if_neg c0, if_neg c2, if_neg c3, if_neg c4, if_neg c5, if_neg c7,
    if_neg c9, if_neg c10, if_neg c12, if_neg c18, printf_d_natCast]
  apply String.ext
  simp [String.data_append]

theorem sys_file_name_unknown (n : Nat) (h : n ∉ [0, 1]) :
    sys_file_name (n : Int) = "System." ++ "File" ++ ".function[" ++ printf_u n ++ "]" := by
  simp only [List.mem_cons, List.mem_singleton, List.mem_nil_iff, or_false, not_or] at h
  have c0 : ¬ ((n : Int) = 0) := by omega
  have c1 : ¬ ((n : Int) = 1) := by omega
  simp only [sys_file_name, if_neg c0, if_neg c1, printf_d_natCast]
  apply String.ext
  simp [String.data_append]

theorem sys_palette_name_unknown (n : Nat) (h : n ∉ [0]) :
    sys_palette_name (n : Int) = "System." ++ "Palette" ++ ".function[" ++ printf_u n ++ "]" := by
  simp only [List.mem_cons, List.mem_singleton, List.mem_nil_iff, or_false, not_or] at h
  have c0 : ¬ ((n : Int) = 0) := by omega
  simp only [sys_palette_name, if_neg c0, printf_d_natCast]
  apply String.ext
  simp [String.data_append]

theorem sys_image_name_unknown (n : Nat) (h : n ∉ [2, 4]) :
    sys_image_name (n : Int) = "System." ++ "Image" ++ ".function[" ++ printf_u n ++ "]" := by
  simp only [List.mem_cons, List.mem_singleton, List.mem_nil_iff, or_false, not_or] at h
  have c2 : ¬ ((n : Int) = 2) := by omega
  have c4 : ¬ ((n : Int) = 4) := by omega
  simp only [sys_image_name, if_neg c2, if_neg c4, printf_d_natCast]
  apply String.ext
  simp [String.data_append]

/-- The case of `stmt_sys_print` for each subsystem. -/
theorem stmt_sys_print_subsystem (T : system_var_names) (sel : Nat) (sa sb : mes_expression)
    (params : List mes_parameter) :
    (sel % 256 = 2 → stmt_sys_print T (.node MES_EXPR_IMM sel sa sb) params =
      sys_command T (.node MES_EXPR_IMM sel sa sb) params sys_cursor_name) ∧
    (sel % 256 = 4 → stmt_sys_print T (.node MES_EXPR_IMM sel sa sb) params =
      sys_command T (.node MES_EXPR_IMM sel sa sb) params sys_savedata_name) ∧
    (sel % 256 = 5 → stmt_sys_print T (.node MES_EXPR_IMM sel sa sb) params =
      sys_command T (.node MES_EXPR_IMM sel sa sb) params sys_audio_name) ∧
    (sel % 256 = 7 → stmt_sys_print T (.node MES_EXPR_IMM sel sa sb) params =
      sys_command T (.node MES_EXPR_IMM sel sa sb) params sys_file_name) ∧
    (sel % 256 = 9 → stmt_sys_print T (.node MES_EXPR_IMM sel sa sb) params =
      sys_command T (.node MES_EXPR_IMM sel sa sb) params sys_palette_name) ∧
    (sel % 256 = 10 → stmt_sys_print T (.node MES_EXPR_IMM sel sa sb) params =
      sys_command T (.node MES_EXPR_IMM sel sa sb) params sys_image_name) := by
  refine ⟨?_, ?_, ?_, ?_, ?_, ?_⟩ <;> intro h <;> simp [stmt_sys_print, h]

theorem map_append_name (name text : String) (r : Except fault String)
    (h : name = text) :
    (r.map fun arguments => name ++ arguments ++ ";\n") =
      r.map fun arguments => text ++ arguments ++ ";\n" := by
  rw [h]

/-- The text of a `SYS` statement of a subsystem whose command number has no name. -/
theorem stmt_sys_print_unknown_command (T : system_var_names) (sel cmd : Nat)
    (sa sb ca cb : mes_expression) (rest : List mes_parameter) (selector : Nat)
    (subsystem : String) (named : List Nat)
    (hfam : (selector, subsystem, named) ∈ sys_subsystems) (hsel : sel % 256 = selector)
    (hcmd : cmd % 256 ∉ named) :
    stmt_sys_print T (.node MES_EXPR_IMM sel sa sb)
        (.MES_PARAM_EXPRESSION (.node MES_EXPR_IMM cmd ca cb) :: rest) =
      (mes_parameter_list_print T rest).map fun arguments =>
        "System." ++ subsystem ++ ".function[" ++ printf_u (cmd % 256) ++ "]" ++ arguments ++
          ";\n" := by
  obtain ⟨f2, f4, f5, f7, f9, f10⟩ := stmt_sys_print_subsystem T sel sa sb
    (.MES_PARAM_EXPRESSION (.node MES_EXPR_IMM cmd ca cb) :: rest)
  simp only [sys_subsystems, List.mem_cons, List.mem_singleton, List.mem_nil_iff, or_false,
    Prod.mk.injEq] at hfam
  rcases hfam with ⟨h1, h2, h3⟩ | ⟨h1, h2, h3⟩ | ⟨h1, h2, h3⟩ | ⟨h1, h2, h3⟩ | ⟨h1, h2, h3⟩ |
    ⟨h1, h2, h3⟩ <;> subst h1 h2 h3
  · rw [f2 hsel, sys_command_immediate]
    exact map_append_name _ _ _ (sys_cursor_name_unknown _ hcmd)
  · rw [f4 hsel, sys_command_immediate]
    exact map_append_name _ _ _ (sys_savedata_name_unknown _ hcmd)
  · rw [f5 hsel, sys_command_immediate]
    exact map_append_name _ _ _ (sys_audio_name_unknown _ hcmd)
  · rw [f7 hsel, sys_command_immediate]
    exact map_append_name _ _ _ (sys_file_name_unknown _ hcmd)
  · rw [f9 hsel, sys_command_immediate]
    exact map_append_name _ _ _ (sys_palette_name_unknown _ hcmd)
  · rw [f10 hsel, sys_command_immediate]
    exact map_append_name _ _ _ (sys_image_name_unknown _ hcmd)

/-- C13 as stated fails: the statement with selector 10 (Image), the unnamed command 200
and a second parameter that is an `END` expression is not written; the printer ends in
the fault of the `END` case. -/
theorem unknown_command_with_end_parameter :
    _mes_statement_print no_names
        (sys_statement 16 24 false (.node MES_EXPR_IMM 10 .NULL .NULL)
          [.MES_PARAM_EXPRESSION (.node MES_EXPR_IMM 200 .NULL .NULL),
            .MES_PARAM_EXPRESSION (.node MES_EXPR_END 0 .NULL .NULL)]) 1 =
      .error .end_expression ∧
    200 ∉ [2, 4] := by
  constructor <;> decide

/-- C13, amended: a `SYS` statement whose selector is the 8-bit immediate of a subsystem
with named commands (2 Cursor, 4 SaveData, 5 Audio, 7 File, 9 Palette, 10 Image) and
whose first parameter is an 8-bit immediate `n` without a name in that subsystem is
written as the indentation, `System.<Subsystem>.function[<n>]` with `n` in decimal, the
parameters from the second one on between parentheses, `;` and a newline. The unknown
command number causes no fault: the statement faults exactly when printing the
remaining parameters does, and it is written whenever those are strings or trees
without a rendered `END`. -/
theorem sys_unknown_command (T : system_var_names) (address next_address : Nat) (flag : Bool)
    (indent : Int) (sel cmd : Nat) (sa sb ca cb : mes_expression) (rest : List mes_parameter)
    (selector : Nat) (subsystem : String) (named : List Nat)
    (hfam : (selector, subsystem, named) ∈ sys_subsystems) (hsel : sel % 256 = selector)
    (hcmd : cmd % 256 ∉ named) :
    _mes_statement_print T
        (sys_statement address next_address flag (.node MES_EXPR_IMM sel sa sb)
          (.MES_PARAM_EXPRESSION (.node MES_EXPR_IMM cmd ca cb) :: rest)) indent =
      ((mes_parameter_list_print T rest).map fun arguments =>
        indent_print indent ++ "System." ++ subsystem ++ ".function[" ++ printf_u (cmd % 256) ++
          "]" ++ arguments ++ ";\n") ∧
    (∀ texts, List.Forall₂ (fun p t => mes_parameter_print T p = .ok t) rest texts →
      _mes_statement_print T
          (sys_statement address next_address flag (.node MES_EXPR_IMM sel sa sb)
            (.MES_PARAM_EXPRESSION (.node MES_EXPR_IMM cmd ca cb) :: rest)) indent =
        .ok (indent_print indent ++ "System." ++ subsystem ++ ".function[" ++
          printf_u (cmd % 256) ++ "]" ++ "(" ++ ",".intercalate texts ++ ")" ++ ";\n")) ∧
    (∀ err,
      _mes_statement_print T
          (sys_statement address next_address flag (.node MES_EXPR_IMM sel sa sb)
            (.MES_PARAM_EXPRESSION (.node MES_EXPR_IMM cmd ca cb) :: rest)) indent =
        .error err ↔ mes_parameter_list_print T rest = .error err) ∧
    ((∀ p ∈ rest, parameter_end_free p = true) →
      ∃ texts, List.Forall₂ (fun p t => mes_parameter_print T p = .ok t) rest texts ∧
        _mes_statement_print T
            (sys_statement address next_address flag (.node MES_EXPR_IMM sel sa sb)
              (.MES_PARAM_EXPRESSION (.node MES_EXPR_IMM cmd ca cb) :: rest)) indent =
          .ok (indent_print indent ++ "System." ++ subsystem ++ ".function[" ++
            printf_u (cmd % 256) ++ "]" ++ "(" ++ ",".intercalate texts ++ ")" ++ ";\n")) := by
  have hmain : _mes_statement_print T
      (sys_statement address next_address flag (.node MES_EXPR_IMM sel sa sb)
        (.MES_PARAM_EXPRESSION (.node MES_EXPR_IMM cmd ca cb) :: rest)) indent =
      ((mes_parameter_list_print T rest).map fun arguments =>
        indent_print indent ++ "System." ++ subsystem ++ ".function[" ++ printf_u (cmd % 256) ++
          "]" ++ arguments ++ ";\n") := by
    rw [statement_print_sys,
      stmt_sys_print_unknown_command T sel cmd sa sb ca cb rest selector subsystem named hfam
        hsel hcmd]
    cases mes_parameter_list_print T rest with
    | error err => rfl
    | ok arguments =>
      simp only [Except.map, Except.ok.injEq]
      apply String.ext
      simp [String.data_append]
  have htext : ∀ texts, List.Forall₂ (fun p t => mes_parameter_print T p = .ok t) rest texts →
      _mes_statement_print T
          (sys_statement address next_address flag (.node MES_EXPR_IMM sel sa sb)
            (.MES_PARAM_EXPRESSION (.node MES_EXPR_IMM cmd ca cb) :: rest)) indent =
        .ok (indent_print indent ++ "System." ++ subsystem ++ ".function[" ++
          printf_u (cmd % 256) ++ "]" ++ "(" ++ ",".intercalate texts ++ ")" ++ ";\n") := by
    intro texts htexts
    rw [hmain, parameter_list_print_texts T rest texts htexts]
    simp only [Except.map, Except.ok.injEq]
    apply String.ext
    simp [String.data_append]
  refine ⟨hmain, htext, ?_, ?_⟩
  · intro err
    rw [hmain]
    cases mes_parameter_list_print T rest with
    | error e => simp [Except.map]
    | ok arguments => simp [Except.map]
  · intro hfree
    obtain ⟨texts, htexts⟩ := parameters_render T rest hfree
    exact ⟨texts, htexts, htext texts htexts⟩

theorem sys_unknown_command_witness :
    _mes_statement_print no_names
        (sys_statement 16 24 false (.node MES_EXPR_IMM 4 .NULL .NULL)
          (.MES_PARAM_EXPRESSION (.node MES_EXPR_IMM 10 .NULL .NULL) ::
            [.MES_PARAM_STRING "a"])) 1 =
      ((mes_parameter_list_print no_names [.MES_PARAM_STRING "a"]).map fun arguments =>
        indent_print 1 ++ "System." ++ "SaveData" ++ ".function[" ++ printf_u (10 % 256) ++ "]" ++
          arguments ++ ";\n") ∧
    _mes_statement_print no_names
        (sys_statement 16 24 false (.node MES_EXPR_IMM 10 .NULL .NULL)
          (.MES_PARAM_EXPRESSION (.node MES_EXPR_IMM 200 .NULL .NULL) ::
            [.MES_PARAM_STRING "a"])) 1 =
      .ok (indent_print 1 ++ "System." ++ "Image" ++ ".function[" ++ printf_u (200 % 256) ++ "]" ++
        "(" ++ ",".intercalate ["\"a\""] ++ ")" ++ ";\n") :=
  ⟨(sys_unknown_command no_names 16 24 false 1 4 10 .NULL .NULL .NULL .NULL
      [.MES_PARAM_STRING "a"] 4 "SaveData" [0, 1, 2, 3, 4, 5, 6, 7, 8, 9, 13] (by decide)
      (by decide) (by decide)).1,
   (sys_unknown_command no_names 16 24 false 1 10 200 .NULL .NULL .NULL .NULL
      [.MES_PARAM_STRING "a"] 10 "Image" [2, 4] (by decide) (by decide) (by decide)).2.1
      ["\"a\""] (.cons rfl .nil)⟩

/-! ## Labels -/

theorem hex_digit_value_digitChar (k : Nat) (h : k < 16) :
    hex_digit_value (Nat.digitChar k) = k := by
  interval_cases k <;> decide

theorem digitChar_mem_hex_alphabet (k : Nat) (h : k < 16) : Nat.digitChar k ∈ hex_alphabet := by
  interval_cases k <;> decide

/-- Reading the digits that `Nat.toDigitsCore` puts in front of `ds` gives the number. -/
theorem foldl_toDigitsCore (fuel : Nat) :
    ∀ n ds, n < fuel →
      (Nat.toDigitsCore 16 fuel n ds).foldl (fun acc c => acc * 16 + hex_digit_value c) 0 =
        ds.foldl (fun acc c => acc * 16 + hex_digit_value c) n := by
  induction fuel with
  | zero => intro n ds h; omega
  | succ fuel ih =>
    intro n ds h
    simp only [Nat.toDigitsCore]
    split
    · rename_i hq
      have hlt : n < 16 := by
        by_contra hc
        have : 1 ≤ n / 16 := (Nat.le_div_iff_mul_le (by norm_num)).mpr (by omega)
        omega
      have hd := hex_digit_value_digitChar (n % 16) (Nat.mod_lt n (by norm_num))
      rw [Nat.mod_eq_of_lt hlt] at hd
      simp [List.foldl, Nat.mod_eq_of_lt hlt, hd]
    · rename_i hq
      have hdiv : n / 16 < fuel := by
        have : n / 16 < n := Nat.div_lt_self (by
          by_contra hc
          have : n = 0 := by omega
          subst this
          simp at hq) (by norm_num)
        omega
      rw [ih (n / 16) _ hdiv]
      simp only [List.foldl, hex_digit_value_digitChar _ (Nat.mod_lt n (by norm_num))]
      congr 1
      omega

theorem hex_value_toDigits (n : Nat) : hex_value (Nat.toDigits 16 n) = n := by
  simp [hex_value, Nat.toDigits, foldl_toDigitsCore (n + 1) n [] (by omega)]

theorem toDigitsCore_mem (fuel : Nat) :
    ∀ n ds c, c ∈ Nat.toDigitsCore 16 fuel n ds → c ∈ hex_alphabet ∨ c ∈ ds := by
  induction fuel with
  | zero => intro n ds c h; exact Or.inr (by simpa [Nat.toDigitsCore] using h)
  | succ fuel ih =>
    intro n ds c h
    simp only [Nat.toDigitsCore] at h
    have hd := digitChar_mem_hex_alphabet (n % 16) (Nat.mod_lt n (by norm_num))
    split at h
    · rcases List.mem_cons.mp h with h | h
      · exact Or.inl (h ▸ hd)
      · exact Or.inr h
    · rcases ih _ _ _ h with h | h
      · exact Or.inl h
      · rcases List.mem_cons.mp h with h | h
        · exact Or.inl (h ▸ hd)
        · exact Or.inr h

theorem toDigits_length_le (n : Nat) (h : n < 4294967296) : (Nat.toDigits 16 n).length ≤ 8 :=
  Nat.toDigitsCore_length 16 (by norm_num) (n + 1) n 8 (by norm_num; exact h) (by norm_num)

theorem hex_value_zeros (k : Nat) (cs : List Char) :
    hex_value (List.replicate k '0' ++ cs) = hex_value cs := by
  induction k with
  | zero => rfl
  | succ k ih =>
    have h0 : hex_digit_value '0' = 0 := by decide
    simp only [List.replicate_succ, List.cons_append, hex_value, List.foldl, h0] at ih ⊢
    exact ih

/-- The directive `%08x` on a 32-bit value: eight hexadecimal digits whose value is the
number. -/
theorem printf_08x_spec (n : Nat) (h : n < 4294967296) :
    (printf_08x n).data.length = 8 ∧ (∀ c ∈ (printf_08x n).data, c ∈ hex_alphabet) ∧
      hex_value (printf_08x n).data = n := by
  have hlen := toDigits_length_le n h
  refine ⟨?_, ?_, ?_⟩
  · simp only [printf_08x, List.length_append, List.length_replicate]
    omega
  · intro c hc
    simp only [printf_08x, List.mem_append, List.mem_replicate] at hc
    rcases hc with ⟨_, hc⟩ | hc
    · rw [hc]; decide
    · rcases toDigitsCore_mem _ _ _ _ hc with h | h
      · exact h
      · cases h
  · simp only [printf_08x]
    rw [hex_value_zeros, hex_value_toDigits]

/-- C14: a label is `L_` followed by exactly eight characters among `0`-`9`, `a`-`f`
whose hexadecimal value is the 32-bit address; so two labels are the same text only for
the same address, and the synthetic address `0xFFFFFFFF` gives `L_ffffffff`, which is
not the label of address 0: a `JMP` to it is written `goto L_ffffffff;`. -/
theorem label_format (a : Nat) (ha : a < 2 ^ 32) :
    (∃ digits : List Char, label_text a = "L_" ++ String.mk digits ∧ digits.length = 8 ∧
      (∀ c ∈ digits, c ∈ hex_alphabet) ∧ hex_value digits = a) ∧
    (∀ b, b < 2 ^ 32 → label_text a = label_text b → a = b) ∧
    (∀ T, statement_text T (.JMP a) = .ok ("goto " ++ label_text a ++ ";\n")) ∧
    label_text MES_ADDRESS_SYNTHETIC = "L_ffffffff" ∧
    label_text MES_ADDRESS_SYNTHETIC ≠ label_text 0 ∧
    (∀ T, statement_text T (.JMP MES_ADDRESS_SYNTHETIC) = .ok "goto L_ffffffff;\n") ∧
    (∀ T, asm_statement_text T (.JMP MES_ADDRESS_SYNTHETIC) = .ok "JMP L_ffffffff;\n") := by
  have ha' : a < 4294967296 := by simpa using ha
  have hmod : a % 4294967296 = a := Nat.mod_eq_of_lt ha'
  obtain ⟨hlen, hmem, hval⟩ := printf_08x_spec a ha'
  refine ⟨⟨(printf_08x a).data, ?_, hlen, hmem, hval⟩, ?_, fun _ => rfl, by decide, by decide,
    fun _ => rfl, fun _ => rfl⟩
  · simp [label_text, hmod]
  · intro b hb heq
    have hb' : b < 4294967296 := by simpa using hb
    have hmodb : b % 4294967296 = b := Nat.mod_eq_of_lt hb'
    simp only [label_text, hmod, hmodb] at heq
    have hdata := congrArg String.data heq
    simp only [String.data_append, List.append_cancel_left_eq] at hdata
    have := congrArg hex_value hdata
    rw [(printf_08x_spec a ha').2.2, (printf_08x_spec b hb').2.2] at this
    exact this

theorem label_format_witness :
    (∃ digits : List Char, label_text 4660 = "L_" ++ String.mk digits ∧ digits.length = 8 ∧
      (∀ c ∈ digits, c ∈ hex_alphabet) ∧ hex_value digits = 4660) ∧
    (label_text 4660 = label_text 4660 → 4660 = 4660) :=
  ⟨(label_format 4660 (by norm_num)).1,
   (label_format 4660 (by norm_num)).2.1 4660 (by norm_num)⟩

/-! ## Statement lists -/

theorem indent_print_one : indent_print 1 = "\t" := by decide

/-- C15: the list of a `SETV` statement for variable slot 3, whose single value is the
`PLUS` node with first-written child `sub_b` the 8-bit immediate `A` and other child the
8-bit immediate `B`, both below 255, followed by an `END` statement, neither flagged as
a jump target, is written by `mes_statement_list_print` as the two lines
`var16[3] = <A> + <B>;` and `return;`, each behind one tab, with `A` and `B` in decimal
and without a label line. -/
theorem setv_sum_then_end (T : system_var_names) (a0 n0 a1 n1 arg A B : Nat)
    (hA : A < 255) (hB : B < 255) :
    mes_statement_list_print T
        [⟨a0, n0, false, .SETV 3 [.node MES_EXPR_PLUS arg (imm8 B) (imm8 A)]⟩,
         ⟨a1, n1, false, .END⟩] =
      .ok ("\t" ++ "var16[3] = " ++ printf_u A ++ " + " ++ printf_u B ++ ";\n" ++
        "\t" ++ "return;\n") := by
  have hA' : A % 256 = A := Nat.mod_eq_of_lt (by omega)
  have hB' : B % 256 = B := Nat.mod_eq_of_lt (by omega)
  have h3 : printf_u (3 % 256) = "3" := by decide
  simp only [mes_statement_list_print, _mes_statement_list_print, _mes_statement_print,
    statement_text, mes_expression_list_print, expression_list_loop, mes_expression_print,
    _mes_expression_print, binary_expression_text, binary_parens_required, is_binary_op,
    binary_op_to_string, imm8, print_number, hA', hB', hA, hB, h3, indent_print_one, bind,
    Except.bind, pure, Except.pure, if_true, Bool.not_false, Bool.false_eq_true, if_false,
    Except.ok.injEq, gt_iff_lt, Nat.lt_irrefl]
  apply String.ext
  simp [String.data_append]

theorem setv_sum_then_end_witness :
    mes_statement_list_print no_names
        [⟨0, 8, false, .SETV 3 [.node MES_EXPR_PLUS 0 (imm8 20) (imm8 10)]⟩,
         ⟨8, 9, false, .END⟩] =
      .ok ("\t" ++ "var16[3] = " ++ printf_u 10 ++ " + " ++ printf_u 20 ++ ";\n" ++
        "\t" ++ "return;\n") :=
  setv_sum_then_end no_names 0 8 8 9 0 10 20 (by decide) (by decide)

theorem asm_print_label (T : system_var_names) (stmt : mes_statement) :
    mes_asm_statement_print T stmt 1 =
      (mes_asm_statement_print T (unflagged stmt) 1).map fun text => label_line stmt ++ text := by
  simp only [mes_asm_statement_print, unflagged, label_line]
  have h0 : indent_print 0 = "" := by decide
  cases asm_statement_text T stmt.payload with
  | error err => rfl
  | ok text =>
    cases stmt.is_jump_target <;>
      simp [h0, bind, Except.bind, pure, Except.pure, Except.map, String.append_assoc]

theorem asm_list_blocks (T : system_var_names) (l : List mes_statement) (texts : List String)
    (h : List.Forall₂ (fun stmt text => mes_asm_statement_print T (unflagged stmt) 1 = .ok text)
      l texts) :
    mes_asm_statement_list_print T l = .ok (labelled_blocks l texts) := by
  induction h with
  | nil => rfl
  | cons hs _ ih =>
    simp [mes_asm_statement_list_print, asm_print_label, hs, ih, labelled_blocks, Except.map,
      bind, Except.bind, pure, Except.pure]

theorem flat_list_blocks (T : system_var_names) (l : List mes_statement) (texts : List String)
    (h : List.Forall₂ (fun stmt text => _mes_statement_print T stmt 1 = .ok text) l texts) :
    mes_flat_statement_list_print T l = .ok (labelled_blocks l texts) := by
  induction h with
  | nil => rfl
  | cons hs _ ih =>
    simp [mes_flat_statement_list_print, hs, ih, labelled_blocks, label_line, bind,
      Except.bind, pure, Except.pure, String.append_assoc]

theorem statement_list_texts (T : system_var_names) (l : List mes_statement)
    (texts : List String) (indent : Int)
    (h : List.Forall₂ (fun stmt text => _mes_statement_print T stmt indent = .ok text) l texts) :
    _mes_statement_list_print T l indent = .ok (texts.foldr (· ++ ·) "") := by
  induction h with
  | nil => rfl
  | cons hs _ ih =>
    simp [_mes_statement_list_print, hs, ih, bind, Except.bind, pure, Except.pure]

/-- C16: `mes_asm_statement_list_print` and `mes_flat_statement_list_print` write the
concatenation, in list order, of one block for each statement: the rendering of the
statement at indent 1 (in assembly form, the rendering of the statement with its flag
cleared; in the flat form, its pseudocode rendering), preceded by the line
`L_<8-hex address>:` of the statement's own address exactly when its `is_jump_target`
flag is set. -/
theorem list_print_blocks (T : system_var_names) (l : List mes_statement)
    (texts : List String) :
    (List.Forall₂ (fun stmt text => mes_asm_statement_print T (unflagged stmt) 1 = .ok text)
        l texts →
      mes_asm_statement_list_print T l = .ok (labelled_blocks l texts)) ∧
    (List.Forall₂ (fun stmt text => _mes_statement_print T stmt 1 = .ok text) l texts →
      mes_flat_statement_list_print T l = .ok (labelled_blocks l texts)) ∧
    (∀ stmt, label_line stmt =
      if stmt.is_jump_target then "L_" ++ printf_08x (stmt.address % 4294967296) ++ ":\n"
      else "") :=
  ⟨asm_list_blocks T l texts, flat_list_blocks T l texts, fun _ => rfl⟩

theorem list_print_blocks_witness :
    mes_asm_statement_list_print no_names [⟨0, 8, false, .MENUS⟩, ⟨8, 9, true, .END⟩] =
      .ok (labelled_blocks [⟨0, 8, false, .MENUS⟩, ⟨8, 9, true, .END⟩]
        ["\tMENUS;\n", "\tEND;\n"]) ∧
    mes_flat_statement_list_print no_names [⟨0, 8, false, .MENUS⟩, ⟨8, 9, true, .END⟩] =
      .ok (labelled_blocks [⟨0, 8, false, .MENUS⟩, ⟨8, 9, true, .END⟩]
        ["\tmenuexec;\n", "\treturn;\n"]) :=
  ⟨(list_print_blocks no_names [⟨0, 8, false, .MENUS⟩, ⟨8, 9, true, .END⟩]
      ["\tMENUS;\n", "\tEND;\n"]).1 (.cons rfl (.cons rfl .nil)),
   (list_print_blocks no_names [⟨0, 8, false, .MENUS⟩, ⟨8, 9, true, .END⟩]
      ["\tmenuexec;\n", "\treturn;\n"]).2.1 (.cons rfl (.cons rfl .nil))⟩

/-- C17 as stated fails: `mes_statement_list_print` writes no label line for a statement
whose `is_jump_target` flag is set; the flat printer does. -/
theorem pseudocode_list_without_label :
    mes_statement_list_print no_names [⟨16, 17, true, .END⟩] = .ok "\treturn;\n" ∧
    mes_flat_statement_list_print no_names [⟨16, 17, true, .END⟩] =
      .ok "L_00000010:\n\treturn;\n" := by
  constructor <;> decide

/-- C17, amended: in pseudocode mode the labels are written by
`mes_flat_statement_list_print`, which puts the line `L_<8-hex address>:` immediately
before the rendering of every statement whose `is_jump_target` flag is set;
`mes_statement_list_print` writes the renderings alone, whatever the flags. -/
theorem pseudocode_labels (T : system_var_names) (l : List mes_statement)
    (texts : List String)
    (h : List.Forall₂ (fun stmt text => _mes_statement_print T stmt 1 = .ok text) l texts) :
    mes_flat_statement_list_print T l = .ok (labelled_blocks l texts) ∧
    mes_statement_list_print T l = .ok (texts.foldr (· ++ ·) "") ∧
    mes_statement_list_print T (l.map unflagged) = mes_statement_list_print T l := by
  refine ⟨flat_list_blocks T l texts h, statement_list_texts T l texts 1 h, ?_⟩
  simp only [mes_statement_list_print]
  clear h
  induction l with
  | nil => rfl
  | cons stmt rest ih =>
    simp only [List.map_cons, _mes_statement_list_print, ih]
    rfl

theorem pseudocode_labels_witness :
    mes_flat_statement_list_print no_names [⟨0, 8, false, .MENUS⟩, ⟨8, 9, true, .END⟩] =
      .ok (labelled_blocks [⟨0, 8, false, .MENUS⟩, ⟨8, 9, true, .END⟩]
        ["\tmenuexec;\n", "\treturn;\n"]) ∧
    mes_statement_list_print no_names [⟨0, 8, false, .MENUS⟩, ⟨8, 9, true, .END⟩] =
      .ok (["\tmenuexec;\n", "\treturn;\n"].foldr (· ++ ·) "") ∧
    mes_statement_list_print no_names
        ([⟨0, 8, false, .MENUS⟩, ⟨8, 9, true, .END⟩].map unflagged) =
      mes_statement_list_print no_names [⟨0, 8, false, .MENUS⟩, ⟨8, 9, true, .END⟩] :=
  pseudocode_labels no_names [⟨0, 8, false, .MENUS⟩, ⟨8, 9, true, .END⟩]
    ["\tmenuexec;\n", "\treturn;\n"] (.cons rfl (.cons rfl .nil))

/-! ## The game catalogue -/

/-- C20: `ai5_parse_game_id` returns exactly for the seven names of the catalogue,
compared case-sensitively, and then returns the identifier paired with the name; the
names are pairwise distinct; for every other string, the empty string included, it ends
the process with `EXIT_FAILURE`. -/
theorem parse_game_id_catalogue (str : String) :
    ai5_games.map (fun game => game.name) = game_names ∧ game_names.Nodup ∧
    (∀ game ∈ ai5_games, ai5_parse_game_id game.name = .ok game.id) ∧
    ((∃ id, ai5_parse_game_id str = .ok id) ↔ str ∈ game_names) ∧
    (str ∉ game_names → ai5_parse_game_id str = .error EXIT_FAILURE) ∧
    ai5_parse_game_id "" = .error EXIT_FAILURE ∧
    ai5_parse_game_id "Yuno" = .error EXIT_FAILURE := by
  have hout : str ∉ game_names → ai5_parse_game_id str = .error EXIT_FAILURE := by
    intro h
    simp only [game_names, List.mem_cons, List.mem_singleton, List.mem_nil_iff, or_false,
      not_or] at h
    obtain ⟨h1, h2, h3, h4, h5, h6, h7⟩ := h
    simp [ai5_parse_game_id, parse_game_id_loop, ai5_games, h1, h2, h3, h4, h5, h6, h7]
  have hin : str ∈ game_names → ∃ id, ai5_parse_game_id str = .ok id := by
    intro h
    simp only [game_names, List.mem_cons, List.mem_singleton, List.mem_nil_iff, or_false] at h
    rcases h with h | h | h | h | h | h | h <;> subst h <;> exact ⟨_, rfl⟩
  refine ⟨rfl, by decide, ?_, ⟨?_, hin⟩, hout, by decide, by decide⟩
  · intro game hgame
    simp only [ai5_games, List.mem_cons, List.mem_singleton, List.mem_nil_iff, or_false] at hgame
    rcases hgame with h | h | h | h | h | h | h <;> subst h <;> rfl
  · rintro ⟨id, hid⟩
    by_contra hnot
    rw [hout hnot] at hid
    cases hid

theorem parse_game_id_catalogue_witness :
    ai5_parse_game_id "yuno" = .ok .GAME_ELF_CLASSICS ∧
    ((∃ id, ai5_parse_game_id "isaku" = .ok id) ↔ "isaku" ∈ game_names) ∧
    ai5_parse_game_id "ISAKU" = .error EXIT_FAILURE :=
  ⟨(parse_game_id_catalogue "yuno").2.2.1
      ⟨"yuno", .GAME_ELF_CLASSICS, "この世の果てで恋を唄う少女YU-NO (エルフclassics)"⟩ (by decide),
   (parse_game_id_catalogue "isaku").2.2.2.1,
   (parse_game_id_catalogue "ISAKU").2.2.2.2.1 (by decide)⟩

/-! ## Assembly mnemonics -/

/-- No mnemonic with its delimiter is the beginning of a text that begins with another
one. -/
theorem asm_key_clash (op1 op2 : mes_statement_op) (r1 r2 : List Char)
    (h : (asm_key op1).data ++ r1 = (asm_key op2).data ++ r2) : op1 = op2 := by
  cases op1 <;> cases op2 <;> first | rfl | (exfalso; revert h; simp [asm_key, asm_mnemonic, asm_delimiter])

theorem parameter_list_print_open (T : system_var_names) (l : List mes_parameter)
    (a : String) (h : mes_parameter_list_print T l = .ok a) : ∃ items, a = "(" ++ items := by
  simp only [mes_parameter_list_print, mes_parameter_list_print_from] at h
  obtain ⟨items, _, h⟩ := bind_eq_ok _ _ _ h
  cases h
  exact ⟨items ++ ")", by rw [String.append_assoc]⟩

theorem starts_with_key (key body : String)
    (h : body.data = key.data ++ body.data.drop key.data.length) :
    ∃ rest, body = key ++ rest :=
  ⟨String.mk (body.data.drop key.data.length), String.ext (by rw [String.data_append]; exact h)⟩

/-- In assembly mode the text of a statement begins with the mnemonic of its kind and
the delimiter. -/
theorem asm_text_key (T : system_var_names) (stmt : mes_statement) (body : String)
    (h : asm_statement_text T stmt.payload = .ok body) :
    ∃ rest, body = asm_key stmt.op ++ rest := by
  obtain ⟨address, next_address, flag, payload⟩ := stmt
  apply starts_with_key
  cases payload <;> simp only [asm_statement_text] at h
  case END | TXT | STR | JMP | LINE | MENUS =>
    cases h
    simp [String.data_append, asm_key, asm_mnemonic, asm_delimiter, mes_statement.op]
  case SETRBC | SETV | SETRD | JZ | PROCD =>
    obtain ⟨x, _, h⟩ := bind_eq_ok _ _ _ h
    cases h
    simp [String.data_append, asm_key, asm_mnemonic, asm_delimiter, mes_statement.op]
  case SETRBE | SETAC | SETA_AT | SETAD | SETAW | SETAB | SYS =>
    obtain ⟨x, _, h⟩ := bind_eq_ok _ _ _ h
    obtain ⟨y, _, h⟩ := bind_eq_ok _ _ _ h
    cases h
    simp [String.data_append, asm_key, asm_mnemonic, asm_delimiter, mes_statement.op]
  case GOTO | CALL | MENUI | PROC | UTIL =>
    obtain ⟨x, hx, h⟩ := bind_eq_ok _ _ _ h
    obtain ⟨items, rfl⟩ := parameter_list_print_open T _ x hx
    cases h
    simp [String.data_append, asm_key, asm_mnemonic, asm_delimiter, mes_statement.op]

theorem asm_print_text (T : system_var_names) (stmt : mes_statement) (t : String)
    (h : mes_asm_statement_print T stmt 1 = .ok t) :
    ∃ rest, t = label_line stmt ++ "\t" ++ asm_key stmt.op ++ rest := by
  simp only [mes_asm_statement_print] at h
  obtain ⟨body, hbody, h⟩ := bind_eq_ok _ _ _ h
  obtain ⟨rest, rfl⟩ := asm_text_key T stmt body hbody
  cases h
  refine ⟨rest, ?_⟩
  have h0 : indent_print (1 - 1) = "" := by decide
  simp only [label_line, h0, indent_print_one, String.append_assoc]
  cases stmt.is_jump_target <;> simp [String.append_assoc]

theorem label_line_data (stmt : mes_statement) :
    (label_line stmt).data =
      if stmt.is_jump_target then
        'L' :: '_' :: ((printf_08x (stmt.address % 4294967296)).data ++ [':', '\n'])
      else [] := by
  simp only [label_line, label_text]
  cases stmt.is_jump_target <;> simp [String.data_append]

/-- C18: two statements of different kinds never have the same text in assembly mode,
whatever their payloads, addresses and flags: after the label line, if any, and the tab,
the text begins with the mnemonic of the kind and its delimiter, and no mnemonic with
its delimiter is the beginning of a text that begins with another one. -/
theorem asm_kinds_distinct (T : system_var_names) (s1 s2 : mes_statement) (t1 t2 : String)
    (hop : s1.op ≠ s2.op) (h1 : mes_asm_statement_print T s1 1 = .ok t1)
    (h2 : mes_asm_statement_print T s2 1 = .ok t2) :
    t1 ≠ t2 ∧
    (∃ rest, t1 = label_line s1 ++ "\t" ++ asm_mnemonic s1.op ++ asm_delimiter s1.op ++ rest) ∧
    (∀ r1 r2 : String, asm_mnemonic s1.op ++ asm_delimiter s1.op ++ r1 ≠
      asm_mnemonic s2.op ++ asm_delimiter s2.op ++ r2) := by
  obtain ⟨rest1, hr1⟩ := asm_print_text T s1 t1 h1
  obtain ⟨rest2, hr2⟩ := asm_print_text T s2 t2 h2
  have hkeys : ∀ r1 r2 : List Char, (asm_key s1.op).data ++ r1 ≠ (asm_key s2.op).data ++ r2 :=
    fun r1 r2 h => hop (asm_key_clash _ _ r1 r2 h)
  refine ⟨?_, ⟨rest1, by rw [hr1]; simp only [asm_key, String.append_assoc]⟩, ?_⟩
  · intro heq
    rw [hr1, hr2] at heq
    have hdata := congrArg String.data heq
    simp only [String.data_append, label_line_data, List.append_assoc] at hdata
    have hlen1 := (printf_08x_spec (s1.address % 4294967296) (Nat.mod_lt _ (by norm_num))).1
    have hlen2 := (printf_08x_spec (s2.address % 4294967296) (Nat.mod_lt _ (by norm_num))).1
    cases hf1 : s1.is_jump_target <;> cases hf2 : s2.is_jump_target <;>
      simp only [hf1, hf2, if_true, if_false, Bool.false_eq_true, List.nil_append,
        List.cons_append, List.cons.injEq, true_and] at hdata
    · exact hkeys _ _ hdata
    · exact absurd hdata.1 (by decide)
    · exact absurd hdata.1 (by decide)
    · simp only [List.append_assoc] at hdata
      obtain ⟨_, htail⟩ := List.append_inj hdata (by rw [hlen1, hlen2])
      simp only [List.cons_append, List.nil_append, List.cons.injEq, true_and] at htail
      exact hkeys _ _ htail
  · intro r1 r2 heq
    have hdata := congrArg String.data heq
    simp only [String.data_append, List.append_assoc] at hdata
    rw [← List.append_assoc, ← List.append_assoc (asm_mnemonic s2.op).data, ← String.data_append,
      ← String.data_append] at hdata
    exact hkeys _ _ hdata

theorem asm_kinds_distinct_witness :
    "L_00000008:\n\tPROC();\n" ≠ "L_00000008:\n\tPROCD 1 L_00000010;\n" ∧
    (∃ rest, "L_00000008:\n\tPROC();\n" =
      label_line ⟨8, 9, true, .PROC []⟩ ++ "\t" ++
        asm_mnemonic (mes_statement.op ⟨8, 9, true, .PROC []⟩) ++
        asm_delimiter (mes_statement.op ⟨8, 9, true, .PROC []⟩) ++ rest) ∧
    (∀ r1 r2 : String,
      asm_mnemonic (mes_statement.op ⟨8, 9, true, .PROC []⟩) ++
          asm_delimiter (mes_statement.op ⟨8, 9, true, .PROC []⟩) ++ r1 ≠
        asm_mnemonic (mes_statement.op ⟨8, 9, true, .PROCD 16 (imm8 1)⟩) ++
          asm_delimiter (mes_statement.op ⟨8, 9, true, .PROCD 16 (imm8 1)⟩) ++ r2) :=
  asm_kinds_distinct no_names ⟨8, 9, true, .PROC []⟩ ⟨8, 9, true, .PROCD 16 (imm8 1)⟩
    "L_00000008:\n\tPROC();\n" "L_00000008:\n\tPROCD 1 L_00000010;\n" (by decide) (by decide)
    (by decide)

/-! ## The generic rendering of system calls -/

theorem get_int_parameter_absent (params : List mes_parameter)
    (h : no_command_parameter params = true) : get_int_parameter params 0 = .ok (-1) := by
  match params, h with
  | [], _ => rfl
  | .MES_PARAM_STRING _ :: _, _ => rfl
  | .MES_PARAM_EXPRESSION (.node op _ _ _) :: _, h =>
    have hop : op ≠ MES_EXPR_IMM := by simpa [no_command_parameter] using h
    simp [get_int_parameter, hop]

theorem sys_command_absent (T : system_var_names) (expr : mes_expression)
    (params : List mes_parameter) (name : Int → String)
    (h : no_command_parameter params = true) :
    sys_command T expr params name = sys_fallback T expr params := by
  simp [sys_command, get_int_parameter_absent params h, bind, Except.bind]

theorem stmt_sys_print_generic (T : system_var_names) (expr : mes_expression)
    (params : List mes_parameter) (h : generic_sys expr params = true) :
    stmt_sys_print T expr params = sys_fallback T expr params := by
  match expr, h with
  | .node op arg sa sb, h =>
    simp only [generic_sys, Bool.or_eq_true, Bool.and_eq_true, decide_eq_true_eq] at h
    by_cases hop : op = MES_EXPR_IMM
    · subst hop
      rcases h with h | ⟨hsel, hparams⟩
      · exact absurd rfl h
      · simp only [sys_families, List.mem_cons, List.mem_singleton, List.mem_nil_iff,
          or_false] at hsel
        rcases hsel with h | h | h | h | h | h | h | h | h <;>
          simp [stmt_sys_print, h, sys_command_absent T _ params _ hparams]
    · simp [stmt_sys_print, hop]

theorem sys_fallback_texts (T : system_var_names) (expr : mes_expression)
    (params : List mes_parameter) (selector : String) (texts : List String)
    (hexpr : mes_expression_print T expr = .ok selector)
    (hparams : List.Forall₂ (fun p t => mes_parameter_print T p = .ok t) params texts) :
    sys_fallback T expr params =
      .ok ("System.function[" ++ selector ++ "]" ++ "(" ++ ",".intercalate texts ++ ")" ++
        ";\n") := by
  simp only [sys_fallback, hexpr, parameter_list_print_texts T params texts hparams, bind,
    Except.bind, pure, Except.pure, Except.ok.injEq]
  apply String.ext
  simp [String.data_append]

/-- C22: `stmt_sys_print` goes to its generic rendering whenever the selector is a node
other than an 8-bit immediate (a 16-bit or 32-bit immediate of value 2 included), and
whenever the selector is the 8-bit immediate of a family with command numbers (2, 3, 4,
5, 7, 9, 10, 19, 22) and the first parameter is absent, a string, or an expression node
other than an 8-bit immediate. The generic rendering is `System.function[`, the rendering
of the selector expression, `]`, every parameter between parentheses and separated by
commas, `;` and a newline. -/
theorem sys_generic_rendering (T : system_var_names) (expr : mes_expression)
    (params : List mes_parameter) (h : generic_sys expr params = true) :
    stmt_sys_print T expr params = sys_fallback T expr params ∧
    (∀ selector texts, mes_expression_print T expr = .ok selector →
      List.Forall₂ (fun p t => mes_parameter_print T p = .ok t) params texts →
      stmt_sys_print T expr params =
        .ok ("System.function[" ++ selector ++ "]" ++ "(" ++ ",".intercalate texts ++ ")" ++
          ";\n")) := by
  refine ⟨stmt_sys_print_generic T expr params h, ?_⟩
  intro selector texts hexpr hparams
  rw [stmt_sys_print_generic T expr params h]
  exact sys_fallback_texts T expr params selector texts hexpr hparams

theorem sys_generic_rendering_witness :
    generic_sys (imm16 2) [.MES_PARAM_EXPRESSION (imm8 5), .MES_PARAM_STRING "a"] = true ∧
    stmt_sys_print no_names (imm16 2) [.MES_PARAM_EXPRESSION (imm8 5), .MES_PARAM_STRING "a"] =
      .ok ("System.function[" ++ "2" ++ "]" ++ "(" ++ ",".intercalate ["5", "\"a\""] ++ ")" ++
        ";\n") ∧
    generic_sys (imm8 2) [.MES_PARAM_EXPRESSION (imm16 5)] = true ∧
    stmt_sys_print no_names (imm8 2) [.MES_PARAM_EXPRESSION (imm16 5)] =
      .ok ("System.function[" ++ "2" ++ "]" ++ "(" ++ ",".intercalate ["5"] ++ ")" ++ ";\n") :=
  ⟨by decide,
   (sys_generic_rendering no_names (imm16 2)
      [.MES_PARAM_EXPRESSION (imm8 5), .MES_PARAM_STRING "a"] (by decide)).2 "2" ["5", "\"a\""]
      (by decide) (.cons (by decide) (.cons (by decide) .nil)),
   by decide,
   (sys_generic_rendering no_names (imm8 2) [.MES_PARAM_EXPRESSION (imm16 5)]
      (by decide)).2 "2" ["5"] (by decide) (.cons (by decide) .nil)⟩

/-! ## The flag and the immediates -/

/-- C23: the bitwise-context flag changes nothing but the text of immediates: a tree
without an immediate node (`IMM`, `IMM16`, `IMM32`) and without an `END` node has the
same rendering, fault or text, with the flag set as with the flag clear. -/
theorem flag_only_immediates (T : system_var_names) (e : mes_expression)
    (h : has_immediate_or_end e = false) :
    _mes_expression_print T e true = _mes_expression_print T e false := by
  induction e with
  | NULL => rfl
  | node op arg a b iha ihb =>
    simp only [has_immediate_or_end, Bool.or_eq_false_iff, decide_eq_false_iff_not] at h
    obtain ⟨⟨⟨⟨⟨h1, h2⟩, h3⟩, h4⟩, ha⟩, hb⟩ := h
    cases op <;>
      first
      | rfl
      | exact absurd rfl h1
      | exact absurd rfl h2
      | exact absurd rfl h3
      | simp only [_mes_expression_print, iha ha, ihb hb]

theorem flag_only_immediates_witness :
    has_immediate_or_end sample_without_immediates = false ∧
    _mes_expression_print no_names sample_without_immediates false =
      .ok "(var16[1] + rand(var4[2])) & var32[3]->byte[var4[var16[0]]]" ∧
    _mes_expression_print no_names sample_without_immediates true =
      _mes_expression_print no_names sample_without_immediates false :=
  ⟨by decide, by decide, flag_only_immediates no_names sample_without_immediates (by decide)⟩

/-! ## Text literals -/

theorem text_statement_print (T : system_var_names) (address next_address : Nat)
    (flag ascii : Bool) (text : String) (terminated unprefixed : Bool) (indent : Int) :
    _mes_statement_print T
        (text_statement address next_address flag ascii text terminated unprefixed) indent =
      .ok (indent_print indent ++ (if unprefixed then "unprefixed " else "") ++
        (if terminated then "" else "unterminated ") ++ "\"" ++ text ++ "\"" ++ ";" ++ "\n") := by
  cases ascii <;> cases terminated <;> cases unprefixed <;>
    simp only [text_statement, _mes_statement_print, statement_text, bind, Except.bind, pure,
      Except.pure, if_true, if_false, Bool.false_eq_true, Bool.not_true, Bool.not_false,
      Except.ok.injEq] <;>
    (apply String.ext; simp [String.data_append])

/-- C24: a `TXT` or `STR` statement is written in pseudocode as the indentation, then
`unprefixed ` exactly when its flag `unprefixed` is set, then `unterminated ` exactly
when its flag `terminated` is clear, then the text between double quotes, `;` and a
newline. Two text statements with the same text and different flags are written
differently at the same indentation, and a prefixed, terminated literal is written
without either keyword. -/
theorem text_flags_survive (T : system_var_names) (address next_address : Nat)
    (flag ascii : Bool) (text : String) (terminated unprefixed : Bool) (indent : Int) :
    _mes_statement_print T
        (text_statement address next_address flag ascii text terminated unprefixed) indent =
      .ok (indent_print indent ++ (if unprefixed then "unprefixed " else "") ++
        (if terminated then "" else "unterminated ") ++ "\"" ++ text ++ "\"" ++ ";" ++ "\n") ∧
    (∀ (address2 next_address2 : Nat) (flag2 ascii2 terminated2 unprefixed2 : Bool),
      (terminated2, unprefixed2) ≠ (terminated, unprefixed) →
      _mes_statement_print T
          (text_statement address2 next_address2 flag2 ascii2 text terminated2 unprefixed2)
          indent ≠
        _mes_statement_print T
          (text_statement address next_address flag ascii text terminated unprefixed) indent) ∧
    _mes_statement_print T (text_statement address next_address flag ascii text true false)
        indent =
      .ok (indent_print indent ++ "\"" ++ text ++ "\"" ++ ";" ++ "\n") := by
  refine ⟨text_statement_print _ _ _ _ _ _ _ _ _, ?_, ?_⟩
  · intro address2 next_address2 flag2 ascii2 terminated2 unprefixed2 hne heq
    rw [text_statement_print, text_statement_print] at heq
    have hdata := congrArg String.data (Except.ok.inj heq)
    revert hne hdata
    cases terminated <;> cases unprefixed <;> cases terminated2 <;> cases unprefixed2 <;>
      simp [String.data_append]
  · rw [text_statement_print]
    simp only [Except.ok.injEq]
    apply String.ext
    simp [String.data_append]

theorem text_flags_survive_witness :
    _mes_statement_print no_names (text_statement 0 4 false false "abc" false true) 1 =
      .ok "\tunprefixed unterminated \"abc\";\n" ∧
    _mes_statement_print no_names (text_statement 0 4 false true "abc" true true) 1 ≠
      _mes_statement_print no_names (text_statement 0 4 false false "abc" false true) 1 ∧
    _mes_statement_print no_names (text_statement 0 4 false false "abc" true false) 1 =
      .ok "\t\"abc\";\n" :=
  ⟨by decide,
   (text_flags_survive no_names 0 4 false false "abc" false true 1).2.1 0 4 false true true true
      (by decide),
   by decide⟩

/-! ## Operands of array reads, `rand` and `var4[...]` -/

/-- C25: a node that is an array read (`ARRAY16_GET16`, `ARRAY16_GET8`, `ARRAY32_GET32`,
`ARRAY32_GET16`, `ARRAY32_GET8`), `rand(...)` or `var4[<expr>]` has the same rendering
under every flag, which is its rendering with the flag clear: its operand is written by
`mes_expression_print`. Under `&` the immediate 1000 is written `0x3e8` as an operand of
`&` and `1000` as the index of an array read. -/
theorem operand_flag_clear (T : system_var_names) (op : mes_expression_op) (arg : Nat)
    (a b : mes_expression) (bitwise : Bool) (hop : op ∈ operand_ops) :
    _mes_expression_print T (.node op arg a b) bitwise =
      _mes_expression_print T (.node op arg a b) false ∧
    _mes_expression_print T (.node op arg a b) true =
      mes_expression_print T (.node op arg a b) ∧
    _mes_expression_print T sample_index_under_and bitwise =
      .ok "0x3e8 & var16[1]->byte[1000]" := by
  simp only [operand_ops, List.mem_cons, List.mem_singleton, List.mem_nil_iff, or_false] at hop
  refine ⟨?_, ?_, ?_⟩
  · rcases hop with h | h | h | h | h | h | h <;> subst h <;> cases bitwise <;> rfl
  · rcases hop with h | h | h | h | h | h | h <;> subst h <;> rfl
  · cases bitwise <;> rfl

theorem operand_flag_clear_witness :
    _mes_expression_print no_names (.node MES_EXPR_RAND 0 (imm16 1000) .NULL) true =
      _mes_expression_print no_names (.node MES_EXPR_RAND 0 (imm16 1000) .NULL) false ∧
    _mes_expression_print no_names (.node MES_EXPR_RAND 0 (imm16 1000) .NULL) true =
      .ok "rand(1000)" ∧
    _mes_expression_print no_names (imm16 1000) true = .ok "0x3e8" :=
  ⟨(operand_flag_clear no_names MES_EXPR_RAND 0 (imm16 1000) .NULL true (by decide)).1,
   by decide, by decide⟩

/-! ## Assignment statements -/

/-- A target text followed by the values, when the target is written in two steps. -/
theorem target_then_values (target values : Except fault String) (f : String → String)
    (g : String → String → String)
    (h : ∀ t v, g t v = f t ++ " = " ++ v ++ ";\n") :
    (do let t ← target; let v ← values; pure (g t v)) =
      (do
        let left ← (do let t ← target; pure (f t))
        let right ← values
        pure (left ++ " = " ++ right ++ ";\n")) := by
  cases target with
  | error err => rfl
  | ok t =>
    cases values with
    | error err => rfl
    | ok v => simp [bind, Except.bind, pure, Except.pure, h]

theorem assignment_text (T : system_var_names) (payload : mes_statement_payload)
    (target : mes_expression) (values : List mes_expression)
    (h : assignment_target payload = some (target, values)) :
    statement_text T payload = (do
      let left ← mes_expression_print T target
      let right ← mes_expression_list_print T values
      pure (left ++ " = " ++ right ++ ";\n")) := by
  cases payload <;> first | (simp [assignment_target] at h; done) | skip
  all_goals
    simp only [assignment_target, Option.some.injEq, Prod.mk.injEq] at h
    obtain ⟨h1, h2⟩ := h
    subst h1 h2
  case SETRBC reg_no exprs =>
    simp only [statement_text, mes_expression_print, _mes_expression_print]
    cases mes_expression_list_print T exprs with
    | error err => rfl
    | ok v =>
      simp only [bind, Except.bind, pure, Except.pure, Except.ok.injEq]
      apply String.ext
      simp [String.data_append]
  case SETV var_no exprs =>
    simp only [statement_text, mes_expression_print, _mes_expression_print]
    cases mes_expression_list_print T exprs with
    | error err => rfl
    | ok v =>
      simp only [bind, Except.bind, pure, Except.pure, Except.ok.injEq]
      apply String.ext
      simp [String.data_append]
  case SETRD var_no exprs =>
    simp only [statement_text, mes_expression_print, _mes_expression_print]
    cases mes_expression_list_print T exprs with
    | error err => rfl
    | ok v =>
      simp only [bind, Except.bind, pure, Except.pure, Except.ok.injEq]
      apply String.ext
      simp [String.data_append]
  case SETRBE reg_expr val_exprs =>
    simp only [statement_text, mes_expression_print, _mes_expression_print]
    exact target_then_values _ _ (fun t => "var4[" ++ t ++ "]") _
      (fun t v => by apply String.ext; simp [String.data_append])
  case SETAC var_no off_expr val_exprs =>
    simp only [statement_text, mes_expression_print, _mes_expression_print, printf_d_natCast]
    exact target_then_values _ _
      (fun t => "var16[" ++ printf_u (var_no % 256) ++ "]->byte[" ++ t ++ "]") _
      (fun t v => by apply String.ext; simp [String.data_append])
  case SETAW var_no off_expr val_exprs =>
    simp only [statement_text, mes_expression_print, _mes_expression_print]
    exact target_then_values _ _
      (fun t => "var32[" ++ printf_d ((var_no % 256 : Nat) - 1) ++ "]->word[" ++ t ++ "]") _
      (fun t v => by apply String.ext; simp [String.data_append])
  case SETAB var_no off_expr val_exprs =>
    simp only [statement_text, mes_expression_print, _mes_expression_print]
    exact target_then_values _ _
      (fun t => "var32[" ++ printf_d ((var_no % 256 : Nat) - 1) ++ "]->byte[" ++ t ++ "]") _
      (fun t v => by apply String.ext; simp [String.data_append])
  case SETA_AT var_no off_expr val_exprs =>
    simp only [statement_text, stmt_seta_at_print, mes_expression_print, _mes_expression_print,
      array16_get16_text]
    by_cases hv : var_no % 256 = 0
    · simp only [if_pos hv]
      cases off_expr with
      | NULL => rfl
      | node op arg a b =>
        simp only []
        cases (if op = MES_EXPR_IMM then system_var16_name T (arg % 256) else none) with
        | some name => rfl
        | none => simp only [bind_assoc, pure_bind]
    · simp only [if_neg hv, bind_assoc, pure_bind]
  case SETAD var_no off_expr val_exprs =>
    simp only [statement_text, stmt_setad_print, mes_expression_print, _mes_expression_print,
      array32_get32_text]
    by_cases hv : var_no % 256 = 0
    · simp only [if_pos hv]
      cases off_expr with
      | NULL => rfl
      | node op arg a b =>
        simp only []
        cases (if op = MES_EXPR_IMM then system_var32_name T (arg % 256) else none) with
        | some name => rfl
        | none => simp only [bind_assoc, pure_bind]
    · simp only [if_neg hv, bind_assoc, pure_bind]

/-- C26: in pseudocode the target of every assignment statement is written exactly as
`mes_expression_print` writes the matching read expression (`VAR n` for `SETV n`,
`REG16 n` for `SETRBC n`, `REG8 e` for `SETRBE e`, `ARRAY16_GET8` for `SETAC`,
`ARRAY16_GET16` for `SETA_AT` with its system-variable names, `ARRAY32_GET32` for
`SETAD`, `ARRAY32_GET16` for `SETAW`, `ARRAY32_GET8` for `SETAB`, `VAR32 n` for
`SETRD n`): the statement is that text, ` = `, the values in list order separated by
commas, `;` and a newline, and it faults exactly as the read expression and then the
values do. -/
theorem assignment_left_hand_side (T : system_var_names) (address next_address : Nat)
    (flag : Bool) (payload : mes_statement_payload) (indent : Int) (target : mes_expression)
    (values : List mes_expression) (h : assignment_target payload = some (target, values)) :
    statement_text T payload = (do
      let left ← mes_expression_print T target
      let right ← mes_expression_list_print T values
      pure (left ++ " = " ++ right ++ ";\n")) ∧
    (∀ left texts, mes_expression_print T target = .ok left →
      List.Forall₂ (fun e t => mes_expression_print T e = .ok t) values texts →
      _mes_statement_print T ⟨address, next_address, flag, payload⟩ indent =
        .ok (indent_print indent ++ left ++ " = " ++ ",".intercalate texts ++ ";\n")) := by
  refine ⟨assignment_text T payload target values h, ?_⟩
  intro left texts hleft htexts
  simp only [_mes_statement_print, assignment_text T payload target values h, hleft,
    expression_list_print_texts T values texts htexts, bind, Except.bind, pure, Except.pure,
    Except.ok.injEq]
  apply String.ext
  simp [String.data_append]

theorem assignment_left_hand_side_witness :
    assignment_target (.SETA_AT 0 (imm8 2) [imm8 1, imm16 7]) =
      some (.node MES_EXPR_ARRAY16_GET16 0 (imm8 2) .NULL, [imm8 1, imm16 7]) ∧
    mes_expression_print sample_names (.node MES_EXPR_ARRAY16_GET16 0 (imm8 2) .NULL) =
      .ok "System.flags" ∧
    _mes_statement_print sample_names ⟨0, 4, false, .SETA_AT 0 (imm8 2) [imm8 1, imm16 7]⟩ 1 =
      .ok (indent_print 1 ++ "System.flags" ++ " = " ++ ",".intercalate ["1", "7"] ++ ";\n") ∧
    _mes_statement_print sample_names
        ⟨0, 4, false, .SETAB 3 (.node MES_EXPR_VAR 1 .NULL .NULL) [imm8 1]⟩ 1 =
      .ok (indent_print 1 ++ "var32[2]->byte[var16[1]]" ++ " = " ++ ",".intercalate ["1"] ++
        ";\n") :=
  ⟨rfl, by decide,
   (assignment_left_hand_side sample_names 0 4 false (.SETA_AT 0 (imm8 2) [imm8 1, imm16 7]) 1
      (.node MES_EXPR_ARRAY16_GET16 0 (imm8 2) .NULL) [imm8 1, imm16 7] rfl).2
      "System.flags" ["1", "7"] (by decide) (.cons (by decide) (.cons (by decide) .nil)),
   (assignment_left_hand_side sample_names 0 4 false
      (.SETAB 3 (.node MES_EXPR_VAR 1 .NULL .NULL) [imm8 1]) 1
      (.node MES_EXPR_ARRAY32_GET8 3 (.node MES_EXPR_VAR 1 .NULL .NULL) .NULL) [imm8 1] rfl).2
      "var32[2]->byte[var16[1]]" ["1"] (by decide) (.cons (by decide) .nil)⟩

/-! ## Kinds with the same pseudocode -/

theorem asm_call_proc_text (T : system_var_names) (address next_address : Nat) (flag : Bool)
    (params : List mes_parameter) (indent : Int) (arguments : String)
    (h : mes_parameter_list_print T params = .ok arguments) :
    mes_asm_statement_print T ⟨address, next_address, flag, .CALL params⟩ indent =
      .ok ((if flag then indent_print (indent - 1) ++ label_text address ++ ":\n" else "") ++
        indent_print indent ++ "CALL" ++ arguments ++ ";\n") ∧
    mes_asm_statement_print T ⟨address, next_address, flag, .PROC params⟩ indent =
      .ok ((if flag then indent_print (indent - 1) ++ label_text address ++ ":\n" else "") ++
        indent_print indent ++ "PROC" ++ arguments ++ ";\n") := by
  constructor <;>
    simp only [mes_asm_statement_print, asm_statement_text, h, bind, Except.bind, pure,
      Except.pure, Except.ok.injEq] <;>
    (apply String.ext; simp [String.data_append])

theorem asm_txt_str_text (T : system_var_names) (address next_address : Nat) (flag : Bool)
    (text : String) (terminated unprefixed : Bool) (indent : Int) :
    mes_asm_statement_print T ⟨address, next_address, flag, .TXT text terminated unprefixed⟩
        indent =
      .ok ((if flag then indent_print (indent - 1) ++ label_text address ++ ":\n" else "") ++
        indent_print indent ++ "TXT \"" ++ text ++ "\";\n") ∧
    mes_asm_statement_print T ⟨address, next_address, flag, .STR text terminated unprefixed⟩
        indent =
      .ok ((if flag then indent_print (indent - 1) ++ label_text address ++ ":\n" else "") ++
        indent_print indent ++ "STR \"" ++ text ++ "\";\n") := by
  constructor <;>
    simp only [mes_asm_statement_print, asm_statement_text, bind, Except.bind, pure,
      Except.pure, Except.ok.injEq] <;>
    (apply String.ext; simp [String.data_append])

/-- C27: the pseudocode of a statement does not tell its kind. For every parameter list
a `CALL` statement and a `PROC` statement have the same pseudocode, `call` and the
parameter list, and for every text and flags a `TXT` statement and a `STR` statement have
the same pseudocode; in assembly mode the two statements of each pair are written with
the mnemonics `CALL` and `PROC`, `TXT` and `STR`, and their texts differ. -/
theorem pseudocode_merges_kinds (T : system_var_names) (address next_address : Nat)
    (flag : Bool) (indent : Int) (params : List mes_parameter) (text : String)
    (terminated unprefixed : Bool) :
    _mes_statement_print T ⟨address, next_address, flag, .CALL params⟩ indent =
      _mes_statement_print T ⟨address, next_address, flag, .PROC params⟩ indent ∧
    _mes_statement_print T ⟨address, next_address, flag, .CALL params⟩ indent =
      ((mes_parameter_list_print T params).map fun arguments =>
        indent_print indent ++ "call" ++ arguments ++ ";\n") ∧
    _mes_statement_print T ⟨address, next_address, flag, .TXT text terminated unprefixed⟩
        indent =
      _mes_statement_print T ⟨address, next_address, flag, .STR text terminated unprefixed⟩
        indent ∧
    (∀ arguments, mes_parameter_list_print T params = .ok arguments →
      ∃ label t1 t2,
        mes_asm_statement_print T ⟨address, next_address, flag, .CALL params⟩ indent =
          .ok (label ++ indent_print indent ++ "CALL" ++ arguments ++ ";\n") ∧
        mes_asm_statement_print T ⟨address, next_address, flag, .PROC params⟩ indent =
          .ok (label ++ indent_print indent ++ "PROC" ++ arguments ++ ";\n") ∧
        mes_asm_statement_print T ⟨address, next_address, flag, .CALL params⟩ indent = .ok t1 ∧
        mes_asm_statement_print T ⟨address, next_address, flag, .PROC params⟩ indent = .ok t2 ∧
        t1 ≠ t2) ∧
    (∃ label t1 t2,
      mes_asm_statement_print T ⟨address, next_address, flag, .TXT text terminated unprefixed⟩
          indent = .ok t1 ∧
      mes_asm_statement_print T ⟨address, next_address, flag, .STR text terminated unprefixed⟩
          indent = .ok t2 ∧
      t1 = label ++ indent_print indent ++ "TXT \"" ++ text ++ "\";\n" ∧
      t2 = label ++ indent_print indent ++ "STR \"" ++ text ++ "\";\n" ∧
      t1 ≠ t2) := by
  refine ⟨rfl, ?_, rfl, ?_, ?_⟩
  · simp only [_mes_statement_print, statement_text]
    cases mes_parameter_list_print T params with
    | error err => rfl
    | ok arguments =>
      simp only [bind, Except.bind, pure, Except.pure, Except.map, Except.ok.injEq]
      apply String.ext
      simp [String.data_append]
  · intro arguments h
    obtain ⟨h1, h2⟩ := asm_call_proc_text T address next_address flag params indent arguments h
    refine ⟨_, _, _, h1, h2, h1, h2, ?_⟩
    intro heq
    have hdata := congrArg String.data heq
    simp [String.data_append] at hdata
  · obtain ⟨h1, h2⟩ :=
      asm_txt_str_text T address next_address flag text terminated unprefixed indent
    refine ⟨_, _, _, h1, h2, rfl, rfl, ?_⟩
    intro heq
    have hdata := congrArg String.data heq
    simp [String.data_append] at hdata

theorem pseudocode_merges_kinds_witness :
    _mes_statement_print no_names ⟨0, 4, false, .CALL [.MES_PARAM_STRING "a"]⟩ 1 =
      .ok "\tcall(\"a\");\n" ∧
    _mes_statement_print no_names ⟨0, 4, false, .PROC [.MES_PARAM_STRING "a"]⟩ 1 =
      .ok "\tcall(\"a\");\n" ∧
    mes_asm_statement_print no_names ⟨0, 4, false, .CALL [.MES_PARAM_STRING "a"]⟩ 1 =
      .ok "\tCALL(\"a\");\n" ∧
    mes_asm_statement_print no_names ⟨0, 4, false, .PROC [.MES_PARAM_STRING "a"]⟩ 1 =
      .ok "\tPROC(\"a\");\n" ∧
    (∃ label t1 t2,
        mes_asm_statement_print no_names ⟨0, 4, false, .CALL [.MES_PARAM_STRING "a"]⟩ 1 =
          .ok (label ++ indent_print 1 ++ "CALL" ++ "(\"a\")" ++ ";\n") ∧
        mes_asm_statement_print no_names ⟨0, 4, false, .PROC [.MES_PARAM_STRING "a"]⟩ 1 =
          .ok (label ++ indent_print 1 ++ "PROC" ++ "(\"a\")" ++ ";\n") ∧
        mes_asm_statement_print no_names ⟨0, 4, false, .CALL [.MES_PARAM_STRING "a"]⟩ 1 =
          .ok t1 ∧
        mes_asm_statement_print no_names ⟨0, 4, false, .PROC [.MES_PARAM_STRING "a"]⟩ 1 =
          .ok t2 ∧
        t1 ≠ t2) :=
  ⟨by decide, by decide, by decide, by decide,
   (pseudocode_merges_kinds no_names 0 4 false 1 [.MES_PARAM_STRING "a"] "" true false).2.2.2.1
      "(\"a\")" (by decide)⟩

/-! ## Reading immediates back -/

theorem digitChar_mem_take (b k : Nat) (hb : b = 10 ∨ b = 16) (h : k < b) :
    Nat.digitChar k ∈ hex_alphabet.take b := by
  rcases hb with hb | hb <;> subst hb <;> interval_cases k <;> decide

theorem digitChar_ne_zero (k : Nat) (h0 : 0 < k) (h : k < 16) : Nat.digitChar k ≠ '0' := by
  interval_cases k <;> decide

theorem lt_of_div_eq_zero (b n : Nat) (hb : 0 < b) (h : n / b = 0) : n < b := by
  by_contra hc
  have : 1 ≤ n / b := (Nat.le_div_iff_mul_le hb).mpr (by omega)
  omega

theorem div_lt_fuel (b n fuel : Nat) (hb : 1 < b) (hq : ¬ n / b = 0) (h : n < fuel + 1) :
    n / b < fuel := by
  have : n / b < n := Nat.div_lt_self (by
    by_contra hc
    have : n = 0 := by omega
    subst this
    simp at hq) hb
  omega

/-- Reading in base `b` the digits that `Nat.toDigitsCore` puts in front of `ds`. -/
theorem numeral_value_toDigitsCore (b : Nat) (hb : 1 < b) (hb16 : b ≤ 16) (fuel : Nat) :
    ∀ n ds, n < fuel →
      (Nat.toDigitsCore b fuel n ds).foldl (fun acc c => acc * b + hex_digit_value c) 0 =
        ds.foldl (fun acc c => acc * b + hex_digit_value c) n := by
  induction fuel with
  | zero => intro n ds h; omega
  | succ fuel ih =>
    intro n ds h
    have hmod : n % b < 16 := lt_of_lt_of_le (Nat.mod_lt n (by omega)) hb16
    simp only [Nat.toDigitsCore]
    split
    · rename_i hq
      have hlt : n < b := lt_of_div_eq_zero b n (by omega) hq
      have hd := hex_digit_value_digitChar (n % b) hmod
      rw [Nat.mod_eq_of_lt hlt] at hd
      simp [List.foldl, Nat.mod_eq_of_lt hlt, hd]
    · rename_i hq
      rw [ih (n / b) _ (div_lt_fuel b n fuel hb hq h)]
      simp only [List.foldl, hex_digit_value_digitChar _ hmod]
      congr 1
      exact Nat.div_add_mod' n b

theorem numeral_value_toDigits (b : Nat) (hb : 1 < b) (hb16 : b ≤ 16) (n : Nat) :
    numeral_value b (Nat.toDigits b n) = n := by
  simp [numeral_value, Nat.toDigits, numeral_value_toDigitsCore b hb hb16 (n + 1) n []
    (by omega)]

theorem toDigitsCore_mem_take (b : Nat) (hb : b = 10 ∨ b = 16) (fuel : Nat) :
    ∀ n ds c, c ∈ Nat.toDigitsCore b fuel n ds → c ∈ hex_alphabet.take b ∨ c ∈ ds := by
  have hpos : 0 < b := by rcases hb with hb | hb <;> omega
  induction fuel with
  | zero => intro n ds c h; exact Or.inr (by simpa [Nat.toDigitsCore] using h)
  | succ fuel ih =>
    intro n ds c h
    simp only [Nat.toDigitsCore] at h
    have hd := digitChar_mem_take b (n % b) hb (Nat.mod_lt n hpos)
    split at h
    · rcases List.mem_cons.mp h with h | h
      · exact Or.inl (h ▸ hd)
      · exact Or.inr h
    · rcases ih _ _ _ h with h | h
      · exact Or.inl h
      · rcases List.mem_cons.mp h with h | h
        · exact Or.inl (h ▸ hd)
        · exact Or.inr h

/-- The digits of a positive number begin with a digit other than `0`. -/
theorem toDigitsCore_leading (b : Nat) (hb : 1 < b) (hb16 : b ≤ 16) (fuel : Nat) :
    ∀ n ds, 0 < n → n < fuel →
      ∃ c rest, Nat.toDigitsCore b fuel n ds = c :: rest ∧ c ≠ '0' := by
  induction fuel with
  | zero => intro n ds _ h; omega
  | succ fuel ih =>
    intro n ds h0 h
    simp only [Nat.toDigitsCore]
    split
    · rename_i hq
      have hlt : n < b := lt_of_div_eq_zero b n (by omega) hq
      refine ⟨_, _, rfl, ?_⟩
      rw [Nat.mod_eq_of_lt hlt]
      exact digitChar_ne_zero n h0 (by omega)
    · rename_i hq
      exact ih (n / b) _ (Nat.pos_of_ne_zero hq) (div_lt_fuel b n fuel hb hq h)

theorem toDigits_leading (b : Nat) (hb : 1 < b) (hb16 : b ≤ 16) (n : Nat) (h0 : 0 < n) :
    ∃ c rest, Nat.toDigits b n = c :: rest ∧ c ≠ '0' :=
  toDigitsCore_leading b hb hb16 (n + 1) n [] h0 (by omega)

theorem toDigits_zero (b : Nat) : Nat.toDigits b 0 = ['0'] := by
  simp [Nat.toDigits, Nat.toDigitsCore, Nat.digitChar]

theorem toDigits_numeral (b : Nat) (hb : b = 10 ∨ b = 16) (n : Nat) :
    numeral_of b (Nat.toDigits b n) n := by
  have hb1 : 1 < b := by rcases hb with hb | hb <;> omega
  have hb16 : b ≤ 16 := by rcases hb with hb | hb <;> omega
  have hmem : ∀ c ∈ Nat.toDigits b n, c ∈ hex_alphabet.take b := by
    intro c hc
    rcases toDigitsCore_mem_take b hb (n + 1) n [] c hc with h | h
    · exact h
    · cases h
  rcases Nat.eq_zero_or_pos n with h0 | h0
  · subst h0
    refine ⟨?_, hmem, numeral_value_toDigits b hb1 hb16 0, ?_⟩
    · rw [toDigits_zero b]; simp
    · intro _; exact toDigits_zero b
  · obtain ⟨c, rest, hcs, hc⟩ := toDigits_leading b hb1 hb16 n h0
    refine ⟨?_, hmem, numeral_value_toDigits b hb1 hb16 n, ?_⟩
    · rw [hcs]; simp
    · rw [hcs]
      intro h
      simp only [List.head?_cons, Option.some.injEq] at h
      exact absurd h hc

theorem c_literal_decimal (n : Nat) : c_literal_value (printf_u n).data = n := by
  simp only [printf_u]
  rcases Nat.eq_zero_or_pos n with h0 | h0
  · subst h0; decide
  · obtain ⟨c, rest, hcs, hc⟩ := toDigits_leading 10 (by norm_num) (by norm_num) n h0
    have hval := numeral_value_toDigits 10 (by norm_num) (by norm_num) n
    rw [hcs] at hval
    have h1 : ¬ ((c :: rest).take 2 = ['0', 'x']) := by
      intro h
      cases rest with
      | nil => simp at h
      | cons d rest => simp only [List.take, List.cons.injEq] at h; exact hc h.1
    have h2 : ¬ ((c :: rest).head? = some '0') := by
      simp only [List.head?_cons, Option.some.injEq]; exact hc
    rw [hcs]
    simp only [c_literal_value, if_neg h1, if_neg h2, hval]

theorem c_literal_hexadecimal (n : Nat) : c_literal_value ("0x" ++ printf_x n).data = n := by
  have hdata : ("0x" ++ printf_x n).data = '0' :: 'x' :: Nat.toDigits 16 n := by
    simp [String.data_append, printf_x]
  rw [hdata]
  simp [c_literal_value, numeral_value_toDigits 16 (by norm_num) (by norm_num) n]

theorem print_number_forms (n : Nat) (hex : Bool) :
    print_number n hex = printf_u n ∨ print_number n hex = "0x" ++ printf_x n := by
  simp only [print_number]
  split_ifs <;> first | exact Or.inl rfl | exact Or.inr rfl

theorem c_literal_print_number (n : Nat) (hex : Bool) :
    c_literal_value (print_number n hex).data = n := by
  rcases print_number_forms n hex with h | h <;> rw [h]
  · exact c_literal_decimal n
  · exact c_literal_hexadecimal n

theorem print_number_injective (m n : Nat) (hm hn : Bool)
    (h : print_number m hm = print_number n hn) : m = n := by
  have := congrArg (fun s => c_literal_value s.data) h
  simpa only [c_literal_print_number] using this

/-- C28: for every 32-bit value `n` and either flag, `print_number` writes the decimal
numeral of `n` or `0x` followed by its lowercase hexadecimal numeral, each a non-empty
list of digits of its base with the value `n` and without a leading zero; read back as a
C integer literal the text has the value `n`, and two different values are never written
as the same text. -/
theorem immediate_text_faithful (n : Nat) (hex : Bool) (_hn : n < 4294967296) :
    (print_number n hex = printf_u n ∨ print_number n hex = "0x" ++ printf_x n) ∧
    numeral_of 10 (printf_u n).data n ∧ numeral_of 16 (printf_x n).data n ∧
    c_literal_value (print_number n hex).data = n ∧
    (∀ m, m < 4294967296 → m ≠ n → print_number m hex ≠ print_number n hex) :=
  ⟨print_number_forms n hex, toDigits_numeral 10 (Or.inl rfl) n,
    toDigits_numeral 16 (Or.inr rfl) n, c_literal_print_number n hex,
    fun m _ hne h => hne (print_number_injective m n hex hex h)⟩

theorem immediate_text_faithful_witness :
    (print_number 4096 false = printf_u 4096 ∨ print_number 4096 false = "0x" ++ printf_x 4096) ∧
    numeral_of 10 (printf_u 4096).data 4096 ∧ numeral_of 16 (printf_x 4096).data 4096 ∧
    c_literal_value (print_number 4096 false).data = 4096 ∧
    (∀ m, m < 4294967296 → m ≠ 4096 → print_number m false ≠ print_number 4096 false) :=
  immediate_text_faithful 4096 false (by norm_num)

/-! ## Jump targets after decoding -/

theorem sys_fallback_map (T : system_var_names) (sel : Nat) (sa sb : mes_expression)
    (params : List mes_parameter) :
    sys_fallback T (.node MES_EXPR_IMM sel sa sb) params =
      (mes_parameter_list_print_from T params 0).map fun arguments =>
        sys_fallback_name (sel % 256) ++ arguments ++ ";\n" := by
  simp only [sys_fallback, mes_expression_print, _mes_expression_print, mes_parameter_list_print,
    sys_fallback_name]
  cases mes_parameter_list_print_from T params 0 <;> rfl

theorem sys_plain_map (T : system_var_names) (name : String) (params : List mes_parameter) :
    sys_plain T name params =
      (mes_parameter_list_print_from T params 0).map fun arguments =>
        name ++ arguments ++ ";\n" := by
  simp only [sys_plain, mes_parameter_list_print]
  cases mes_parameter_list_print_from T params 0 <;> rfl

theorem sys_command_map (T : system_var_names) (sel : Nat) (sa sb : mes_expression)
    (params : List mes_parameter) (name : Int → String) (cmd : Int) (s : Nat)
    (hs : sel % 256 = s) (hcmd : get_int_parameter params 0 = .ok cmd) :
    sys_command T (.node MES_EXPR_IMM sel sa sb) params name =
      (mes_parameter_list_print_from T params (if cmd < 0 then 0 else 1)).map fun arguments =>
        sys_command_name s cmd name ++ arguments ++ ";\n" := by
  subst hs
  simp only [sys_command, hcmd, bind, Except.bind, sys_command_name]
  by_cases h : cmd < 0
  · simp only [if_pos h]
    exact sys_fallback_map T sel sa sb params
  · simp only [if_neg h]
    cases mes_parameter_list_print_from T params 1 <;> rfl

theorem sys_call_start_command (selector : Nat) (cmd : Int) (h : selector ∈ sys_families) :
    sys_call_start selector cmd = if cmd < 0 then 0 else 1 := by
  by_cases hc : cmd < 0
  · have : ¬ (0 ≤ cmd) := by omega
    simp [sys_call_start, sys_consumed, hc, this]
  · have : 0 ≤ cmd := by omega
    simp [sys_call_start, sys_consumed, hc, this, h]

theorem sys_call_start_plain (selector : Nat) (cmd : Int) (h : selector ∉ sys_families) :
    sys_call_start selector cmd = 0 := by
  simp [sys_call_start, sys_consumed, h]

/-- The text of a `SYS` statement whose selector is an 8-bit immediate: the call name,
the parameters from the first one that was not consumed on, `;` and a newline. -/
theorem stmt_sys_print_name (T : system_var_names) (sel : Nat) (sa sb : mes_expression)
    (params : List mes_parameter) (cmd : Int) (hcmd : get_int_parameter params 0 = .ok cmd) :
    stmt_sys_print T (.node MES_EXPR_IMM sel sa sb) params =
      (mes_parameter_list_print_from T params (sys_call_start (sel % 256) cmd)).map
        fun arguments => sys_call_name (sel % 256) cmd ++ arguments ++ ";\n" := by
  by_cases hsel : sel % 256 ∈ sys_selectors
  · simp only [sys_selectors, List.mem_cons, List.mem_singleton, List.mem_nil_iff,
      or_false] at hsel
    rcases hsel with h | h | h | h | h | h | h | h | h | h | h | h | h | h | h | h | h | h | h <;>
      simp only [stmt_sys_print, h, sys_call_name, ne_eq, not_true_eq_false, if_false, if_true,
        Nat.reduceEqDiff, OfNat.ofNat_ne_zero, OfNat.zero_ne_ofNat] <;>
      first
      | (rw [sys_call_start_plain _ _ (by decide)]
         exact sys_plain_map T _ params)
      | (rw [sys_call_start_command _ _ (by decide)]
         exact sys_command_map T sel sa sb params _ cmd _ h hcmd)
  · have hfam : sel % 256 ∉ sys_families := by
      intro hf
      apply hsel
      simp only [sys_families, List.mem_cons, List.mem_singleton, List.mem_nil_iff,
        or_false] at hf
      rcases hf with h | h | h | h | h | h | h | h | h <;> rw [h] <;> decide
    rw [stmt_sys_print_unknown T sel sa sb params hsel, sys_call_start_plain _ _ hfam,
      sys_fallback_map]
    simp only [sys_selectors, List.mem_cons, List.mem_singleton, List.mem_nil_iff, or_false,
      not_or] at hsel
    obtain ⟨h0, h2, h3, h4, h5, h7, h8, h9, h10, h11, h12, h13, h16, h17, h19, h20, h21, h22,
      h23⟩ := hsel
    simp only [sys_call_name, if_neg h0, if_neg h2, if_neg h3, if_neg h4, if_neg h5, if_neg h7,
      if_neg h8, if_neg h9, if_neg h10, if_neg h11, if_neg h12, if_neg h13, if_neg h16,
      if_neg h17, if_neg h19, if_neg h20, if_neg h21, if_neg h22, if_neg h23]

/-- Two texts that agree, each made of a part without the delimiter `d`, then `d`, then
a rest, have the same parts and the same rests. -/
theorem split_at_delimiter (d : Char) :
    ∀ xs ys r1 r2 : List Char, d ∉ xs → d ∉ ys → xs ++ d :: r1 = ys ++ d :: r2 →
      xs = ys ∧ r1 = r2 := by
  intro xs
  induction xs with
  | nil =>
    intro ys r1 r2 _ hy h
    cases ys with
    | nil => exact ⟨rfl, by simpa using h⟩
    | cons y ys =>
      simp only [List.nil_append, List.cons_append, List.cons.injEq] at h
      exact absurd (h.1 ▸ List.mem_cons_self _ _) hy
  | cons x xs ih =>
    intro ys r1 r2 hx hy h
    cases ys with
    | nil =>
      simp only [List.nil_append, List.cons_append, List.cons.injEq] at h
      exact absurd (h.1 ▸ List.mem_cons_self _ _) hx
    | cons y ys =>
      simp only [List.cons_append, List.cons.injEq] at h
      obtain ⟨hxy, hrest⟩ := ih ys r1 r2 (fun hm => hx (List.mem_cons_of_mem _ hm))
        (fun hm => hy (List.mem_cons_of_mem _ hm)) h.2
      exact ⟨by rw [h.1, hxy], hrest⟩

theorem printf_u_chars (n : Nat) : ∀ c ∈ (printf_u n).data, c ∈ hex_alphabet := by
  intro c hc
  rcases toDigitsCore_mem_take 10 (Or.inl rfl) (n + 1) n [] c hc with h | h
  · exact List.mem_of_mem_take h
  · cases h

theorem printf_x_chars (n : Nat) : ∀ c ∈ (printf_x n).data, c ∈ hex_alphabet := by
  intro c hc
  rcases toDigitsCore_mem_take 16 (Or.inr rfl) (n + 1) n [] c hc with h | h
  · exact List.mem_of_mem_take h
  · cases h

theorem print_number_chars (n : Nat) (hex : Bool) :
    ∀ c ∈ (print_number n hex).data, c ∈ hex_alphabet ∨ c = 'x' := by
  intro c hc
  rcases print_number_forms n hex with h | h <;> rw [h] at hc
  · exact Or.inl (printf_u_chars n c hc)
  · simp only [String.data_append, List.mem_append] at hc
    rcases hc with hc | hc
    · have : c = '0' ∨ c = 'x' := by simpa using hc
      rcases this with h0 | hx
      · subst h0; exact Or.inl (by decide)
      · exact Or.inr hx
    · exact Or.inl (printf_x_chars n c hc)

theorem printf_u_injective (m n : Nat) (h : printf_u m = printf_u n) : m = n := by
  have := congrArg (fun s => numeral_value 10 s.data) h
  simpa only [printf_u, numeral_value_toDigits 10 (by norm_num) (by norm_num)] using this

theorem printf_u_no_delimiter (n : Nat) (d : Char) (hd : d ∉ hex_alphabet) :
    d ∉ (printf_u n).data :=
  fun h => hd (printf_u_chars n d h)

theorem print_number_no_delimiter (n : Nat) (hex : Bool) (d : Char) (hd : d ∉ hex_alphabet)
    (hx : d ≠ 'x') : d ∉ (print_number n hex).data := by
  intro h
  rcases print_number_chars n hex d h with h | h
  · exact hd h
  · exact hx h

/-- The names of a subsystem `f` with the beginning `head`: the commands of the list
`named` have each a name of their own, without `(` and without `[` after the beginning,
and every other command `n` is written `function[n]` after the beginning. Then no name
holds `(`, every name begins with `head`, and different commands have different names. -/
theorem family_names (f : Int → String) (head : String) (named : List Nat)
    (hun : ∀ n : Nat, n ∉ named → f n = head ++ "function[" ++ printf_u n ++ "]")
    (hnamed : ∀ n ∈ named,
      (f (n : Int)).data = head.data ++ (f n).data.drop head.data.length ∧
        '(' ∉ (f n).data ∧ '[' ∉ (f n).data.drop head.data.length ∧
        ∀ m ∈ named, f (m : Int) = f n → m = n)
    (hhead : '(' ∉ head.data) :
    (∀ c : Nat, '(' ∉ (f c).data) ∧
    (∀ c : Nat, ∃ tail, (f c).data = head.data ++ tail) ∧
    (∀ c1 c2 : Nat, f c1 = f c2 → c1 = c2) := by
  have hparen : ∀ c : Nat, '(' ∉ (f c).data := by
    intro c
    by_cases hc : c ∈ named
    · exact (hnamed c hc).2.1
    · rw [hun c hc]
      simp only [String.data_append, List.mem_append, not_or]
      exact ⟨⟨⟨hhead, by decide⟩, printf_u_no_delimiter c '(' (by decide)⟩, by decide⟩
  have hmixed : ∀ c1 c2 : Nat, c1 ∈ named → c2 ∉ named → f c1 ≠ f c2 := by
    intro c1 c2 h1 h2 h
    obtain ⟨hd, _, hbracket, _⟩ := hnamed c1 h1
    have hdata := congrArg String.data h
    rw [hd, hun c2 h2] at hdata
    simp only [String.data_append, List.append_assoc, List.append_cancel_left_eq] at hdata
    apply hbracket
    rw [hdata]
    simp
  refine ⟨hparen, ?_, ?_⟩
  · intro c
    by_cases hc : c ∈ named
    · exact ⟨_, (hnamed c hc).1⟩
    · rw [hun c hc]
      exact ⟨("function[" ++ printf_u c ++ "]").data,
        by simp only [String.data_append, List.append_assoc]⟩
  · intro c1 c2 h
    by_cases h1 : c1 ∈ named <;> by_cases h2 : c2 ∈ named
    · exact (hnamed c2 h2).2.2.2 c1 h1 h
    · exact absurd h (hmixed c1 c2 h1 h2)
    · exact absurd h.symm (hmixed c2 c1 h2 h1)
    · rw [hun c1 h1, hun c2 h2] at h
      have hdata := congrArg String.data h
      simp only [String.data_append, List.append_assoc, List.append_cancel_left_eq,
        List.append_cancel_right_eq] at hdata
      exact printf_u_injective c1 c2 (String.ext hdata)

set_option maxRecDepth 100000 in
theorem sys_cursor_names :
    (∀ c : Nat, '(' ∉ (sys_cursor_name c).data) ∧
    (∀ c : Nat, ∃ tail, (sys_cursor_name c).data = "System.Cursor.".data ++ tail) ∧
    (∀ c1 c2 : Nat, sys_cursor_name c1 = sys_cursor_name c2 → c1 = c2) :=
  family_names sys_cursor_name "System.Cursor." [0, 1, 2, 3, 4, 5, 6]
    (fun n h => by
      rw [sys_cursor_name_unknown n h]
      apply String.ext
      simp [String.data_append])
    (by decide) (by decide)

set_option maxRecDepth 100000 in
theorem sys_savedata_names :
    (∀ c : Nat, '(' ∉ (sys_savedata_name c).data) ∧
    (∀ c : Nat, ∃ tail, (sys_savedata_name c).data = "System.SaveData.".data ++ tail) ∧
    (∀ c1 c2 : Nat, sys_savedata_name c1 = sys_savedata_name c2 → c1 = c2) :=
  family_names sys_savedata_name "System.SaveData." [0, 1, 2, 3, 4, 5, 6, 7, 8, 9, 13]
    (fun n h => by
      rw [sys_savedata_name_unknown n h]
      apply String.ext
      simp [String.data_append])
    (by decide) (by decide)

set_option maxRecDepth 100000 in
theorem sys_audio_names :
    (∀ c : Nat, '(' ∉ (sys_audio_name c).data) ∧
    (∀ c : Nat, ∃ tail, (sys_audio_name c).data = "System.Audio.".data ++ tail) ∧
    (∀ c1 c2 : Nat, sys_audio_name c1 = sys_audio_name c2 → c1 = c2) :=
  family_names sys_audio_name "System.Audio." [0, 2, 3, 4, 5, 7, 9, 10, 12, 18]
    (fun n h => by
      rw [sys_audio_name_unknown n h]
      apply String.ext
      simp [String.data_append])
    (by decide) (by decide)

set_option maxRecDepth 100000 in
theorem sys_file_names :
    (∀ c : Nat, '(' ∉ (sys_file_name c).data) ∧
    (∀ c : Nat, ∃ tail, (sys_file_name c).data = "System.File.".data ++ tail) ∧
    (∀ c1 c2 : Nat, sys_file_name c1 = sys_file_name c2 → c1 = c2) :=
  family_names sys_file_name "System.File." [0, 1]
    (fun n h => by
      rw [sys_file_name_unknown n h]
      apply String.ext
      simp [String.data_append])
    (by decide) (by decide)

set_option maxRecDepth 100000 in
theorem sys_palette_names :
    (∀ c : Nat, '(' ∉ (sys_palette_name c).data) ∧
    (∀ c : Nat, ∃ tail, (sys_palette_name c).data = "System.Palette.".data ++ tail) ∧
    (∀ c1 c2 : Nat, sys_palette_name c1 = sys_palette_name c2 → c1 = c2) :=
  family_names sys_palette_name "System.Palette." [0]
    (fun n h => by
      rw [sys_palette_name_unknown n h]
      apply String.ext
      simp [String.data_append])
    (by decide) (by decide)

set_option maxRecDepth 100000 in
theorem sys_image_names :
    (∀ c : Nat, '(' ∉ (sys_image_name c).data) ∧
    (∀ c : Nat, ∃ tail, (sys_image_name c).data = "System.Image.".data ++ tail) ∧
    (∀ c1 c2 : Nat, sys_image_name c1 = sys_image_name c2 → c1 = c2) :=
  family_names sys_image_name "System.Image." [2, 4]
    (fun n h => by
      rw [sys_image_name_unknown n h]
      apply String.ext
      simp [String.data_append])
    (by decide) (by decide)

theorem sys_numbered_names (head : String) (hhead : '(' ∉ head.data) :
    (∀ c : Nat, '(' ∉ (head ++ "function[" ++ printf_d (c : Int) ++ "]").data) ∧
    (∀ c : Nat, ∃ tail, (head ++ "function[" ++ printf_d (c : Int) ++ "]").data =
      head.data ++ tail) ∧
    (∀ c1 c2 : Nat, head ++ "function[" ++ printf_d (c1 : Int) ++ "]" =
      head ++ "function[" ++ printf_d (c2 : Int) ++ "]" → c1 = c2) :=
  family_names (fun cmd => head ++ "function[" ++ printf_d cmd ++ "]") head []
    (fun n _ => by simp only [printf_d_natCast])
    (fun n h => by cases h) hhead

/-- Every family of `stmt_sys_print` with command numbers: no name holds `(`, every
name begins with the beginning of the family, and different commands have different
names. -/
theorem sys_family_facts :
    ∀ e ∈ sys_family_names,
      (∀ c : Nat, '(' ∉ (e.2.2 c).data) ∧
      (∀ c : Nat, ∃ tail, (e.2.2 c).data = e.2.1.data ++ tail) ∧
      (∀ c1 c2 : Nat, e.2.2 c1 = e.2.2 c2 → c1 = c2) := by
  intro e he
  simp only [sys_family_names, List.mem_cons, List.mem_singleton, List.mem_nil_iff,
    or_false] at he
  have h3 := sys_numbered_names "System.function[3]." (by decide)
  have h19 := sys_numbered_names "System.function[19]." (by decide)
  have h22 := sys_numbered_names "System.function[22]." (by decide)
  have e3 : ∀ cmd : Int, "System.function[3].function[" ++ printf_d cmd ++ "]" =
      "System.function[3]." ++ "function[" ++ printf_d cmd ++ "]" := fun cmd => by
    apply String.ext; simp [String.data_append]
  have e19 : ∀ cmd : Int, "System.function[19].function[" ++ printf_d cmd ++ "]" =
      "System.function[19]." ++ "function[" ++ printf_d cmd ++ "]" := fun cmd => by
    apply String.ext; simp [String.data_append]
  have e22 : ∀ cmd : Int, "System.function[22].function[" ++ printf_d cmd ++ "]" =
      "System.function[22]." ++ "function[" ++ printf_d cmd ++ "]" := fun cmd => by
    apply String.ext; simp [String.data_append]
  rcases he with h | h | h | h | h | h | h | h | h <;> subst h
  · exact sys_cursor_names
  · simp only [e3]; exact h3
  · exact sys_savedata_names
  · exact sys_audio_names
  · exact sys_file_names
  · exact sys_palette_names
  · exact sys_image_names
  · simp only [e19]; exact h19
  · simp only [e22]; exact h22

/-- The beginnings of two families are never the beginning of the same text. -/
theorem sys_family_heads_clash :
    ∀ e1 ∈ sys_family_names, ∀ e2 ∈ sys_family_names, ∀ t1 t2 : List Char,
      e1.2.1.data ++ t1 = e2.2.1.data ++ t2 → e1 = e2 := by
  intro e1 h1 e2 h2 t1 t2 h
  simp only [sys_family_names, List.mem_cons, List.mem_singleton, List.mem_nil_iff,
    or_false] at h1 h2
  rcases h1 with h1 | h1 | h1 | h1 | h1 | h1 | h1 | h1 | h1 <;>
    rcases h2 with h2 | h2 | h2 | h2 | h2 | h2 | h2 | h2 | h2 <;> subst h1 h2 <;>
    first | rfl | (exfalso; revert h; simp)

theorem sys_plain_vs_family :
    ∀ p ∈ sys_plain_names, ∀ e ∈ sys_family_names, ∀ tail : List Char,
      p.2.data ≠ e.2.1.data ++ tail := by
  intro p hp e he tail h
  simp only [sys_family_names, sys_plain_names, List.mem_cons, List.mem_singleton,
    List.mem_nil_iff, or_false] at hp he
  rcases hp with hp | hp | hp | hp | hp | hp | hp | hp | hp | hp <;>
    rcases he with he | he | he | he | he | he | he | he | he <;> subst hp he <;>
    (revert h; simp)

theorem sys_fallback_name_data (s : Nat) :
    (sys_fallback_name s).data =
      "System.function[".data ++ ((print_number s false).data ++ [']']) := by
  simp [sys_fallback_name, String.data_append]

theorem sys_plain_vs_fallback :
    ∀ p ∈ sys_plain_names, ∀ s : Nat, p.2 ≠ sys_fallback_name s := by
  intro p hp s h
  have hdata := congrArg String.data h
  rw [sys_fallback_name_data] at hdata
  simp only [sys_plain_names, List.mem_cons, List.mem_singleton, List.mem_nil_iff,
    or_false] at hp
  rcases hp with hp | hp | hp | hp | hp | hp | hp | hp | hp | hp <;> subst hp <;>
    (revert hdata; simp)

theorem sys_fallback_vs_family :
    ∀ e ∈ sys_family_names, ∀ (s : Nat) (tail : List Char),
      (sys_fallback_name s).data ≠ e.2.1.data ++ tail := by
  intro e he s tail h
  rw [sys_fallback_name_data] at h
  have hno : ']' ∉ (print_number s false).data :=
    print_number_no_delimiter s false ']' (by decide) (by decide)
  have hsplit : ∀ (ys r : List Char), ']' ∉ ys →
      (print_number s false).data ++ [']'] = ys ++ ']' :: r → r = [] := fun ys r hy hs =>
    (split_at_delimiter ']' _ ys [] r hno hy hs).2.symm
  simp only [sys_family_names, List.mem_cons, List.mem_singleton, List.mem_nil_iff,
    or_false] at he
  rcases he with he | he | he | he | he | he | he | he | he <;> subst he
  case inr.inl => exact absurd (hsplit ['3'] ('.' :: tail) (by decide) (by simpa using h)) (by simp)
  case inr.inr.inr.inr.inr.inr.inr.inl =>
    exact absurd (hsplit ['1', '9'] ('.' :: tail) (by decide) (by simpa using h)) (by simp)
  case inr.inr.inr.inr.inr.inr.inr.inr =>
    exact absurd (hsplit ['2', '2'] ('.' :: tail) (by decide) (by simpa using h)) (by simp)
  all_goals (revert h; simp)

theorem sys_fallback_name_injective (s1 s2 : Nat)
    (h : sys_fallback_name s1 = sys_fallback_name s2) : s1 = s2 := by
  have hdata := congrArg String.data h
  simp only [sys_fallback_name_data, List.append_cancel_left_eq,
    List.append_cancel_right_eq] at hdata
  exact print_number_injective s1 s2 false false (String.ext hdata)

theorem sys_fallback_name_paren (s : Nat) : '(' ∉ (sys_fallback_name s).data := by
  rw [sys_fallback_name_data]
  simp only [List.mem_append, not_or]
  exact ⟨by decide, print_number_no_delimiter s false '(' (by decide) (by decide), by decide⟩

theorem sys_plain_names_injective :
    ∀ p1 ∈ sys_plain_names, ∀ p2 ∈ sys_plain_names, p1.2 = p2.2 → p1 = p2 := by decide

theorem sys_plain_names_paren : ∀ p ∈ sys_plain_names, '(' ∉ p.2.data := by decide

/-- The three kinds of call names: a fixed name, the name of a command of a family, and
the generic name. -/
theorem sys_call_name_class (sel : Nat) (cmd : Int) :
    (∃ p ∈ sys_plain_names, sel = p.1 ∧ sys_call_name sel cmd = p.2 ∧
      sys_consumed sel cmd = none) ∨
    (∃ e ∈ sys_family_names, ∃ c : Nat, sel = e.1 ∧ cmd = c ∧
      sys_call_name sel cmd = e.2.2 c ∧ sys_consumed sel cmd = some cmd) ∨
    (sys_call_name sel cmd = sys_fallback_name sel ∧ sys_consumed sel cmd = none) := by
  have hfam : ∀ e ∈ sys_family_names, sel = e.1 →
      sys_call_name sel cmd = sys_command_name sel cmd e.2.2 → sel ∈ sys_families →
      (∃ e ∈ sys_family_names, ∃ c : Nat, sel = e.1 ∧ cmd = c ∧
        sys_call_name sel cmd = e.2.2 c ∧ sys_consumed sel cmd = some cmd) ∨
      (sys_call_name sel cmd = sys_fallback_name sel ∧ sys_consumed sel cmd = none) := by
    intro e he hsel hname hmem
    by_cases hc : cmd < 0
    · right
      have hneg : ¬ (0 ≤ cmd) := by omega
      exact ⟨by rw [hname, sys_command_name, if_pos hc], by simp [sys_consumed, hneg]⟩
    · left
      have hpos : 0 ≤ cmd := by omega
      obtain ⟨c, hcmd⟩ := Int.eq_ofNat_of_zero_le hpos
      refine ⟨e, he, c, hsel, hcmd, ?_, by simp [sys_consumed, hpos, hmem]⟩
      rw [hname, sys_command_name, if_neg hc, hcmd]
  have hplain : ∀ name : String, (sel, name) ∈ sys_plain_names → sys_call_name sel cmd = name →
      sel ∉ sys_families →
      ∃ p ∈ sys_plain_names, sel = p.1 ∧ sys_call_name sel cmd = p.2 ∧
        sys_consumed sel cmd = none := by
    intro name hmem hname hnot
    exact ⟨(sel, name), hmem, rfl, hname, by simp [sys_consumed, hnot]⟩
  by_cases hsel : sel ∈ sys_selectors
  · simp only [sys_selectors, List.mem_cons, List.mem_singleton, List.mem_nil_iff,
      or_false] at hsel
    rcases hsel with h | h | h | h | h | h | h | h | h | h | h | h | h | h | h | h | h | h | h <;>
      subst h
    · exact Or.inl (hplain _ (by simp [sys_plain_names, sys_call_name]) rfl (by decide))
    · exact Or.inr (hfam (sys_family_names.get ⟨0, by decide⟩) (List.get_mem _ _ _) rfl rfl
        (by decide))
    · exact Or.inr (hfam (sys_family_names.get ⟨1, by decide⟩) (List.get_mem _ _ _) rfl rfl
        (by decide))
    · exact Or.inr (hfam (sys_family_names.get ⟨2, by decide⟩) (List.get_mem _ _ _) rfl rfl
        (by decide))
    · exact Or.inr (hfam (sys_family_names.get ⟨3, by decide⟩) (List.get_mem _ _ _) rfl rfl
        (by decide))
    · exact Or.inr (hfam (sys_family_names.get ⟨4, by decide⟩) (List.get_mem _ _ _) rfl rfl
        (by decide))
    · exact Or.inl (hplain _ (by simp [sys_plain_names, sys_call_name]) rfl (by decide))
    · exact Or.inr (hfam (sys_family_names.get ⟨5, by decide⟩) (List.get_mem _ _ _) rfl rfl
        (by decide))
    · exact Or.inr (hfam (sys_family_names.get ⟨6, by decide⟩) (List.get_mem _ _ _) rfl rfl
        (by decide))
    · exact Or.inl (hplain _ (by simp [sys_plain_names, sys_call_name]) rfl (by decide))
    · exact Or.inl (hplain _ (by simp [sys_plain_names, sys_call_name]) rfl (by decide))
    · exact Or.inl (hplain _ (by simp [sys_plain_names, sys_call_name]) rfl (by decide))
    · exact Or.inl (hplain _ (by simp [sys_plain_names, sys_call_name]) rfl (by decide))
    · exact Or.inl (hplain _ (by simp [sys_plain_names, sys_call_name]) rfl (by decide))
    · exact Or.inr (hfam (sys_family_names.get ⟨7, by decide⟩) (List.get_mem _ _ _) rfl rfl
        (by decide))
    · exact Or.inl (hplain _ (by simp [sys_plain_names, sys_call_name]) rfl (by decide))
    · exact Or.inl (hplain _ (by simp [sys_plain_names, sys_call_name]) rfl (by decide))
    · exact Or.inr (hfam (sys_family_names.get ⟨8, by decide⟩) (List.get_mem _ _ _) rfl rfl
        (by decide))
    · exact Or.inl (hplain _ (by simp [sys_plain_names, sys_call_name]) rfl (by decide))
  · have hnot : sel ∉ sys_families := by
      intro hf
      apply hsel
      simp only [sys_families, List.mem_cons, List.mem_singleton, List.mem_nil_iff,
        or_false] at hf
      rcases hf with h | h | h | h | h | h | h | h | h <;> rw [h] <;> decide
    refine Or.inr (Or.inr ⟨?_, by simp [sys_consumed, hnot]⟩)
    simp only [sys_selectors, List.mem_cons, List.mem_singleton, List.mem_nil_iff, or_false,
      not_or] at hsel
    obtain ⟨h0, h2, h3, h4, h5, h7, h8, h9, h10, h11, h12, h13, h16, h17, h19, h20, h21, h22,
      h23⟩ := hsel
    simp only [sys_call_name, if_neg h0, if_neg h2, if_neg h3, if_neg h4, if_neg h5, if_neg h7,
      if_neg h8, if_neg h9, if_neg h10, if_neg h11, if_neg h12, if_neg h13, if_neg h16,
      if_neg h17, if_neg h19, if_neg h20, if_neg h21, if_neg h22, if_neg h23]

theorem sys_call_name_paren (sel : Nat) (cmd : Int) : '(' ∉ (sys_call_name sel cmd).data := by
  rcases sys_call_name_class sel cmd with ⟨p, hp, _, hn, _⟩ | ⟨e, he, c, _, _, hn, _⟩ | ⟨hn, _⟩ <;>
    rw [hn]
  · exact sys_plain_names_paren p hp
  · exact (sys_family_facts e he).1 c
  · exact sys_fallback_name_paren sel

/-- The call name determines the selector and the consumed sub-selector. -/
theorem sys_call_name_determines (sel1 sel2 : Nat) (cmd1 cmd2 : Int)
    (h : sys_call_name sel1 cmd1 = sys_call_name sel2 cmd2) :
    sel1 = sel2 ∧ sys_consumed sel1 cmd1 = sys_consumed sel2 cmd2 := by
  rcases sys_call_name_class sel1 cmd1 with
    ⟨p1, hp1, hs1, hn1, hk1⟩ | ⟨e1, he1, c1, hs1, hc1, hn1, hk1⟩ | ⟨hn1, hk1⟩ <;>
  rcases sys_call_name_class sel2 cmd2 with
    ⟨p2, hp2, hs2, hn2, hk2⟩ | ⟨e2, he2, c2, hs2, hc2, hn2, hk2⟩ | ⟨hn2, hk2⟩ <;>
  rw [hn1, hn2] at h
  · have := sys_plain_names_injective p1 hp1 p2 hp2 h
    exact ⟨by rw [hs1, hs2, this], by rw [hk1, hk2]⟩
  · obtain ⟨tail, ht⟩ := (sys_family_facts e2 he2).2.1 c2
    exact absurd (by rw [h, ht]) (sys_plain_vs_family p1 hp1 e2 he2 tail)
  · exact absurd h (sys_plain_vs_fallback p1 hp1 sel2)
  · obtain ⟨tail, ht⟩ := (sys_family_facts e1 he1).2.1 c1
    exact absurd (by rw [← h, ht]) (sys_plain_vs_family p2 hp2 e1 he1 tail)
  · obtain ⟨t1, ht1⟩ := (sys_family_facts e1 he1).2.1 c1
    obtain ⟨t2, ht2⟩ := (sys_family_facts e2 he2).2.1 c2
    have hdata := congrArg String.data h
    rw [ht1, ht2] at hdata
    have he := sys_family_heads_clash e1 he1 e2 he2 t1 t2 hdata
    subst he
    have hc := (sys_family_facts e1 he1).2.2 c1 c2 h
    subst hc
    exact ⟨by rw [hs1, hs2], by rw [hk1, hk2, hc1, hc2]⟩
  · obtain ⟨tail, ht⟩ := (sys_family_facts e1 he1).2.1 c1
    exact absurd (by rw [← h, ht]) (sys_fallback_vs_family e1 he1 sel2 tail)
  · exact absurd h.symm (sys_plain_vs_fallback p2 hp2 sel1)
  · obtain ⟨tail, ht⟩ := (sys_family_facts e2 he2).2.1 c2
    exact absurd (by rw [h, ht]) (sys_fallback_vs_family e2 he2 sel1 tail)
  · exact ⟨sys_fallback_name_injective sel1 sel2 h, by rw [hk1, hk2]⟩

theorem sys_text_call_name (T : system_var_names) (sel : Nat) (sa sb : mes_expression)
    (params : List mes_parameter) (cmd : Int) (text : String)
    (hcmd : get_int_parameter params 0 = .ok cmd)
    (htext : stmt_sys_print T (.node MES_EXPR_IMM sel sa sb) params = .ok text) :
    ∃ items, text = sys_call_name (sel % 256) cmd ++ "(" ++ items := by
  rw [stmt_sys_print_name T sel sa sb params cmd hcmd] at htext
  simp only [mes_parameter_list_print_from] at htext
  cases hloop : parameter_list_loop T (sys_call_start (sel % 256) cmd)
      (params.drop (sys_call_start (sel % 256) cmd)) (sys_call_start (sel % 256) cmd) with
  | error err => rw [hloop] at htext; cases htext
  | ok items =>
    rw [hloop] at htext
    simp only [bind, Except.bind, pure, Except.pure, Except.map, Except.ok.injEq] at htext
    refine ⟨items ++ ")" ++ ";\n", ?_⟩
    rw [← htext]
    apply String.ext
    simp [String.data_append]

/-- C29: for two `SYS` statements whose selectors are 8-bit immediates and that are
written as `text1` and `text2`, each text is the call name followed by the `(` that
opens the argument list, the call name holds no `(`, and the call name determines the
selector and the consumed sub-selector: when the selectors differ, or the consumed
sub-selectors differ, or one statement consumes a sub-selector and the other does not,
the call names differ. Only selector 4 with the consumed sub-selector 11 has the call
name `System.SaveData.function[11]`. -/
theorem sys_call_name_unambiguous (T : system_var_names) (sel1 sel2 : Nat)
    (sa1 sb1 sa2 sb2 : mes_expression) (params1 params2 : List mes_parameter)
    (cmd1 cmd2 : Int) (text1 text2 : String)
    (hcmd1 : get_int_parameter params1 0 = .ok cmd1)
    (hcmd2 : get_int_parameter params2 0 = .ok cmd2)
    (htext1 : stmt_sys_print T (.node MES_EXPR_IMM sel1 sa1 sb1) params1 = .ok text1)
    (htext2 : stmt_sys_print T (.node MES_EXPR_IMM sel2 sa2 sb2) params2 = .ok text2) :
    (∃ items, text1 = sys_call_name (sel1 % 256) cmd1 ++ "(" ++ items) ∧
    (∃ items, text2 = sys_call_name (sel2 % 256) cmd2 ++ "(" ++ items) ∧
    '(' ∉ (sys_call_name (sel1 % 256) cmd1).data ∧
    '(' ∉ (sys_call_name (sel2 % 256) cmd2).data ∧
    (sel1 % 256 ≠ sel2 % 256 ∨
        sys_consumed (sel1 % 256) cmd1 ≠ sys_consumed (sel2 % 256) cmd2 →
      sys_call_name (sel1 % 256) cmd1 ≠ sys_call_name (sel2 % 256) cmd2) ∧
    (sys_call_name (sel1 % 256) cmd1 = "System.SaveData.function[11]" →
      sel1 % 256 = 4 ∧ sys_consumed (sel1 % 256) cmd1 = some 11) := by
  refine ⟨sys_text_call_name T sel1 sa1 sb1 params1 cmd1 text1 hcmd1 htext1,
    sys_text_call_name T sel2 sa2 sb2 params2 cmd2 text2 hcmd2 htext2,
    sys_call_name_paren _ _, sys_call_name_paren _ _, ?_, ?_⟩
  · intro hne heq
    obtain ⟨hs, hk⟩ := sys_call_name_determines _ _ _ _ heq
    rcases hne with hne | hne
    · exact hne hs
    · exact hne hk
  · intro heq
    have h11 : sys_call_name 4 11 = "System.SaveData.function[11]" := by decide
    rw [← h11] at heq
    obtain ⟨hs, hk⟩ := sys_call_name_determines _ _ _ _ heq
    exact ⟨hs, by rw [hk]; decide⟩

theorem sys_call_name_unambiguous_witness :
    stmt_sys_print no_names (imm8 4) [.MES_PARAM_EXPRESSION (imm8 11), .MES_PARAM_STRING "a"] =
      .ok "System.SaveData.function[11](\"a\");\n" ∧
    stmt_sys_print no_names (imm8 4) [.MES_PARAM_STRING "a"] =
      .ok "System.function[4](\"a\");\n" ∧
    sys_call_name (4 % 256) 11 ≠ sys_call_name (4 % 256) (-1) :=
  ⟨by decide, by decide,
   (sys_call_name_unambiguous no_names 4 4 .NULL .NULL .NULL .NULL
      [.MES_PARAM_EXPRESSION (imm8 11), .MES_PARAM_STRING "a"] [.MES_PARAM_STRING "a"] 11 (-1)
      "System.SaveData.function[11](\"a\");\n" "System.function[4](\"a\");\n"
      (by decide) (by decide) (by decide) (by decide)).2.2.2.2.1 (Or.inr (by decide))⟩

end Ai5
